import Mathlib

set_option linter.unusedVariables false

/-!
# QSPI flash access layer of the first-stage boot loader (`src/qspi.c`)

A shallow embedding of `FlashReadID`, `InitQspi` (mode decision), `FlashRead`,
`SendBankSelect` and `QspiAccess`, followed by theorems about them.

Conventions of the embedding

* `u32` variables are natural numbers kept below `2^32`; every C addition is
  followed by `u32`, every C subtraction is `sub32`.
* The controller and the flash devices are outside the driver.  The `k`-th call
  of `XQspiPs_PolledTransfer` of a run answers with `hw k`: a status and the
  bytes clocked into the receive buffer.  Any behaviour of the bus along one run
  is such a sequence, so theorems quantified over `hw` hold for every bus.
* `LQSPI_CR` is a plain register: a read returns the value written last.
* The driver state carries a trace `log` of what the driver did (transfers,
  register writes, calls of `FlashRead` and `SendBankSelect`, copies).  The trace
  is instrumentation: no decision of the embedded code reads it.
-/

namespace Qspi

/-! ## Definitions: the embedding of `qspi.c`, the trace and its readings -/

def XST_SUCCESS : Nat := 0

def XST_FAILURE : Nat := 1

def SINGLE_READ_CMD : Nat := 0x03

def FAST_READ_CMD : Nat := 0x0B

def DUAL_READ_CMD : Nat := 0x3B

def QUAD_READ_CMD : Nat := 0x6B

def READ_ID_CMD : Nat := 0x9F

def WRITE_ENABLE_CMD : Nat := 0x06

def BANK_REG_RD : Nat := 0x16

def BANK_REG_WR : Nat := 0x17

def EXTADD_REG_RD : Nat := 0xC8

def EXTADD_REG_WR : Nat := 0xC5

def COMMAND_OFFSET : Nat := 0

def ADDRESS_1_OFFSET : Nat := 1

def ADDRESS_2_OFFSET : Nat := 2

def ADDRESS_3_OFFSET : Nat := 3

def DATA_OFFSET : Nat := 4

def DUMMY_SIZE : Nat := 1

def DUMMY_MAX_SIZE : Nat := 8

def RD_ID_SIZE : Nat := 4

def BANK_SEL_SIZE : Nat := 2

def WRITE_ENABLE_CMD_SIZE : Nat := 1

def OVERHEAD_SIZE : Nat := 4

def DATA_SIZE : Nat := 4096

def LQSPI_CR_1_DUMMY_BYTE : Nat := 0x100

/-- Modelled from the spec: `FLASH_SIZE_16MB` of `qspi.h` (not among the sources);
the bank size, fixed at 16 MiB. -/
def FLASH_SIZE_16MB : Nat := 0x1000000

/-- Modelled from the spec: `BANKMASK` of `qspi.h` (not among the sources); the four
bank bits above the 24-bit frame address. -/
def BANKMASK : Nat := 0x0F000000

/-- Modelled from the spec: connection modes of `qspi.h` (not among the sources), the
values `XPAR_PS7_QSPI_0_QSPI_MODE` is compared with. -/
def SINGLE_FLASH_CONNECTION : Nat := 0

/-- Modelled from the spec: connection mode of two stacked devices (`qspi.h`). -/
def DUAL_STACK_CONNECTION : Nat := 1

/-- Modelled from the spec: connection mode of two parallel devices (`qspi.h`). -/
def DUAL_PARALLEL_CONNECTION : Nat := 2

/-- Modelled from the spec: vendor identifiers of `qspi.h` (not among the sources). -/
def MICRON_ID : Nat := 0x20

/-- Modelled from the spec: vendor identifier of family B (`qspi.h`). -/
def SPANSION_ID : Nat := 0x01

/-- Modelled from the spec: vendor identifier of Winbond (`qspi.h`). -/
def WINBOND_ID : Nat := 0xEF

/-- Modelled from the spec: size codes of the identification response (`qspi.h`). -/
def FLASH_SIZE_ID_128M : Nat := 0x18

def FLASH_SIZE_ID_256M : Nat := 0x19

def FLASH_SIZE_ID_512M : Nat := 0x20

def FLASH_SIZE_ID_1G : Nat := 0x21

/-- Modelled from the spec: device capacities in bytes (`qspi.h`); 128 Mbit is 16 MiB. -/
def FLASH_SIZE_128M : Nat := 0x1000000

def FLASH_SIZE_256M : Nat := 0x2000000

def FLASH_SIZE_512M : Nat := 0x4000000

def FLASH_SIZE_1G : Nat := 0x8000000

/-- Modelled from the spec: bits of the controller's `LQSPI_CR` register, declared in
the controller library header `xqspips_hw.h` (not among the sources). -/
def XQSPIPS_LQSPI_CR_LINEAR_MASK : Nat := 0x80000000

def XQSPIPS_LQSPI_CR_TWO_MEM_MASK : Nat := 0x40000000

def XQSPIPS_LQSPI_CR_SEP_BUS_MASK : Nat := 0x20000000

def XQSPIPS_LQSPI_CR_U_PAGE_MASK : Nat := 0x10000000

/-- Truncation to an unsigned 32-bit value. -/
def u32 (x : Nat) : Nat := x % 4294967296

/-- Truncation to an unsigned 8-bit value. -/
def u8 (x : Nat) : Nat := x % 256

/-- Unsigned 32-bit subtraction `a - b` of two `u32` values. -/
def sub32 (a b : Nat) : Nat := (a + 4294967296 - b) % 4294967296

/-- Bitwise complement of a 32-bit value. -/
def not32 (m : Nat) : Nat := 4294967295 - m

/-- Answer of the bus to one polled transfer. -/
structure Resp where
  status : Nat
  rx : Nat → Nat

/-- What the driver does, in order. `cr` is the value of `LQSPI_CR` at that moment,
`wb` the twelve bytes of `WriteBuffer` when the transfer starts. -/
inductive Event where
  | xfer (wb : List Nat) (recv : Bool) (count : Nat) (status : Nat)
  | setCr (v : Nat)
  | slaveSelect
  | bankSel (cr : Nat) (b : Nat) (status : Nat)
  | flashRead (cr : Nat) (addr : Nat) (count : Nat)
  | memcpy (dst : Nat) (off : Nat) (len : Nat)
  | memcpyLinear (dst : Nat) (src : Nat) (len : Nat)
  deriving DecidableEq

/-- Globals of `qspi.c`, the `LQSPI_CR` register, the memory written by `memcpy`,
the number of transfers issued so far and the trace. -/
structure Drv where
  QspiFlashSize : Nat
  QspiFlashMake : Nat
  LinearBootDeviceFlag : Nat
  FlashReadBaseAddress : Nat
  gu8_qspi_read_cmd : Nat
  gu8_qspi_dummy_byte : Nat
  ReadBuffer : Nat → Nat
  WriteBuffer : Nat → Nat
  lqspiCr : Nat
  mem : Nat → Nat
  nxfer : Nat
  log : List Event

/-- `XQspiPs_PolledTransfer(QspiInstancePtr, WriteBuffer, recv ? ReadBuffer : NULL, count)`. -/
def PolledTransfer (hw : Nat → Resp) (s : Drv) (recv : Bool) (count : Nat) : Nat × Drv :=
  let r := hw s.nxfer
  (r.status,
   { s with
     ReadBuffer := if recv then (fun i => if i < count then r.rx i else s.ReadBuffer i)
                   else s.ReadBuffer
     nxfer := s.nxfer + 1
     log := s.log ++ [Event.xfer ((List.range 12).map s.WriteBuffer) recv count r.status] })

/-- `XQspiPs_SetLqspiConfigReg`. -/
def SetLqspiConfigReg (s : Drv) (v : Nat) : Drv :=
  { s with lqspiCr := v, log := s.log ++ [Event.setCr v] }

/-- `XQspiPs_SetSlaveSelect`. -/
def SetSlaveSelect (s : Drv) : Drv :=
  { s with log := s.log ++ [Event.slaveSelect] }

/-- Store of one byte into `WriteBuffer`. -/
def wbSet (s : Drv) (i v : Nat) : Drv :=
  { s with WriteBuffer := fun j => if j = i then u8 v else s.WriteBuffer j }

/-- `FlashReadID` (lines 520-581). -/
def FlashReadID (hw : Nat → Resp) (s : Drv) : Nat × Drv :=
  let s := wbSet s COMMAND_OFFSET READ_ID_CMD
  let s := wbSet s ADDRESS_1_OFFSET 0
  let s := wbSet s ADDRESS_2_OFFSET 0
  let s := wbSet s ADDRESS_3_OFFSET 0
  let (Status, s) := PolledTransfer hw s true RD_ID_SIZE
  if Status ≠ XST_SUCCESS then (XST_FAILURE, s)
  else
    let s :=
      if s.ReadBuffer 1 = MICRON_ID then { s with QspiFlashMake := MICRON_ID }
      else if s.ReadBuffer 1 = SPANSION_ID then { s with QspiFlashMake := SPANSION_ID }
      else if s.ReadBuffer 1 = WINBOND_ID then { s with QspiFlashMake := WINBOND_ID }
      else s
    let s :=
      if s.ReadBuffer 3 = FLASH_SIZE_ID_128M then { s with QspiFlashSize := FLASH_SIZE_128M }
      else if s.ReadBuffer 3 = FLASH_SIZE_ID_256M then { s with QspiFlashSize := FLASH_SIZE_256M }
      else if s.ReadBuffer 3 = FLASH_SIZE_ID_512M then { s with QspiFlashSize := FLASH_SIZE_512M }
      else if s.ReadBuffer 3 = FLASH_SIZE_ID_1G then { s with QspiFlashSize := FLASH_SIZE_1G }
      else s
    (XST_SUCCESS, s)

/-- The mode decision of `InitQspi` (lines 386-482): three independent tests of the
connection mode `mode` (`XPAR_PS7_QSPI_0_QSPI_MODE`) on the size left by
`FlashReadID`. -/
def InitQspiMode (mode : Nat) (s : Drv) : Drv :=
  let s :=
    if mode = SINGLE_FLASH_CONNECTION then
      if s.QspiFlashSize ≤ FLASH_SIZE_16MB then
        SetLqspiConfigReg { s with LinearBootDeviceFlag := 1 }
          (XQSPIPS_LQSPI_CR_LINEAR_MASK ||| LQSPI_CR_1_DUMMY_BYTE ||| s.gu8_qspi_read_cmd)
      else
        SetLqspiConfigReg s (LQSPI_CR_1_DUMMY_BYTE ||| s.gu8_qspi_read_cmd)
    else s
  let s :=
    if mode = DUAL_PARALLEL_CONNECTION then
      let s :=
        if s.QspiFlashSize ≤ FLASH_SIZE_16MB then
          SetLqspiConfigReg { s with LinearBootDeviceFlag := 1 }
            (XQSPIPS_LQSPI_CR_LINEAR_MASK ||| XQSPIPS_LQSPI_CR_TWO_MEM_MASK |||
              XQSPIPS_LQSPI_CR_SEP_BUS_MASK ||| LQSPI_CR_1_DUMMY_BYTE ||| s.gu8_qspi_read_cmd)
        else
          SetLqspiConfigReg s
            (XQSPIPS_LQSPI_CR_TWO_MEM_MASK ||| XQSPIPS_LQSPI_CR_SEP_BUS_MASK |||
              LQSPI_CR_1_DUMMY_BYTE ||| s.gu8_qspi_read_cmd)
      { s with QspiFlashSize := u32 (2 * s.QspiFlashSize) }
    else s
  if mode = DUAL_STACK_CONNECTION then
    let s := { s with QspiFlashSize := u32 (2 * s.QspiFlashSize) }
    SetLqspiConfigReg s
      (XQSPIPS_LQSPI_CR_TWO_MEM_MASK ||| LQSPI_CR_1_DUMMY_BYTE ||| s.gu8_qspi_read_cmd)
  else s

/-- `FlashRead` (lines 598-619). The status of the transfer is dropped, as in the
source: the function returns `void`. -/
def FlashRead (hw : Nat → Resp) (s : Drv) (Address ByteCount : Nat) : Drv :=
  let s := { s with log := s.log ++ [Event.flashRead s.lqspiCr Address ByteCount] }
  let s := wbSet s COMMAND_OFFSET s.gu8_qspi_read_cmd
  let s := wbSet s ADDRESS_1_OFFSET ((Address &&& 0xFF0000) >>> 16)
  let s := wbSet s ADDRESS_2_OFFSET ((Address &&& 0xFF00) >>> 8)
  let s := wbSet s ADDRESS_3_OFFSET (Address &&& 0xFF)
  let ByteCount := u32 (ByteCount + s.gu8_qspi_dummy_byte)
  (PolledTransfer hw s true (u32 (ByteCount + OVERHEAD_SIZE))).2

/-- Return of `SendBankSelect`: the call and its status enter the trace. -/
def bankSelRet (cr BankSel Status : Nat) (s : Drv) : Nat × Drv :=
  (Status, { s with log := s.log ++ [Event.bankSel cr BankSel Status] })

/-- Lines 850-873: for Micron, write enable and then the extended address register
write. The flag is false when a transfer failed (`return XST_FAILURE`). -/
def micronWrite (hw : Nat → Resp) (s : Drv) (BankSel : Nat) : Bool × Drv :=
  if s.QspiFlashMake = MICRON_ID then
    let s := wbSet s COMMAND_OFFSET WRITE_ENABLE_CMD
    let r := PolledTransfer hw s false WRITE_ENABLE_CMD_SIZE
    if r.1 ≠ XST_SUCCESS then (false, r.2)
    else
      let s := wbSet r.2 COMMAND_OFFSET EXTADD_REG_WR
      let s := wbSet s ADDRESS_1_OFFSET BankSel
      let r := PolledTransfer hw s false BANK_SEL_SIZE
      if r.1 ≠ XST_SUCCESS then (false, r.2) else (true, r.2)
  else (true, s)

/-- Lines 875-888: for Spansion, the bank register write. -/
def spansionWrite (hw : Nat → Resp) (s : Drv) (BankSel : Nat) : Bool × Drv :=
  if s.QspiFlashMake = SPANSION_ID then
    let s := wbSet s COMMAND_OFFSET BANK_REG_WR
    let s := wbSet s ADDRESS_1_OFFSET BankSel
    let r := PolledTransfer hw s false BANK_SEL_SIZE
    if r.1 ≠ XST_SUCCESS then (false, r.2) else (true, r.2)
  else (true, s)

/-- Lines 893-906: for Spansion, the bank register read. -/
def spansionRead (hw : Nat → Resp) (s : Drv) : Bool × Drv :=
  if s.QspiFlashMake = SPANSION_ID then
    let s := wbSet s COMMAND_OFFSET BANK_REG_RD
    let s := wbSet s ADDRESS_1_OFFSET 0
    let r := PolledTransfer hw s true BANK_SEL_SIZE
    if r.1 ≠ XST_SUCCESS then (false, r.2) else (true, r.2)
  else (true, s)

/-- Lines 908-921: for Micron, the extended address register read. -/
def micronRead (hw : Nat → Resp) (s : Drv) : Bool × Drv :=
  if s.QspiFlashMake = MICRON_ID then
    let s := wbSet s COMMAND_OFFSET EXTADD_REG_RD
    let s := wbSet s ADDRESS_1_OFFSET 0
    let r := PolledTransfer hw s true BANK_SEL_SIZE
    if r.1 ≠ XST_SUCCESS then (false, r.2) else (true, r.2)
  else (true, s)

/-- `SendBankSelect` (lines 843-930); `BankSel` is the `u8` argument. The four blocks
run in the order of the source, each returning `XST_FAILURE` at once when its transfer
failed; then `ReadBuffer[1]` is compared with `BankSel`. -/
def SendBankSelect (hw : Nat → Resp) (s : Drv) (BankSel : Nat) : Nat × Drv :=
  let cr := s.lqspiCr
  let r1 := micronWrite hw s BankSel
  if !r1.1 then bankSelRet cr BankSel XST_FAILURE r1.2
  else
    let r2 := spansionWrite hw r1.2 BankSel
    if !r2.1 then bankSelRet cr BankSel XST_FAILURE r2.2
    else
      let r3 := spansionRead hw r2.2
      if !r3.1 then bankSelRet cr BankSel XST_FAILURE r3.2
      else
        let r4 := micronRead hw r3.2
        if !r4.1 then bankSelRet cr BankSel XST_FAILURE r4.2
        else if r4.2.ReadBuffer 1 ≠ BankSel then bankSelRet cr BankSel XST_FAILURE r4.2
        else bankSelRet cr BankSel XST_SUCCESS r4.2

/-- Locals of `QspiAccess` that live across loop iterations. -/
structure Locals where
  SourceAddress : Nat
  LengthBytes : Nat
  BufferPtr : Nat
  Length : Nat
  BankSel : Nat
  LqspiCrReg : Nat
  BankSwitchFlag : Nat

/-- Lines 678-682: the cap of one transfer buffer. -/
def chunkCap (LengthBytes : Nat) : Nat :=
  if LengthBytes > DATA_SIZE then DATA_SIZE else LengthBytes

/-- Lines 687-715: chip-select of the stacked pair and the address inside the device. -/
def stackSelect (mode : Nat) (l : Locals) (s : Drv) : Locals × Drv :=
  if mode = DUAL_STACK_CONNECTION then
    let l := { l with LqspiCrReg := s.lqspiCr }
    if l.SourceAddress ≥ s.QspiFlashSize / 2 then
      let s := SetLqspiConfigReg s (l.LqspiCrReg ||| XQSPIPS_LQSPI_CR_U_PAGE_MASK)
      let l := { l with SourceAddress := sub32 l.SourceAddress (s.QspiFlashSize / 2) }
      (l, SetSlaveSelect s)
    else (l, s)
  else (l, s)

/-- Lines 738-759: the length that stays inside the current bank, and the re-arming
of `BankSwitchFlag`. -/
def chunkBank (mode : Nat) (l : Locals) : Locals :=
  if mode = DUAL_PARALLEL_CONNECTION then
    if (l.SourceAddress &&& BANKMASK) ≠ (u32 (l.SourceAddress + l.Length / 2) &&& BANKMASK) then
      let Length := sub32 (u32 ((l.SourceAddress &&& BANKMASK) + FLASH_SIZE_16MB)) l.SourceAddress
      { l with Length := u32 (Length * 2), BankSwitchFlag := 1 }
    else l
  else
    if (l.SourceAddress &&& BANKMASK) ≠ (u32 (l.SourceAddress + l.Length) &&& BANKMASK) then
      { l with
        Length := sub32 (u32 ((l.SourceAddress &&& BANKMASK) + FLASH_SIZE_16MB)) l.SourceAddress
        BankSwitchFlag := 1 }
    else l

/-- Line 782: `memcpy(BufferPtr, &ReadBuffer[DATA_OFFSET + gu8_qspi_dummy_byte], Length)`. -/
def copyOut (s : Drv) (BufferPtr Length : Nat) : Drv :=
  let off := DATA_OFFSET + s.gu8_qspi_dummy_byte
  { s with
    mem := fun a => if BufferPtr ≤ a ∧ a < BufferPtr + Length
                    then s.ReadBuffer (off + (a - BufferPtr)) else s.mem a
    log := s.log ++ [Event.memcpy BufferPtr off Length] }

/-- Lines 764-798: read the chunk, copy it out, advance. -/
def readAdvance (mode : Nat) (hw : Nat → Resp) (l : Locals) (s : Drv) : Locals × Drv :=
  let s := FlashRead hw s l.SourceAddress l.Length
  let s := copyOut s l.BufferPtr l.Length
  let l := { l with LengthBytes := sub32 l.LengthBytes l.Length }
  let l :=
    if mode = DUAL_PARALLEL_CONNECTION then
      { l with SourceAddress := u32 (l.SourceAddress + l.Length / 2) }
    else
      { l with SourceAddress := u32 (l.SourceAddress + l.Length) }
  ({ l with BufferPtr := u32 (l.BufferPtr + l.Length) }, s)

/-- Outcome of one pass through the body of the loop. -/
inductive Step where
  | abort (l : Locals) (s : Drv)
  | next (l : Locals) (s : Drv)

/-- Body of the `while (LengthBytes > 0)` loop (lines 675-798). -/
def loopBody (mode : Nat) (hw : Nat → Resp) (l : Locals) (s : Drv) : Step :=
  let l := { l with Length := chunkCap l.LengthBytes }
  let (l, s) := stackSelect mode l s
  if l.SourceAddress ≥ FLASH_SIZE_16MB ∧ l.BankSwitchFlag = 1 then
    let l := { l with BankSel := l.SourceAddress / FLASH_SIZE_16MB }
    let (Status, s) := SendBankSelect hw s (u8 l.BankSel)
    if Status ≠ XST_SUCCESS then Step.abort l s
    else
      let l := chunkBank mode { l with BankSwitchFlag := 0 }
      let (l, s) := readAdvance mode hw l s
      Step.next l s
  else
    let l := chunkBank mode l
    let (l, s) := readAdvance mode hw l s
    Step.next l s

/-- The loop of lines 674-799. `none` when `fuel` passes do not finish it. -/
def QspiAccessLoop (mode : Nat) (hw : Nat → Resp) : Nat → Locals → Drv → Option Step
  | 0, _, _ => none
  | fuel + 1, l, s =>
    if l.LengthBytes > 0 then
      match loopBody mode hw l s with
      | Step.abort l s => some (Step.abort l s)
      | Step.next l s => QspiAccessLoop mode hw fuel l s
    else some (Step.next l s)

/-- Lines 801-827: reset of the bank, lower chip-select, return. -/
def QspiAccessExit (mode : Nat) (hw : Nat → Resp) (l : Locals) (s : Drv) : Nat × Drv :=
  let (Status, s) := SendBankSelect hw s 0
  if Status ≠ XST_SUCCESS then (XST_FAILURE, s)
  else if mode = DUAL_STACK_CONNECTION then
    let s := SetLqspiConfigReg s (l.LqspiCrReg &&& not32 XQSPIPS_LQSPI_CR_U_PAGE_MASK)
    (XST_SUCCESS, SetSlaveSelect s)
  else (XST_SUCCESS, s)

/-- Linear branch (lines 650-660): one copy out of the memory-mapped window. -/
def linearCopy (s : Drv) (SourceAddress DestinationAddress LengthBytes : Nat) : Drv :=
  let LengthBytes :=
    if LengthBytes % 4 ≠ 0 then u32 (LengthBytes + (4 - (LengthBytes &&& 0x00000003)))
    else LengthBytes
  let src := u32 (SourceAddress + s.FlashReadBaseAddress)
  { s with
    mem := fun a => if DestinationAddress ≤ a ∧ a < DestinationAddress + LengthBytes
                    then s.mem (src + (a - DestinationAddress)) else s.mem a
    log := s.log ++ [Event.memcpyLinear DestinationAddress src LengthBytes] }

/-- Start of the locals: `Length = 0`, `BankSel = 0`, `BankSwitchFlag = 1`;
`LqspiCrReg` is not initialised by the source and starts as `cr0`. -/
def initLocals (mode cr0 SourceAddress DestinationAddress LengthBytes : Nat) : Locals :=
  { SourceAddress :=
      if mode = DUAL_PARALLEL_CONNECTION then SourceAddress / 2 else SourceAddress
    LengthBytes := LengthBytes
    BufferPtr := DestinationAddress
    Length := 0
    BankSel := 0
    LqspiCrReg := cr0
    BankSwitchFlag := 1 }

/-- `QspiAccess` (lines 638-828). `mode` is `XPAR_PS7_QSPI_0_QSPI_MODE`, `cr0` the
indeterminate start of the local `LqspiCrReg`. `none` when `fuel` loop passes do not
finish the loop. -/
def QspiAccess (mode : Nat) (hw : Nat → Resp) (fuel cr0 : Nat) (s : Drv)
    (SourceAddress DestinationAddress LengthBytes : Nat) : Option (Nat × Drv) :=
  if s.LinearBootDeviceFlag = 1 then
    some (XST_SUCCESS, linearCopy s SourceAddress DestinationAddress LengthBytes)
  else
    match QspiAccessLoop mode hw fuel
        (initLocals mode cr0 SourceAddress DestinationAddress LengthBytes) s with
    | none => none
    | some (Step.abort _ s) => some (XST_FAILURE, s)
    | some (Step.next l s) => some (QspiAccessExit mode hw l s)

/-- Calls of `FlashRead` in a trace: `(LQSPI_CR, Address, ByteCount)`. -/
def reads (es : List Event) : List (Nat × Nat × Nat) :=
  es.filterMap (fun e => match e with
    | Event.flashRead cr a n => some (cr, a, n)
    | _ => none)

/-- Copies into the destination in a trace: `(destination, offset in ReadBuffer, length)`. -/
def copies (es : List Event) : List (Nat × Nat × Nat) :=
  es.filterMap (fun e => match e with
    | Event.memcpy d o n => some (d, o, n)
    | _ => none)

/-- Calls of `SendBankSelect` in a trace: `(LQSPI_CR, BankSel, Status)`. -/
def bankSels (es : List Event) : List (Nat × Nat × Nat) :=
  es.filterMap (fun e => match e with
    | Event.bankSel cr b st => some (cr, b, st)
    | _ => none)

/-- Polled transfers in a trace: `(WriteBuffer, count, Status)`. -/
def xfers (es : List Event) : List (List Nat × Nat × Nat) :=
  es.filterMap (fun e => match e with
    | Event.xfer wb _ n st => some (wb, n, st)
    | _ => none)

/-- Whether `U_PAGE` (upper chip-select of the stacked pair) is set in an `LQSPI_CR` value. -/
def isUpper (cr : Nat) : Bool := cr.testBit 28

/-- A driver state for examples: given make and total size, manual mode, quad read with
one dummy byte, empty trace. -/
def drv0 (make size : Nat) : Drv :=
  { QspiFlashSize := size
    QspiFlashMake := make
    LinearBootDeviceFlag := 0
    FlashReadBaseAddress := 0xFC000000
    gu8_qspi_read_cmd := QUAD_READ_CMD
    gu8_qspi_dummy_byte := DUMMY_SIZE
    ReadBuffer := fun _ => 0
    WriteBuffer := fun _ => 0
    lqspiCr := 0
    mem := fun _ => 0
    nxfer := 0
    log := [] }

/-- The trace without the polled transfers: calls, register writes and copies. -/
def ctl (log : List Event) : List Event :=
  log.filter (fun e => match e with
    | Event.xfer _ _ _ _ => false
    | _ => true)

/-- Value of `LQSPI_CR` after the register writes of a trace, starting from `cr`. -/
def crAfter (cr : Nat) : List Event → Nat
  | [] => cr
  | Event.setCr v :: es => crAfter v es
  | _ :: es => crAfter cr es

/-- Running from `s` to `t` appended `evs` to the trace (transfers aside), left the
configuration globals alone and wrote `LQSPI_CR` only through the logged writes. -/
def Eff (s t : Drv) (evs : List Event) : Prop :=
  ctl t.log = ctl s.log ++ evs ∧
  t.lqspiCr = crAfter s.lqspiCr evs ∧
  t.QspiFlashSize = s.QspiFlashSize ∧
  t.QspiFlashMake = s.QspiFlashMake ∧
  t.LinearBootDeviceFlag = s.LinearBootDeviceFlag ∧
  t.FlashReadBaseAddress = s.FlashReadBaseAddress ∧
  t.gu8_qspi_read_cmd = s.gu8_qspi_read_cmd ∧
  t.gu8_qspi_dummy_byte = s.gu8_qspi_dummy_byte

/-- Register writes of `stackSelect` for the source address `sa`. -/
def stackEvs (mode sa : Nat) (s : Drv) : List Event :=
  if mode = DUAL_STACK_CONNECTION ∧ sa ≥ s.QspiFlashSize / 2 then
    [Event.setCr (s.lqspiCr ||| XQSPIPS_LQSPI_CR_U_PAGE_MASK), Event.slaveSelect]
  else []

/-- The address inside the device that a pass hands to `FlashRead`: the source address
after `stackSelect`. -/
def perDev (mode : Nat) (l : Locals) (s : Drv) : Nat :=
  (stackSelect mode { l with Length := chunkCap l.LengthBytes } s).1.SourceAddress

/-- The byte count that `chunkBank` leaves for a chunk at `p` capped at `cap`. -/
def planLen (mode p cap : Nat) : Nat :=
  (chunkBank mode ⟨p, 0, 0, cap, 0, 0, 0⟩).Length

/-- The `BankSwitchFlag` that `chunkBank` leaves, entered with the flag `fl`. -/
def planFlag (mode p cap fl : Nat) : Nat :=
  (chunkBank mode ⟨p, 0, 0, cap, 0, 0, fl⟩).BankSwitchFlag

/-- Locals after `readAdvance`: they do not depend on the bus. -/
def advance (mode : Nat) (l : Locals) : Locals :=
  { l with
    LengthBytes := sub32 l.LengthBytes l.Length
    SourceAddress :=
      if mode = DUAL_PARALLEL_CONNECTION then u32 (l.SourceAddress + l.Length / 2)
      else u32 (l.SourceAddress + l.Length)
    BufferPtr := u32 (l.BufferPtr + l.Length) }

/-- Size of `ReadBuffer` (line 196). -/
def ReadBufferSize : Nat := DATA_SIZE + DATA_OFFSET + DUMMY_MAX_SIZE

/-- The translation of a logical address `a` to `(device, address inside the device)` as
the specification words it: identity on device 0 for a single device, `a / 2` for the
parallel pair, and for the stacked pair device 0 below `half` and device 1 with
`a - half` from `half` on. -/
def translate (mode half a : Nat) : Nat × Nat :=
  if mode = DUAL_PARALLEL_CONNECTION then (0, a / 2)
  else if mode = DUAL_STACK_CONNECTION then
    if a < half then (0, a) else (1, a - half)
  else (0, a)

/-- Loop invariant for a request inside the flash: `a` is the logical address of the
next byte. In dual parallel mode the source address is `a / 2`; in dual stack mode it is
`a`, or `a - half` once the upper device is selected; otherwise it is `a`. -/
def Inv (mode : Nat) (s : Drv) (a : Nat) (l : Locals) : Prop :=
  if mode = DUAL_PARALLEL_CONNECTION then
    (l.LengthBytes = 0 ∨ l.SourceAddress = a / 2) ∧ a + l.LengthBytes ≤ 268435456
  else if mode = DUAL_STACK_CONNECTION then
    s.QspiFlashSize % 2 = 0 ∧ s.QspiFlashSize / 2 % 16777216 = 0 ∧
    s.QspiFlashSize ≤ 268435456 ∧ a + l.LengthBytes ≤ s.QspiFlashSize ∧
    (if isUpper s.lqspiCr = true then l.SourceAddress + s.QspiFlashSize / 2 = a
     else l.SourceAddress = a)
  else l.SourceAddress = a ∧ a + l.LengthBytes ≤ 268435456

/-- A read `(LQSPI_CR, Address, ByteCount)` whose bytes on one device end at a multiple
of 16 MiB. -/
def endsBank (mode : Nat) (rd : Nat × Nat × Nat) : Bool :=
  if mode = DUAL_PARALLEL_CONNECTION then decide ((rd.2.1 + rd.2.2 / 2) % 16777216 = 0)
  else decide ((rd.2.1 + rd.2.2) % 16777216 = 0)

/-- What one pass gives under the invariant. -/
def IterOut (mode : Nat) (l l' : Locals) (s s' : Drv) (a : Nat) : Prop :=
  ∃ sel fl cr len,
    cr = crAfter s.lqspiCr (stackEvs mode l.SourceAddress s) ∧
    ((sel = [] ∧ fl = l.BankSwitchFlag ∧
        ¬ (perDev mode l s ≥ FLASH_SIZE_16MB ∧ l.BankSwitchFlag = 1)) ∨
      (sel = [Event.bankSel cr (u8 (perDev mode l s / FLASH_SIZE_16MB)) XST_SUCCESS] ∧
        fl = 0 ∧ perDev mode l s ≥ FLASH_SIZE_16MB ∧ l.BankSwitchFlag = 1)) ∧
    Eff s s' (stackEvs mode l.SourceAddress s ++ sel ++
      [Event.flashRead cr (perDev mode l s) len,
       Event.memcpy l.BufferPtr (DATA_OFFSET + s.gu8_qspi_dummy_byte) len]) ∧
    len = planLen mode (perDev mode l s) (chunkCap l.LengthBytes) ∧
    1 ≤ len ∧ len ≤ l.LengthBytes ∧ len ≤ 4096 ∧
    l'.LengthBytes = l.LengthBytes - len ∧
    l'.BufferPtr = u32 (l.BufferPtr + len) ∧
    l'.BankSwitchFlag = planFlag mode (perDev mode l s) (chunkCap l.LengthBytes) fl ∧
    perDev mode l s = (translate mode (s.QspiFlashSize / 2) a).2 ∧
    perDev mode l s + len ≤ 268435456 ∧
    (mode = DUAL_STACK_CONNECTION →
      (isUpper cr = true ↔ (translate mode (s.QspiFlashSize / 2) a).1 = 1)) ∧
    (mode = DUAL_PARALLEL_CONNECTION → len % 2 = 0 ∨ len = l.LengthBytes) ∧
    ((l'.BankSwitchFlag = 1 ∧ endsBank mode (cr, perDev mode l s, len) = true) ∨
      (l'.BankSwitchFlag = fl ∧ (mode ≠ DUAL_PARALLEL_CONNECTION →
        (perDev mode l s + len) / 16777216 = perDev mode l s / 16777216))) ∧
    Inv mode s' (a + len) l'

/-- The chunks of a request, read off the reads `(LQSPI_CR, Address, ByteCount)` and the
copies `(destination, offset, length)` of a trace: starting from logical address `a`,
destination `d` and remaining length `r`, each read pairs with one copy of the same
length `n` with `1 ≤ n ≤ r`, to destination `d`, from the translation of `a`; the next
chunk starts at `a + n`, `d + n` and `r - n`; at the end nothing remains. -/
def Part (mode half dummy : Nat) :
    Nat → Nat → Nat → List (Nat × Nat × Nat) → List (Nat × Nat × Nat) → Prop
  | _, _, r, [], [] => r = 0
  | a, d, r, (cr, p, n) :: rs, (dst, off, m) :: cs =>
      m = n ∧ 1 ≤ n ∧ n ≤ r ∧ dst = d ∧ off = DATA_OFFSET + dummy ∧
      p = (translate mode half a).2 ∧
      (mode = DUAL_STACK_CONNECTION →
        (isUpper cr = true ↔ (translate mode half a).1 = 1)) ∧
      (mode = DUAL_PARALLEL_CONNECTION → n % 2 = 0 ∨ n = r) ∧
      Part mode half dummy (a + n) (u32 (d + n)) (r - n) rs cs
  | _, _, _, _ :: _, [] => False
  | _, _, _, [], _ :: _ => False

/-- Trace of the exit path: the bank reset, and in dual stack mode after a successful
reset the write that clears `U_PAGE`. -/
def exitEvs (mode : Nat) (l : Locals) (cr st : Nat) : List Event :=
  if st ≠ XST_SUCCESS then [Event.bankSel cr 0 st]
  else if mode = DUAL_STACK_CONNECTION then
    [Event.bankSel cr 0 XST_SUCCESS,
     Event.setCr (l.LqspiCrReg &&& not32 XQSPIPS_LQSPI_CR_U_PAGE_MASK), Event.slaveSelect]
  else [Event.bankSel cr 0 XST_SUCCESS]

/-- A request inside the flash: the range ends inside the total size, the total size is
at most `2^28`, and for the stacked pair the total size is even, each half is a multiple
of 16 MiB and the lower chip-select is asserted on entry. -/
def InFlash (mode : Nat) (s : Drv) (S L : Nat) : Prop :=
  S + L ≤ s.QspiFlashSize ∧ s.QspiFlashSize ≤ 2 ^ 28 ∧
  (mode = DUAL_STACK_CONNECTION →
    s.QspiFlashSize % 2 = 0 ∧ s.QspiFlashSize / 2 % 2 ^ 24 = 0 ∧ isUpper s.lqspiCr = false)

/-- Offset of chunk `i`: the sum of the lengths of the copies before it. -/
def offsetOf (cs : List (Nat × Nat × Nat)) (i : Nat) : Nat :=
  ((cs.take i).map (fun c => c.2.2)).sum

/-- State reached by a call, or the start state when the fuel ran out. -/
def stateOf (r : Option (Nat × Drv)) (s : Drv) : Drv :=
  match r with
  | some (_, t) => t
  | none => s

/-- A bus on which every transfer succeeds and the transfer numbered `k` echoes the
bank `b` in byte 1. -/
def echoBus (k b : Nat) : Nat → Resp :=
  fun j => ⟨XST_SUCCESS, fun i => if j = k ∧ i = 1 then b else 0⟩

/-- Locals at the end of a pass. -/
def Step.locals : Step → Locals
  | Step.abort l _ => l
  | Step.next l _ => l

/-- Driver state at the end of a pass. -/
def Step.drv : Step → Drv
  | Step.abort _ s => s
  | Step.next _ s => s

/-- Completed passes of the loop: from `(l, s)` to `(l', s')`. -/
inductive Passes (mode : Nat) (hw : Nat → Resp) : Locals → Drv → Locals → Drv → Prop where
  | refl (l : Locals) (s : Drv) : Passes mode hw l s l s
  | step (l l1 l2 : Locals) (s s1 s2 : Drv) (hr : 0 < l.LengthBytes)
      (hb : loopBody mode hw l s = Step.next l1 s1) (h : Passes mode hw l1 s1 l2 s2) :
      Passes mode hw l s l2 s2

/-- The bank register of the device along a trace, under the reading that a
`SendBankSelect` that returns `XST_SUCCESS` has set the bank to its argument and a failed
one leaves the bank unknown (`none`): every `FlashRead` finds the bank of its address
selected. -/
def BankOk : Option Nat → List Event → Prop
  | _, [] => True
  | b, Event.bankSel _ x st :: es => BankOk (if st = XST_SUCCESS then some x else none) es
  | b, Event.flashRead _ a _ :: es => b = some (a / 2 ^ 24) ∧ BankOk b es
  | b, Event.xfer _ _ _ _ :: es => BankOk b es
  | b, Event.setCr _ :: es => BankOk b es
  | b, Event.slaveSelect :: es => BankOk b es
  | b, Event.memcpy _ _ _ :: es => BankOk b es
  | b, Event.memcpyLinear _ _ _ :: es => BankOk b es

/-- What the flag promises about the selected bank `b` at the head of the loop. -/
def FlagOk (b : Option Nat) (l : Locals) : Prop :=
  (l.BankSwitchFlag = 1 → l.SourceAddress < 16777216 → b = some 0) ∧
  (l.BankSwitchFlag ≠ 1 → b = some (l.SourceAddress / 16777216))

/-- The 24-bit address in bytes 1 to 3 of a read frame, most significant byte first. -/
def frameAddr (wb : Nat → Nat) : Nat :=
  wb ADDRESS_1_OFFSET * 65536 + wb ADDRESS_2_OFFSET * 256 + wb ADDRESS_3_OFFSET

/-- Calls of `FlashRead` and `SendBankSelect` in a trace, in order. -/
def calls (es : List Event) : List Event :=
  es.filter (fun e => match e with
    | Event.bankSel _ _ _ => true
    | Event.flashRead _ _ _ => true
    | _ => false)

/-- One for a set flag, zero otherwise. -/
def armed (f : Nat) : Nat := if f = 1 then 1 else 0

/-- A bus on which every transfer succeeds and transfer `j` puts `echo[j]` into byte 1. -/
def listBus (echo : List Nat) : Nat → Resp :=
  fun j => ⟨XST_SUCCESS, fun i => if i = 1 then echo.getD j 0 else 0⟩

/-- Bank registers `(lower device, upper device)` after a trace, one register per device:
a `SendBankSelect` that returns `XST_SUCCESS` writes its argument to the device whose
chip-select is asserted at that moment (`U_PAGE` of the `LQSPI_CR` value of the call). -/
def banksAfter : Nat × Nat → List Event → Nat × Nat
  | b, [] => b
  | b, Event.bankSel cr x st :: es =>
      banksAfter
        (if st = XST_SUCCESS then (if isUpper cr = true then (b.1, x) else (x, b.2)) else b) es
  | b, Event.xfer _ _ _ _ :: es => banksAfter b es
  | b, Event.setCr _ :: es => banksAfter b es
  | b, Event.slaveSelect :: es => banksAfter b es
  | b, Event.flashRead _ _ _ :: es => banksAfter b es
  | b, Event.memcpy _ _ _ :: es => banksAfter b es
  | b, Event.memcpyLinear _ _ _ :: es => banksAfter b es

/-- A bus that answers the identification with the Micron vendor byte and the size code
of 128 Mbit. -/
def idBus : Nat → Resp :=
  fun _ => ⟨XST_SUCCESS,
    fun i => if i = 1 then MICRON_ID else if i = 3 then FLASH_SIZE_ID_128M else 0⟩

/-- The polled transfers of a trace as the bus sees them: the `count` bytes sent, whether
a receive buffer was given, `count`, and the status returned. -/
def sent (es : List Event) : List (List Nat × Bool × Nat × Nat) :=
  es.filterMap (fun e => match e with
    | Event.xfer wb recv n st => some (wb.take n, recv, n, st)
    | _ => none)

/-- A command sequence cut after its first transfer that failed. -/
def untilFail : List (List Nat × Bool × Nat × Nat) → List (List Nat × Bool × Nat × Nat)
  | [] => []
  | op :: ops => if op.2.2.2 ≠ XST_SUCCESS then [op] else op :: untilFail ops

/-- Device and address inside the device that `stackSelect` (lines 687-715) selects for
the source address `a`: the device is `U_PAGE` of `LQSPI_CR` after the call, the address
is `SourceAddress` after the call. -/
def target (mode : Nat) (l : Locals) (s : Drv) (a : Nat) : Nat × Nat :=
  let r := stackSelect mode { l with SourceAddress := a } s
  (if isUpper r.2.lqspiCr = true then 1 else 0, r.1.SourceAddress)

/-- The state right after a read step: at least one transfer was issued, the trace ends
with a `FlashRead`, its transfer (the last one issued, into `ReadBuffer`) and the copy, and
byte 1 of `ReadBuffer` is byte 1 of the response to that transfer. -/
def LastRead (hw : Nat → Resp) (s : Drv) : Prop :=
  0 < s.nxfer ∧ s.ReadBuffer 1 = (hw (s.nxfer - 1)).rx 1 ∧
  ∃ pre cr a n wb cnt d o m,
    s.log = pre ++ [Event.flashRead cr a n,
      Event.xfer wb true cnt (hw (s.nxfer - 1)).status, Event.memcpy d o m]

/-- A bus on which the transfer numbered `k` fails, every other transfer succeeds, and
every response is all zero. -/
def failBus (k : Nat) : Nat → Resp :=
  fun j => ⟨if j = k then XST_FAILURE else XST_SUCCESS, fun _ => 0⟩

/-- The `SendBankSelect` call of a pass that issues one (lines 720-725): it runs on the
state after `stackSelect`, with the bank of the address inside the device. -/
def passSelect (mode : Nat) (hw : Nat → Resp) (l : Locals) (s : Drv) : Nat × Drv :=
  let p := stackSelect mode { l with Length := chunkCap l.LengthBytes } s
  SendBankSelect hw p.2 (u8 (p.1.SourceAddress / FLASH_SIZE_16MB))

theorem and_bankmask (p : Nat) : p &&& BANKMASK = p / 16777216 % 16 * 16777216 := by
  have h : BANKMASK = (2 ^ 4 - 1) <<< 24 := by decide
  have key : p &&& BANKMASK = ((p >>> 24) % 2 ^ 4) <<< 24 := by
    apply Nat.eq_of_testBit_eq
    intro i
    rw [h, Nat.testBit_and, Nat.testBit_shiftLeft, Nat.testBit_two_pow_sub_one,
      Nat.testBit_shiftLeft, Nat.testBit_mod_two_pow, Nat.testBit_shiftRight]
    by_cases h1 : 24 ≤ i
    · have e : 24 + (i - 24) = i := by omega
      by_cases h2 : i - 24 < 4 <;> simp [h1, h2, e]
    · simp [h1]
  rw [key, Nat.shiftLeft_eq, Nat.shiftRight_eq_div_pow]
  norm_num

theorem and_ff (a : Nat) : a &&& 0xFF = a % 256 := by
  have h := Nat.and_pow_two_sub_one_eq_mod a 8
  norm_num at h
  exact h

theorem and_field (a k n : Nat) : (a &&& ((2 ^ n - 1) <<< k)) >>> k = a / 2 ^ k % 2 ^ n := by
  apply Nat.eq_of_testBit_eq
  intro i
  rw [Nat.testBit_shiftRight, Nat.testBit_and, Nat.testBit_shiftLeft,
    Nat.testBit_two_pow_sub_one, Nat.testBit_mod_two_pow, ← Nat.shiftRight_eq_div_pow,
    Nat.testBit_shiftRight]
  have e : k + i - k = i := by omega
  by_cases h2 : i < n <;> simp [h2, e]

theorem and_ff00 (a : Nat) : (a &&& 0xFF00) >>> 8 = a / 256 % 256 := by
  have h := and_field a 8 8
  have e : (0xFF00 : Nat) = (2 ^ 8 - 1) <<< 8 := by decide
  rw [e, h]
  norm_num

theorem and_ff0000 (a : Nat) : (a &&& 0xFF0000) >>> 16 = a / 65536 % 256 := by
  have h := and_field a 16 8
  have e : (0xFF0000 : Nat) = (2 ^ 8 - 1) <<< 16 := by decide
  rw [e, h]
  norm_num

theorem and_three (a : Nat) : a &&& 0x00000003 = a % 4 := by
  have h := Nat.and_pow_two_sub_one_eq_mod a 2
  norm_num at h
  exact h

theorem isUpper_or (cr : Nat) : isUpper (cr ||| XQSPIPS_LQSPI_CR_U_PAGE_MASK) = true := by
  have h : XQSPIPS_LQSPI_CR_U_PAGE_MASK = 2 ^ 28 := by decide
  rw [isUpper, h, Nat.testBit_or, Nat.testBit_two_pow]
  simp

theorem isUpper_and_not (cr : Nat) :
    isUpper (cr &&& not32 XQSPIPS_LQSPI_CR_U_PAGE_MASK) = false := by
  have h : (not32 XQSPIPS_LQSPI_CR_U_PAGE_MASK).testBit 28 = false := by decide
  simp [isUpper, Nat.testBit_and, h]

theorem chunkCap_pos (r : Nat) (h : 0 < r) : 1 ≤ chunkCap r := by
  unfold chunkCap DATA_SIZE
  split <;> omega

theorem chunkCap_le (r : Nat) : chunkCap r ≤ r ∧ chunkCap r ≤ 4096 := by
  unfold chunkCap DATA_SIZE
  split <;> omega

/-- Outside dual parallel mode and below `2^28`, `chunkBank` cuts the chunk at the next
multiple of 16 MiB exactly when the start and the end lie in different banks. -/
theorem chunkBank_serial (mode : Nat) (l : Locals) (hm : mode ≠ DUAL_PARALLEL_CONNECTION)
    (hp : l.SourceAddress + l.Length ≤ 268435456) (hl : l.Length ≤ 4096) :
    chunkBank mode l =
      if l.SourceAddress / 16777216 ≠ (l.SourceAddress + l.Length) / 16777216 then
        { l with
          Length := (l.SourceAddress / 16777216 + 1) * 16777216 - l.SourceAddress
          BankSwitchFlag := 1 }
      else l := by
  unfold chunkBank
  rw [if_neg hm, and_bankmask, and_bankmask]
  unfold u32 sub32 FLASH_SIZE_16MB
  by_cases h : l.SourceAddress / 16777216 = (l.SourceAddress + l.Length) / 16777216
  · rw [if_neg (by omega), if_neg (by omega)]
  · rw [if_pos (by omega), if_pos h]
    congr 1
    omega

/-- In dual parallel mode and below `2^28`, `chunkBank` tests half the length and doubles
the distance to the next multiple of 16 MiB. -/
theorem chunkBank_parallel (l : Locals)
    (hp : l.SourceAddress + l.Length / 2 ≤ 268435456) (hl : l.Length ≤ 4096) :
    chunkBank DUAL_PARALLEL_CONNECTION l =
      if l.SourceAddress / 16777216 ≠ (l.SourceAddress + l.Length / 2) / 16777216 then
        { l with
          Length := 2 * ((l.SourceAddress / 16777216 + 1) * 16777216 - l.SourceAddress)
          BankSwitchFlag := 1 }
      else l := by
  unfold chunkBank
  rw [if_pos rfl, and_bankmask, and_bankmask]
  unfold u32 sub32 FLASH_SIZE_16MB
  by_cases h : l.SourceAddress / 16777216 = (l.SourceAddress + l.Length / 2) / 16777216
  · rw [if_neg (by omega), if_neg (by omega)]
  · rw [if_pos (by omega), if_pos h]
    simp only [Locals.mk.injEq, true_and, and_true]
    omega

theorem ctl_append (a b : List Event) : ctl (a ++ b) = ctl a ++ ctl b := by
  simp [ctl]

theorem crAfter_append (cr : Nat) (a b : List Event) :
    crAfter cr (a ++ b) = crAfter (crAfter cr a) b := by
  induction a generalizing cr with
  | nil => rfl
  | cons e es ih => cases e <;> simp [crAfter, ih]

theorem Eff.refl (s : Drv) : Eff s s [] := by
  simp [Eff, crAfter]

theorem Eff.trans {s t u : Drv} {a b : List Event} (h1 : Eff s t a) (h2 : Eff t u b) :
    Eff s u (a ++ b) := by
  obtain ⟨a1, a2, a3, a4, a5, a6, a7, a8⟩ := h1
  obtain ⟨b1, b2, b3, b4, b5, b6, b7, b8⟩ := h2
  refine ⟨?_, ?_, ?_, ?_, ?_, ?_, ?_, ?_⟩
  · rw [b1, a1, List.append_assoc]
  · rw [b2, a2, crAfter_append]
  · rw [b3, a3]
  · rw [b4, a4]
  · rw [b5, a5]
  · rw [b6, a6]
  · rw [b7, a7]
  · rw [b8, a8]

theorem Eff_PolledTransfer (hw : Nat → Resp) (s : Drv) (recv : Bool) (n : Nat) :
    Eff s (PolledTransfer hw s recv n).2 [] := by
  simp [Eff, PolledTransfer, ctl, crAfter]

theorem Eff_wbSet (s : Drv) (i v : Nat) : Eff s (wbSet s i v) [] := by
  simp [Eff, wbSet, crAfter]

theorem Eff_SetLqspiConfigReg (s : Drv) (v : Nat) :
    Eff s (SetLqspiConfigReg s v) [Event.setCr v] := by
  simp [Eff, SetLqspiConfigReg, ctl, crAfter]

theorem Eff_SetSlaveSelect (s : Drv) : Eff s (SetSlaveSelect s) [Event.slaveSelect] := by
  simp [Eff, SetSlaveSelect, ctl, crAfter]

theorem Eff_copyOut (s : Drv) (p n : Nat) :
    Eff s (copyOut s p n) [Event.memcpy p (DATA_OFFSET + s.gu8_qspi_dummy_byte) n] := by
  simp [Eff, copyOut, ctl, crAfter]

theorem Eff_FlashRead (hw : Nat → Resp) (s : Drv) (a n : Nat) :
    Eff s (FlashRead hw s a n) [Event.flashRead s.lqspiCr a n] := by
  simp [Eff, FlashRead, PolledTransfer, wbSet, ctl, crAfter]

theorem Eff_bankSelRet (cr b st : Nat) (s : Drv) :
    Eff s (bankSelRet cr b st s).2 [Event.bankSel cr b st] := by
  simp [Eff, bankSelRet, ctl, crAfter]

theorem Eff_micronWrite (hw : Nat → Resp) (s : Drv) (b : Nat) :
    Eff s (micronWrite hw s b).2 [] := by
  unfold micronWrite
  simp only [Eff, PolledTransfer, wbSet, ctl, crAfter]
  split_ifs <;> simp

theorem Eff_spansionWrite (hw : Nat → Resp) (s : Drv) (b : Nat) :
    Eff s (spansionWrite hw s b).2 [] := by
  unfold spansionWrite
  simp only [Eff, PolledTransfer, wbSet, ctl, crAfter]
  split_ifs <;> simp

theorem Eff_spansionRead (hw : Nat → Resp) (s : Drv) :
    Eff s (spansionRead hw s).2 [] := by
  unfold spansionRead
  simp only [Eff, PolledTransfer, wbSet, ctl, crAfter]
  split_ifs <;> simp

theorem Eff_micronRead (hw : Nat → Resp) (s : Drv) :
    Eff s (micronRead hw s).2 [] := by
  unfold micronRead
  simp only [Eff, PolledTransfer, wbSet, ctl, crAfter]
  split_ifs <;> simp

/-- Every return of `SendBankSelect` goes through `bankSelRet`, from a state that the
transfers reached without touching the register or the configuration. -/
theorem SendBankSelect_shape (hw : Nat → Resp) (s : Drv) (b : Nat) :
    ∃ st t, SendBankSelect hw s b = bankSelRet s.lqspiCr b st t ∧ Eff s t [] := by
  have e1 := Eff_micronWrite hw s b
  have e2 := (Eff_micronWrite hw s b).trans
    (Eff_spansionWrite hw (micronWrite hw s b).2 b)
  have e3 := e2.trans (Eff_spansionRead hw (spansionWrite hw (micronWrite hw s b).2 b).2)
  have e4 := e3.trans
    (Eff_micronRead hw (spansionRead hw (spansionWrite hw (micronWrite hw s b).2 b).2).2)
  unfold SendBankSelect
  simp only []
  split_ifs
  · exact ⟨_, _, rfl, e1⟩
  · exact ⟨_, _, rfl, e2⟩
  · exact ⟨_, _, rfl, e3⟩
  · exact ⟨_, _, rfl, e4⟩
  · exact ⟨_, _, rfl, e4⟩
  · exact ⟨_, _, rfl, e4⟩

theorem Eff_SendBankSelect (hw : Nat → Resp) (s : Drv) (b : Nat) :
    Eff s (SendBankSelect hw s b).2
      [Event.bankSel s.lqspiCr b (SendBankSelect hw s b).1] := by
  obtain ⟨st, t, h, e⟩ := SendBankSelect_shape hw s b
  rw [h]
  exact e.trans (Eff_bankSelRet s.lqspiCr b st t)

theorem chunkBank_plan (mode : Nat) (l : Locals) :
    chunkBank mode l =
      { l with
        Length := planLen mode l.SourceAddress l.Length
        BankSwitchFlag := planFlag mode l.SourceAddress l.Length l.BankSwitchFlag } := by
  unfold planLen planFlag chunkBank
  split_ifs <;> rfl

theorem chunkBank_Length (mode : Nat) (l : Locals) :
    (chunkBank mode l).Length = planLen mode l.SourceAddress l.Length := by
  conv_lhs => rw [chunkBank_plan]

theorem chunkBank_fields (mode : Nat) (l : Locals) :
    (chunkBank mode l).SourceAddress = l.SourceAddress ∧
    (chunkBank mode l).LengthBytes = l.LengthBytes ∧
    (chunkBank mode l).BufferPtr = l.BufferPtr ∧
    (chunkBank mode l).LqspiCrReg = l.LqspiCrReg := by
  unfold chunkBank
  split_ifs <;> simp

theorem Eff_stackSelect (mode : Nat) (l : Locals) (s : Drv) :
    Eff s (stackSelect mode l s).2 (stackEvs mode l.SourceAddress s) := by
  unfold stackSelect stackEvs
  by_cases hm : mode = DUAL_STACK_CONNECTION
  · by_cases hs : l.SourceAddress ≥ s.QspiFlashSize / 2
    · simp only [hm, hs, if_true, and_self]
      exact (Eff_SetLqspiConfigReg s _).trans (Eff_SetSlaveSelect _)
    · simp only [hm, hs, if_true, if_false, and_false]
      exact Eff.refl s
  · simp only [hm, if_false, false_and]
    exact Eff.refl s

/-- Locals after `stackSelect`. -/
theorem stackSelect_locals (mode : Nat) (l : Locals) (s : Drv) :
    (stackSelect mode l s).1 =
      if mode = DUAL_STACK_CONNECTION then
        if l.SourceAddress ≥ s.QspiFlashSize / 2 then
          { l with LqspiCrReg := s.lqspiCr
                   SourceAddress := sub32 l.SourceAddress (s.QspiFlashSize / 2) }
        else { l with LqspiCrReg := s.lqspiCr }
      else l := by
  unfold stackSelect
  by_cases hm : mode = DUAL_STACK_CONNECTION
  · by_cases hs : l.SourceAddress ≥ s.QspiFlashSize / 2
    · simp only [hm, hs, if_true, SetLqspiConfigReg]
    · simp only [hm, hs, if_true, if_false]
  · simp only [hm, if_false]

theorem stackSelect_fields (mode : Nat) (l : Locals) (s : Drv) :
    (stackSelect mode l s).1.Length = l.Length ∧
    (stackSelect mode l s).1.LengthBytes = l.LengthBytes ∧
    (stackSelect mode l s).1.BufferPtr = l.BufferPtr ∧
    (stackSelect mode l s).1.BankSwitchFlag = l.BankSwitchFlag ∧
    (stackSelect mode l s).1.LqspiCrReg =
      (if mode = DUAL_STACK_CONNECTION then s.lqspiCr else l.LqspiCrReg) := by
  rw [stackSelect_locals]
  split_ifs <;> simp

theorem perDev_eq (mode : Nat) (l : Locals) (s : Drv) :
    perDev mode l s =
      if mode = DUAL_STACK_CONNECTION ∧ l.SourceAddress ≥ s.QspiFlashSize / 2 then
        sub32 l.SourceAddress (s.QspiFlashSize / 2)
      else l.SourceAddress := by
  unfold perDev
  rw [stackSelect_locals]
  by_cases hm : mode = DUAL_STACK_CONNECTION
  · by_cases hs : l.SourceAddress ≥ s.QspiFlashSize / 2
    · simp only [hm, hs, if_true, and_self]
    · simp only [hm, hs, if_true, if_false, and_false]
  · simp only [hm, if_false, false_and]

theorem readAdvance_locals (mode : Nat) (hw : Nat → Resp) (l : Locals) (s : Drv) :
    (readAdvance mode hw l s).1 = advance mode l := by
  unfold readAdvance advance
  split_ifs <;> rfl

theorem Eff_readAdvance (mode : Nat) (hw : Nat → Resp) (l : Locals) (s : Drv) :
    Eff s (readAdvance mode hw l s).2
      [Event.flashRead s.lqspiCr l.SourceAddress l.Length,
       Event.memcpy l.BufferPtr (DATA_OFFSET + s.gu8_qspi_dummy_byte) l.Length] := by
  have h1 := Eff_FlashRead hw s l.SourceAddress l.Length
  have h2 := Eff_copyOut (FlashRead hw s l.SourceAddress l.Length) l.BufferPtr l.Length
  have h := h1.trans h2
  rw [h1.2.2.2.2.2.2.2] at h
  exact h

/-- The three ways through the body of the loop. -/
theorem loopBody_spec (mode : Nat) (hw : Nat → Resp) (l : Locals) (s : Drv) :
    let p := stackSelect mode { l with Length := chunkCap l.LengthBytes } s
    let q := SendBankSelect hw p.2 (u8 (p.1.SourceAddress / FLASH_SIZE_16MB))
    let lb := { p.1 with BankSel := p.1.SourceAddress / FLASH_SIZE_16MB }
    (¬ (p.1.SourceAddress ≥ FLASH_SIZE_16MB ∧ p.1.BankSwitchFlag = 1) →
      loopBody mode hw l s =
        Step.next (advance mode (chunkBank mode p.1))
          (readAdvance mode hw (chunkBank mode p.1) p.2).2) ∧
    (p.1.SourceAddress ≥ FLASH_SIZE_16MB ∧ p.1.BankSwitchFlag = 1 → q.1 ≠ XST_SUCCESS →
      loopBody mode hw l s = Step.abort lb q.2) ∧
    (p.1.SourceAddress ≥ FLASH_SIZE_16MB ∧ p.1.BankSwitchFlag = 1 → q.1 = XST_SUCCESS →
      loopBody mode hw l s =
        Step.next (advance mode (chunkBank mode { lb with BankSwitchFlag := 0 }))
          (readAdvance mode hw (chunkBank mode { lb with BankSwitchFlag := 0 }) q.2).2) := by
  intro p q lb
  refine ⟨?_, ?_, ?_⟩
  · intro h
    unfold loopBody
    simp only []
    rw [if_neg h, ← readAdvance_locals mode hw _ p.2]
  · intro h hq
    unfold loopBody
    simp only []
    rw [if_pos h, if_pos hq]
  · intro h hq
    unfold loopBody
    simp only []
    rw [if_pos h, if_neg (not_not.mpr hq), ← readAdvance_locals mode hw _ q.2]

theorem crAfter_bankSel (cr a b c : Nat) : crAfter cr [Event.bankSel a b c] = cr := rfl

/-- Trace of `readAdvance` after `chunkBank`, in terms of the locals before `chunkBank`. -/
theorem Eff_readAdvance_chunk (mode : Nat) (hw : Nat → Resp) (l : Locals) (s t : Drv)
    (pre : List Event) (h : Eff s t pre) (a bp cap : Nat) (ha : l.SourceAddress = a)
    (hbp : l.BufferPtr = bp) (hcap : l.Length = cap) :
    Eff s (readAdvance mode hw (chunkBank mode l) t).2
      (pre ++ [Event.flashRead (crAfter s.lqspiCr pre) a (planLen mode a cap),
        Event.memcpy bp (DATA_OFFSET + s.gu8_qspi_dummy_byte) (planLen mode a cap)]) := by
  have e := h.trans (Eff_readAdvance mode hw (chunkBank mode l) t)
  rw [(chunkBank_fields mode l).1, (chunkBank_fields mode l).2.2.1, chunkBank_Length,
    h.2.1, h.2.2.2.2.2.2.2, ha, hbp, hcap] at e
  exact e

/-- Locals after `advance` of `chunkBank`, field by field. -/
theorem advance_chunk (mode : Nat) (l : Locals) :
    (advance mode (chunkBank mode l)).SourceAddress =
      (if mode = DUAL_PARALLEL_CONNECTION
        then u32 (l.SourceAddress + planLen mode l.SourceAddress l.Length / 2)
        else u32 (l.SourceAddress + planLen mode l.SourceAddress l.Length)) ∧
    (advance mode (chunkBank mode l)).LengthBytes =
      sub32 l.LengthBytes (planLen mode l.SourceAddress l.Length) ∧
    (advance mode (chunkBank mode l)).BufferPtr =
      u32 (l.BufferPtr + planLen mode l.SourceAddress l.Length) ∧
    (advance mode (chunkBank mode l)).BankSwitchFlag =
      planFlag mode l.SourceAddress l.Length l.BankSwitchFlag ∧
    (advance mode (chunkBank mode l)).LqspiCrReg = l.LqspiCrReg := by
  rw [chunkBank_plan]
  unfold advance
  simp only [and_self]

/-- A pass that reaches the end of the body, with `p` the address handed to `FlashRead`,
`len` the byte count, `sel` the optional bank select and `fl` the flag with which
`chunkBank` runs. -/
theorem loopBody_next (mode : Nat) (hw : Nat → Resp) (l l' : Locals) (s s' : Drv)
    (hb : loopBody mode hw l s = Step.next l' s') :
    ∃ sel fl p cr len,
      p = perDev mode l s ∧
      cr = crAfter s.lqspiCr (stackEvs mode l.SourceAddress s) ∧
      len = planLen mode p (chunkCap l.LengthBytes) ∧
      ((sel = [] ∧ fl = l.BankSwitchFlag ∧
          ¬ (p ≥ FLASH_SIZE_16MB ∧ l.BankSwitchFlag = 1)) ∨
        (sel = [Event.bankSel cr (u8 (p / FLASH_SIZE_16MB)) XST_SUCCESS] ∧
          fl = 0 ∧ p ≥ FLASH_SIZE_16MB ∧ l.BankSwitchFlag = 1)) ∧
      l'.SourceAddress =
        (if mode = DUAL_PARALLEL_CONNECTION then u32 (p + len / 2) else u32 (p + len)) ∧
      l'.LengthBytes = sub32 l.LengthBytes len ∧
      l'.BufferPtr = u32 (l.BufferPtr + len) ∧
      l'.BankSwitchFlag = planFlag mode p (chunkCap l.LengthBytes) fl ∧
      l'.LqspiCrReg = (if mode = DUAL_STACK_CONNECTION then s.lqspiCr else l.LqspiCrReg) ∧
      Eff s s' (stackEvs mode l.SourceAddress s ++ sel ++
        [Event.flashRead cr p len,
         Event.memcpy l.BufferPtr (DATA_OFFSET + s.gu8_qspi_dummy_byte) len]) := by
  have hspec := loopBody_spec mode hw l s
  have hf := stackSelect_fields mode { l with Length := chunkCap l.LengthBytes } s
  have he := Eff_stackSelect mode { l with Length := chunkCap l.LengthBytes } s
  have hpd : perDev mode l s =
    (stackSelect mode { l with Length := chunkCap l.LengthBytes } s).1.SourceAddress := rfl
  simp only [] at hspec hf he
  generalize stackSelect mode { l with Length := chunkCap l.LengthBytes } s = ps
    at hspec hf he hpd
  generalize stackEvs mode l.SourceAddress s = sevs at he ⊢
  generalize perDev mode l s = pd at hpd ⊢
  obtain ⟨p, s1⟩ := ps
  simp only [] at hspec hf he hpd
  obtain ⟨h1, h2, h3⟩ := hspec
  obtain ⟨hfl, hfr, hfb, hff, hfc⟩ := hf
  by_cases hc : p.SourceAddress ≥ FLASH_SIZE_16MB ∧ p.BankSwitchFlag = 1
  · by_cases hq : (SendBankSelect hw s1 (u8 (p.SourceAddress / FLASH_SIZE_16MB))).1 = XST_SUCCESS
    · rw [h3 hc hq] at hb
      injection hb with hl hs
      have ha := advance_chunk mode
        { p with BankSel := p.SourceAddress / FLASH_SIZE_16MB, BankSwitchFlag := 0 }
      rw [hl] at ha
      simp only [] at ha
      rw [← hpd, hfl, hfr, hfb, hfc] at ha
      have e2 := Eff_SendBankSelect hw s1 (u8 (p.SourceAddress / FLASH_SIZE_16MB))
      rw [hq, he.2.1] at e2
      have e := Eff_readAdvance_chunk mode hw
        { p with BankSel := p.SourceAddress / FLASH_SIZE_16MB, BankSwitchFlag := 0 } s _ _
        (he.trans e2) pd l.BufferPtr (chunkCap l.LengthBytes) hpd.symm hfb hfl
      rw [crAfter_append, crAfter_bankSel, hs] at e
      refine ⟨_, 0, pd, _, _, rfl, rfl, rfl,
        Or.inr ⟨by rw [hpd], rfl, hpd ▸ hc.1, hff ▸ hc.2⟩,
        ha.1, ha.2.1, ha.2.2.1, ha.2.2.2.1, ha.2.2.2.2, e⟩
    · rw [h2 hc hq] at hb
      exact absurd hb (by simp)
  · rw [h1 hc] at hb
    injection hb with hl hs
    have ha := advance_chunk mode p
    rw [hl, ← hpd, hfl, hfr, hfb, hff, hfc] at ha
    have e := Eff_readAdvance_chunk mode hw p s _ _ he pd l.BufferPtr
      (chunkCap l.LengthBytes) hpd.symm hfb hfl
    rw [hs] at e
    rw [← hpd, hff] at hc
    refine ⟨[], l.BankSwitchFlag, pd, _, _, rfl, rfl, rfl, Or.inl ⟨rfl, rfl, hc⟩,
      ha.1, ha.2.1, ha.2.2.1, ha.2.2.2.1, ha.2.2.2.2, ?_⟩
    simpa using e

theorem plan_serial (mode p cap fl : Nat) (hm : mode ≠ DUAL_PARALLEL_CONNECTION)
    (hp : p + cap ≤ 268435456) (h1 : 1 ≤ cap) (hl : cap ≤ 4096) :
    1 ≤ planLen mode p cap ∧ planLen mode p cap ≤ cap ∧
    p / 16777216 = (p + planLen mode p cap - 1) / 16777216 ∧
    ((planFlag mode p cap fl = 1 ∧ (p + planLen mode p cap) % 16777216 = 0) ∨
      (planFlag mode p cap fl = fl ∧ (p + planLen mode p cap) / 16777216 = p / 16777216)) := by
  unfold planLen planFlag
  rw [chunkBank_serial mode _ hm hp hl, chunkBank_serial mode _ hm hp hl]
  simp only []
  split_ifs with h
  · refine ⟨?_, ?_, ?_, Or.inl ⟨rfl, ?_⟩⟩ <;> simp only [] <;> omega
  · refine ⟨h1, le_refl _, ?_, Or.inr ⟨rfl, ?_⟩⟩ <;> simp only [] <;> omega

theorem plan_parallel (p cap fl : Nat)
    (hp : p + cap / 2 ≤ 268435456) (h1 : 1 ≤ cap) (hl : cap ≤ 4096) :
    1 ≤ planLen DUAL_PARALLEL_CONNECTION p cap ∧
    planLen DUAL_PARALLEL_CONNECTION p cap ≤ cap ∧
    (2 ≤ planLen DUAL_PARALLEL_CONNECTION p cap →
      p / 16777216 = (p + planLen DUAL_PARALLEL_CONNECTION p cap / 2 - 1) / 16777216) ∧
    ((planFlag DUAL_PARALLEL_CONNECTION p cap fl = 1 ∧
        planLen DUAL_PARALLEL_CONNECTION p cap % 2 = 0 ∧
        (p + planLen DUAL_PARALLEL_CONNECTION p cap / 2) % 16777216 = 0) ∨
      (planFlag DUAL_PARALLEL_CONNECTION p cap fl = fl ∧
        planLen DUAL_PARALLEL_CONNECTION p cap = cap ∧
        (p + planLen DUAL_PARALLEL_CONNECTION p cap / 2) / 16777216 = p / 16777216)) := by
  unfold planLen planFlag
  rw [chunkBank_parallel _ hp hl, chunkBank_parallel _ hp hl]
  simp only []
  split_ifs with h
  · refine ⟨?_, ?_, ?_, Or.inl ⟨rfl, ?_, ?_⟩⟩ <;> simp only [] <;> omega
  · refine ⟨h1, le_refl _, ?_, Or.inr ⟨rfl, rfl, ?_⟩⟩ <;> simp only [] <;> omega

theorem reads_stackEvs (mode sa : Nat) (s : Drv) : reads (stackEvs mode sa s) = [] := by
  unfold stackEvs reads
  split_ifs <;> simp

theorem copies_stackEvs (mode sa : Nat) (s : Drv) :
    copies (stackEvs mode sa s) = [] := by
  unfold stackEvs copies
  split_ifs <;> simp

theorem bankSels_stackEvs (mode sa : Nat) (s : Drv) :
    bankSels (stackEvs mode sa s) = [] := by
  unfold stackEvs bankSels
  split_ifs <;> simp

theorem reads_append (a b : List Event) : reads (a ++ b) = reads a ++ reads b := by
  simp [reads]

theorem copies_append (a b : List Event) : copies (a ++ b) = copies a ++ copies b := by
  simp [copies]

theorem bankSels_append (a b : List Event) : bankSels (a ++ b) = bankSels a ++ bankSels b := by
  simp [bankSels]

/-- C1. In every pass of the manual-mode loop that reads a chunk, with `p` the address
inside the device handed to `FlashRead` and `len` the byte count handed to it, and
`p + 4096 ≤ 2^28`: the pass calls `FlashRead` exactly once, and the bytes of the chunk on
one device stay inside one 16 MiB bank, `p / 2^24 = (p + len - 1) / 2^24` outside dual
parallel mode and `p / 2^24 = (p + len / 2 - 1) / 2^24` in dual parallel mode when
`len ≥ 2`. -/
theorem chunk_stays_in_bank (mode : Nat) (hw : Nat → Resp) (l l' : Locals) (s s' : Drv)
    (hr : 0 < l.LengthBytes)
    (hb : loopBody mode hw l s = Step.next l' s')
    (hp : perDev mode l s + 4096 ≤ 2 ^ 28) :
    ∃ evs cr len,
      ctl s'.log = ctl s.log ++ evs ∧ reads evs = [(cr, perDev mode l s, len)] ∧
      (mode ≠ DUAL_PARALLEL_CONNECTION →
        perDev mode l s / 2 ^ 24 = (perDev mode l s + len - 1) / 2 ^ 24) ∧
      (mode = DUAL_PARALLEL_CONNECTION → 2 ≤ len →
        perDev mode l s / 2 ^ 24 = (perDev mode l s + len / 2 - 1) / 2 ^ 24) := by
  obtain ⟨sel, fl, p, cr, len, hp', -, hlen, hsel, -, -, -, -, -, heff⟩ :=
    loopBody_next mode hw l l' s s' hb
  subst hp'
  have hc1 := chunkCap_pos l.LengthBytes hr
  have hc2 := chunkCap_le l.LengthBytes
  have hrs : reads sel = [] := by
    rcases hsel with ⟨h, -⟩ | ⟨h, -⟩ <;> simp [h, reads]
  have e24 : (2 : Nat) ^ 24 = 16777216 := by norm_num
  norm_num at hp
  rw [e24]
  refine ⟨_, cr, len, heff.1, ?_, ?_, ?_⟩
  · rw [reads_append, reads_append, reads_stackEvs, hrs]
    simp [reads]
  · intro hm
    rw [hlen]
    exact (plan_serial mode _ _ 0 hm (by omega) hc1 hc2.2).2.2.1
  · intro hm h2
    subst hm
    rw [hlen] at h2 ⊢
    exact (plan_parallel _ _ 0 (by omega) hc1 hc2.2).2.2.1 h2

/-- C2. In every pass of the manual-mode loop that reads a chunk, with remaining length
`r > 0` and the address `p` handed to `FlashRead` such that `p + 4096 ≤ 2^28`, the byte
count `len` of the one read and of the one copy of the pass satisfies
`1 ≤ len ≤ min r 4096` in every connection mode; `LengthBytes -= Length` does not wrap;
and with at most 8 dummy bytes the transfer count `len + dummy + 4` that `FlashRead`
computes does not wrap and fits the 4108 bytes of `ReadBuffer`. -/
theorem chunk_length_bounds (mode : Nat) (hw : Nat → Resp) (l l' : Locals) (s s' : Drv)
    (hr : 0 < l.LengthBytes) (hr32 : l.LengthBytes < 2 ^ 32)
    (hb : loopBody mode hw l s = Step.next l' s')
    (hp : perDev mode l s + 4096 ≤ 2 ^ 28) :
    ∃ evs cr len,
      ctl s'.log = ctl s.log ++ evs ∧ reads evs = [(cr, perDev mode l s, len)] ∧
      copies evs = [(l.BufferPtr, DATA_OFFSET + s.gu8_qspi_dummy_byte, len)] ∧
      1 ≤ len ∧ len ≤ min l.LengthBytes 4096 ∧
      l'.LengthBytes + len = l.LengthBytes ∧
      (s.gu8_qspi_dummy_byte ≤ DUMMY_MAX_SIZE →
        u32 (u32 (len + s.gu8_qspi_dummy_byte) + OVERHEAD_SIZE) =
          len + s.gu8_qspi_dummy_byte + 4 ∧
        len + 4 + s.gu8_qspi_dummy_byte ≤ ReadBufferSize ∧ ReadBufferSize = 4108) := by
  obtain ⟨sel, fl, p, cr, len, hp', -, hlen, hsel, -, hlb, -, -, -, heff⟩ :=
    loopBody_next mode hw l l' s s' hb
  subst hp'
  have hc1 := chunkCap_pos l.LengthBytes hr
  have hc2 := chunkCap_le l.LengthBytes
  have hrs : reads sel = [] ∧ copies sel = [] := by
    rcases hsel with ⟨h, -⟩ | ⟨h, -⟩ <;> simp [h, reads, copies]
  norm_num at hp hr32
  have hb : 1 ≤ len ∧ len ≤ chunkCap l.LengthBytes := by
    rw [hlen]
    by_cases hm : mode = DUAL_PARALLEL_CONNECTION
    · subst hm
      have h := plan_parallel (perDev DUAL_PARALLEL_CONNECTION l s) (chunkCap l.LengthBytes) 0
        (by omega) hc1 hc2.2
      exact ⟨h.1, h.2.1⟩
    · have h := plan_serial mode (perDev mode l s) (chunkCap l.LengthBytes) 0 hm
        (by omega) hc1 hc2.2
      exact ⟨h.1, h.2.1⟩
  refine ⟨_, cr, len, heff.1, ?_, ?_, hb.1, ?_, ?_, ?_⟩
  · rw [reads_append, reads_append, reads_stackEvs, hrs.1]
    simp [reads]
  · rw [copies_append, copies_append, copies_stackEvs, hrs.2]
    simp [copies]
  · omega
  · rw [hlb]
    unfold sub32
    omega
  · intro hd
    unfold u32 OVERHEAD_SIZE ReadBufferSize DATA_SIZE DATA_OFFSET
    unfold DUMMY_MAX_SIZE at hd ⊢
    omega

theorem chunkCap_cases (r : Nat) : chunkCap r = r ∨ (chunkCap r = 4096 ∧ 4096 < r) := by
  unfold chunkCap DATA_SIZE
  split_ifs with h
  · exact Or.inr ⟨rfl, h⟩
  · exact Or.inl rfl

theorem crAfter_stackEvs (mode sa : Nat) (s : Drv) :
    crAfter s.lqspiCr (stackEvs mode sa s) =
      if mode = DUAL_STACK_CONNECTION ∧ sa ≥ s.QspiFlashSize / 2 then
        s.lqspiCr ||| XQSPIPS_LQSPI_CR_U_PAGE_MASK
      else s.lqspiCr := by
  unfold stackEvs
  split_ifs <;> rfl

/-- After a pass that reads a chunk, `LQSPI_CR` holds the value it had at the read. -/
theorem loopBody_next_cr (mode : Nat) (l : Locals) (s s' : Drv) (sel : List Event)
    (cr a b c d e : Nat)
    (hcr : cr = crAfter s.lqspiCr (stackEvs mode l.SourceAddress s))
    (hsel : sel = [] ∨ ∃ x y, sel = [Event.bankSel cr x y])
    (heff : Eff s s' (stackEvs mode l.SourceAddress s ++ sel ++
      [Event.flashRead cr a b, Event.memcpy c d e])) :
    s'.lqspiCr = cr := by
  rw [heff.2.1, crAfter_append, crAfter_append, ← hcr]
  rcases hsel with h | ⟨x, y, h⟩ <;> rw [h] <;> rfl

theorem sub32_eq (a b : Nat) (h : b ≤ a) (ha : a < 4294967296) : sub32 a b = a - b := by
  unfold sub32
  omega

theorem u32_eq (a : Nat) (ha : a < 4294967296) : u32 a = a := by
  unfold u32
  omega

theorem same_bank_below (a len half : Nat) (h1 : a < half) (hm : half % 16777216 = 0)
    (hb : a / 16777216 = (a + len - 1) / 16777216) : a + len ≤ half := by
  omega

theorem half_add_half (a b : Nat) (hb : b % 2 = 0) : (a + b) / 2 = a / 2 + b / 2 := by
  omega

theorem iter_inv_parallel (hw : Nat → Resp) (l l' : Locals) (s s' : Drv) (a : Nat)
    (hI : Inv DUAL_PARALLEL_CONNECTION s a l) (hr : 0 < l.LengthBytes)
    (hb : loopBody DUAL_PARALLEL_CONNECTION hw l s = Step.next l' s') :
    IterOut DUAL_PARALLEL_CONNECTION l l' s s' a := by
  obtain ⟨sel, fl, p, cr, len, hp, hcr, hlen, hsel, hsa, hlb, hbp, hfl, -, heff⟩ :=
    loopBody_next DUAL_PARALLEL_CONNECTION hw l l' s s' hb
  subst hp
  have hc1 := chunkCap_pos l.LengthBytes hr
  have hc2 := chunkCap_le l.LengthBytes
  have hcc := chunkCap_cases l.LengthBytes
  have hpd := perDev_eq DUAL_PARALLEL_CONNECTION l s
  have hDPS : DUAL_PARALLEL_CONNECTION ≠ DUAL_STACK_CONNECTION := by decide
  unfold Inv at hI
  rw [if_pos rfl] at hI
  rw [if_neg (by simp [hDPS])] at hpd
  obtain ⟨hI1, hI2⟩ := hI
  have hsa0 : l.SourceAddress = a / 2 := by
    rcases hI1 with h0 | h
    · exact absurd h0 (by clear * - hr; omega)
    · exact h
  clear hI1
  have hpa : perDev DUAL_PARALLEL_CONNECTION l s = a / 2 := hpd.trans hsa0
  have hpl := plan_parallel (perDev DUAL_PARALLEL_CONNECTION l s) (chunkCap l.LengthBytes) fl
    (by clear * - hpa hI2 hc2; omega) hc1 hc2.2
  rw [← hlen] at hpl
  have hpl1 := hpl.1
  have hpl2 : len ≤ l.LengthBytes := le_trans hpl.2.1 hc2.1
  have hpl4 : len ≤ 4096 := le_trans hpl.2.1 hc2.2
  have hpar : len % 2 = 0 ∨ len = l.LengthBytes := by
    rcases hpl.2.2.2 with ⟨-, hev, -⟩ | ⟨-, hfull, -⟩
    · exact Or.inl hev
    · rcases hcc with h | ⟨h, -⟩
      · exact Or.inr (hfull.trans h)
      · exact Or.inl (by clear * - hfull h; omega)
  have hpl3 : (l'.BankSwitchFlag = 1 ∧
        endsBank DUAL_PARALLEL_CONNECTION (cr, perDev DUAL_PARALLEL_CONNECTION l s, len)
          = true) ∨
      (l'.BankSwitchFlag = fl ∧ (DUAL_PARALLEL_CONNECTION ≠ DUAL_PARALLEL_CONNECTION →
        (perDev DUAL_PARALLEL_CONNECTION l s + len) / 16777216 =
          perDev DUAL_PARALLEL_CONNECTION l s / 16777216)) := by
    rw [hfl]
    rcases hpl.2.2.2 with ⟨hf1, -, hb0⟩ | ⟨hf1, -, -⟩
    · left
      refine ⟨hf1, ?_⟩
      unfold endsBank
      rw [if_pos rfl]
      exact decide_eq_true hb0
    · right
      exact ⟨hf1, fun h => absurd rfl h⟩
  clear hpl hcc hpd hsa0
  rw [if_pos rfl, u32_eq _ (by clear * - hpa hI2 hpl2; omega)] at hsa
  rw [sub32_eq _ _ hpl2 (by clear * - hI2; omega)] at hlb
  refine ⟨sel, fl, cr, len, hcr, hsel, heff, hlen, hpl1, hpl2, hpl4, hlb,
    hbp, hfl, ?_, by clear * - hpa hI2 hpl2; omega, ?_, ?_, hpl3, ?_⟩
  · unfold translate
    rw [if_pos rfl]
    exact hpa
  · intro h
    exact absurd h hDPS
  · intro _
    exact hpar
  · unfold Inv
    rw [if_pos rfl]
    refine ⟨?_, by clear * - hlb hI2 hpl2; omega⟩
    rcases hpar with hev | hfull
    · right
      rw [hsa, hpa, half_add_half a len hev]
    · left
      rw [hlb, hfull, Nat.sub_self]

theorem iter_inv_single (mode : Nat) (hw : Nat → Resp) (l l' : Locals) (s s' : Drv) (a : Nat)
    (hm : mode ≠ DUAL_PARALLEL_CONNECTION) (hs : mode ≠ DUAL_STACK_CONNECTION)
    (hI : Inv mode s a l) (hr : 0 < l.LengthBytes)
    (hb : loopBody mode hw l s = Step.next l' s') :
    IterOut mode l l' s s' a := by
  obtain ⟨sel, fl, p, cr, len, hp, hcr, hlen, hsel, hsa, hlb, hbp, hfl, -, heff⟩ :=
    loopBody_next mode hw l l' s s' hb
  subst hp
  have hc1 := chunkCap_pos l.LengthBytes hr
  have hc2 := chunkCap_le l.LengthBytes
  have hpd := perDev_eq mode l s
  unfold Inv at hI
  rw [if_neg hm, if_neg hs] at hI
  rw [if_neg (by simp [hs])] at hpd
  rw [if_neg hm] at hsa
  obtain ⟨hI1, hI2⟩ := hI
  have hpa : perDev mode l s = a := hpd.trans hI1
  have hpl := plan_serial mode (perDev mode l s) (chunkCap l.LengthBytes) fl hm
    (by clear * - hpa hI2 hc2; omega) hc1 hc2.2
  rw [← hlen] at hpl
  have hpl1 := hpl.1
  have hpl2 : len ≤ l.LengthBytes := le_trans hpl.2.1 hc2.1
  have hpl4 : len ≤ 4096 := le_trans hpl.2.1 hc2.2
  have hpl3 : (l'.BankSwitchFlag = 1 ∧ endsBank mode (cr, perDev mode l s, len) = true) ∨
      (l'.BankSwitchFlag = fl ∧ (mode ≠ DUAL_PARALLEL_CONNECTION →
        (perDev mode l s + len) / 16777216 = perDev mode l s / 16777216)) := by
    rw [hfl]
    rcases hpl.2.2.2 with ⟨hf1, hb0⟩ | ⟨hf1, hsame⟩
    · left
      refine ⟨hf1, ?_⟩
      unfold endsBank
      rw [if_neg hm]
      exact decide_eq_true hb0
    · right
      exact ⟨hf1, fun _ => hsame⟩
  clear hpl hpd
  rw [u32_eq _ (by clear * - hpa hI2 hpl2; omega)] at hsa
  rw [sub32_eq _ _ hpl2 (by clear * - hI2; omega)] at hlb
  refine ⟨sel, fl, cr, len, hcr, hsel, heff, hlen, hpl1, hpl2, hpl4, hlb,
    hbp, hfl, ?_, by clear * - hpa hI2 hpl2; omega, ?_, ?_, hpl3, ?_⟩
  · unfold translate
    rw [if_neg hm, if_neg hs]
    exact hpa
  · intro h
    exact absurd h hs
  · intro h
    exact absurd h hm
  · unfold Inv
    rw [if_neg hm, if_neg hs]
    exact ⟨by clear * - hsa hpa; omega, by clear * - hlb hI2 hpl2; omega⟩

theorem iter_inv_stack (hw : Nat → Resp) (l l' : Locals) (s s' : Drv) (a : Nat)
    (hI : Inv DUAL_STACK_CONNECTION s a l) (hr : 0 < l.LengthBytes)
    (hb : loopBody DUAL_STACK_CONNECTION hw l s = Step.next l' s') :
    IterOut DUAL_STACK_CONNECTION l l' s s' a := by
  obtain ⟨sel, fl, p, cr, len, hp, hcr, hlen, hsel, hsa, hlb, hbp, hfl, -, heff⟩ :=
    loopBody_next DUAL_STACK_CONNECTION hw l l' s s' hb
  subst hp
  have hc1 := chunkCap_pos l.LengthBytes hr
  have hc2 := chunkCap_le l.LengthBytes
  have hcr' : s'.lqspiCr = cr := by
    refine loopBody_next_cr DUAL_STACK_CONNECTION l s s' sel cr _ _ _ _ _ hcr ?_ heff
    rcases hsel with ⟨h, -⟩ | ⟨h, -⟩
    · exact Or.inl h
    · exact Or.inr ⟨_, _, h⟩
  have hsz : s'.QspiFlashSize = s.QspiFlashSize := heff.2.2.1
  have hpd := perDev_eq DUAL_STACK_CONNECTION l s
  have hcs := crAfter_stackEvs DUAL_STACK_CONNECTION l.SourceAddress s
  rw [← hcr] at hcs
  have hm : DUAL_STACK_CONNECTION ≠ DUAL_PARALLEL_CONNECTION := by decide
  unfold Inv at hI
  rw [if_neg hm, if_pos rfl] at hI
  obtain ⟨hev, hmul, hT, hrng, hup⟩ := hI
  rw [if_neg hm] at hsa
  -- the device, the address inside it, and the register at the read
  have key : (a < s.QspiFlashSize / 2 ∧ perDev DUAL_STACK_CONNECTION l s = a ∧
        isUpper cr = false) ∨
      (¬ a < s.QspiFlashSize / 2 ∧
        perDev DUAL_STACK_CONNECTION l s = a - s.QspiFlashSize / 2 ∧ isUpper cr = true) := by
    by_cases hu : isUpper s.lqspiCr = true
    · rw [if_pos hu] at hup
      have hlt : ¬ (DUAL_STACK_CONNECTION = DUAL_STACK_CONNECTION ∧
          l.SourceAddress ≥ s.QspiFlashSize / 2) := by
        clear * - hup hrng hr hev
        omega
      rw [if_neg hlt] at hpd hcs
      right
      exact ⟨by clear * - hup; omega, by clear * - hup hpd; omega, by rw [hcs, hu]⟩
    · rw [if_neg hu] at hup
      by_cases hh : l.SourceAddress ≥ s.QspiFlashSize / 2
      · rw [if_pos ⟨rfl, hh⟩] at hpd hcs
        rw [sub32_eq _ _ hh (by clear * - hup hrng hT; omega)] at hpd
        right
        refine ⟨by clear * - hup hh; omega, by clear * - hup hpd; omega, ?_⟩
        rw [hcs]
        exact isUpper_or s.lqspiCr
      · have hlt : ¬ (DUAL_STACK_CONNECTION = DUAL_STACK_CONNECTION ∧
            l.SourceAddress ≥ s.QspiFlashSize / 2) := by
          clear * - hh
          omega
        rw [if_neg hlt] at hpd hcs
        left
        refine ⟨by clear * - hup hh; omega, by clear * - hup hpd; omega, ?_⟩
        rw [hcs]
        simpa using hu
  clear hpd hcs hup
  have hpin : perDev DUAL_STACK_CONNECTION l s + l.LengthBytes ≤ 268435456 := by
    clear * - key hrng hT
    omega
  have hpl := plan_serial DUAL_STACK_CONNECTION (perDev DUAL_STACK_CONNECTION l s)
    (chunkCap l.LengthBytes) fl hm (by clear * - hpin hc2; omega) hc1 hc2.2
  rw [← hlen] at hpl
  have hpl1 := hpl.1
  have hpl2 : len ≤ l.LengthBytes := le_trans hpl.2.1 hc2.1
  have hpl4 : len ≤ 4096 := le_trans hpl.2.1 hc2.2
  have hend : (a < s.QspiFlashSize / 2 → a + len ≤ s.QspiFlashSize / 2) := by
    intro h
    rcases key with ⟨-, hp, -⟩ | ⟨h', -, -⟩
    · rw [hp] at hpl
      exact same_bank_below a len _ h hmul hpl.2.2.1
    · exact absurd h h'
  have hpl3 : (l'.BankSwitchFlag = 1 ∧
        endsBank DUAL_STACK_CONNECTION (cr, perDev DUAL_STACK_CONNECTION l s, len) = true) ∨
      (l'.BankSwitchFlag = fl ∧ (DUAL_STACK_CONNECTION ≠ DUAL_PARALLEL_CONNECTION →
        (perDev DUAL_STACK_CONNECTION l s + len) / 16777216 =
          perDev DUAL_STACK_CONNECTION l s / 16777216)) := by
    rw [hfl]
    rcases hpl.2.2.2 with ⟨hf1, hb0⟩ | ⟨hf1, hsame⟩
    · left
      refine ⟨hf1, ?_⟩
      unfold endsBank
      rw [if_neg hm]
      exact decide_eq_true hb0
    · right
      exact ⟨hf1, fun _ => hsame⟩
  clear hpl
  rw [sub32_eq _ _ hpl2 (by clear * - hrng hT; omega)] at hlb
  rw [u32_eq _ (by clear * - hpin hpl2; omega)] at hsa
  refine ⟨sel, fl, cr, len, hcr, hsel, heff, hlen, hpl1, hpl2, hpl4, hlb,
    hbp, hfl, ?_, by clear * - hpin hpl2; omega, ?_, ?_, hpl3, ?_⟩
  · unfold translate
    rw [if_neg hm, if_pos rfl]
    rcases key with ⟨h, hp, -⟩ | ⟨h, hp, -⟩
    · rw [if_pos h]
      exact hp
    · rw [if_neg h]
      exact hp
  · intro _
    unfold translate
    rw [if_neg hm, if_pos rfl]
    rcases key with ⟨h, -, hc⟩ | ⟨h, -, hc⟩
    · rw [if_pos h, hc]
      simp
    · rw [if_neg h, hc]
      simp
  · intro h
    exact absurd h hm
  · unfold Inv
    rw [if_neg hm, if_pos rfl, hsz, hcr']
    refine ⟨hev, hmul, hT, by clear * - hlb hrng hpl2; omega, ?_⟩
    rcases key with ⟨h, hp, hc⟩ | ⟨h, hp, hc⟩
    · rw [hc]
      simp only [Bool.false_eq_true, if_false]
      clear * - hsa hp
      omega
    · rw [if_pos hc]
      clear * - hsa hp h
      omega

/-- One pass under the invariant: the chunk is at least one byte and at most the
remaining length, it is read from the translation of `a`, and the invariant holds again
at `a + len`. -/
theorem iter_inv (mode : Nat) (hw : Nat → Resp) (l l' : Locals) (s s' : Drv) (a : Nat)
    (hI : Inv mode s a l) (hr : 0 < l.LengthBytes)
    (hb : loopBody mode hw l s = Step.next l' s') :
    IterOut mode l l' s s' a := by
  by_cases hm : mode = DUAL_PARALLEL_CONNECTION
  · subst hm
    exact iter_inv_parallel hw l l' s s' a hI hr hb
  · by_cases hs : mode = DUAL_STACK_CONNECTION
    · subst hs
      exact iter_inv_stack hw l l' s s' a hI hr hb
    · exact iter_inv_single mode hw l l' s s' a hm hs hI hr hb

theorem QspiAccessLoop_succ (mode : Nat) (hw : Nat → Resp) (fuel : Nat) (l : Locals)
    (s : Drv) :
    QspiAccessLoop mode hw (fuel + 1) l s =
      if l.LengthBytes > 0 then
        match loopBody mode hw l s with
        | Step.abort l s => some (Step.abort l s)
        | Step.next l s => QspiAccessLoop mode hw fuel l s
      else some (Step.next l s) := rfl

/-- The loop, run to its end under the invariant, reads the request in chunks that
partition it. -/
theorem loop_partition (mode : Nat) (hw : Nat → Resp) :
    ∀ (fuel : Nat) (l l' : Locals) (s s' : Drv) (a : Nat), Inv mode s a l →
      QspiAccessLoop mode hw fuel l s = some (Step.next l' s') →
      ∃ evs, Eff s s' evs ∧
        Part mode (s.QspiFlashSize / 2) s.gu8_qspi_dummy_byte a l.BufferPtr l.LengthBytes
          (reads evs) (copies evs) := by
  intro fuel
  induction fuel with
  | zero =>
    intro l l' s s' a _ h
    simp [QspiAccessLoop] at h
  | succ fuel ih =>
    intro l l' s s' a hI h
    rw [QspiAccessLoop_succ] at h
    by_cases hr : l.LengthBytes > 0
    · rw [if_pos hr] at h
      cases hb : loopBody mode hw l s with
      | abort l1 s1 =>
        rw [hb] at h
        simp at h
      | next l1 s1 =>
        rw [hb] at h
        simp only [] at h
        obtain ⟨sel, fl, cr, len, -, hsel, heff, -, h1, h2, -, hlb, hbp, -, hp, -, hdev, hpar,
          -, hI'⟩ := iter_inv mode hw l l1 s s1 a hI hr hb
        obtain ⟨evs, heff2, hpart⟩ := ih l1 l' s1 s' (a + len) hI' h
        have hrs : reads sel = [] ∧ copies sel = [] := by
          rcases hsel with ⟨h, -⟩ | ⟨h, -⟩ <;> simp [h, reads, copies]
        refine ⟨_, heff.trans heff2, ?_⟩
        rw [reads_append, reads_append, reads_append, reads_stackEvs, hrs.1,
          copies_append, copies_append, copies_append, copies_stackEvs, hrs.2]
        rw [heff.2.2.1, heff.2.2.2.2.2.2.2, hlb, hbp] at hpart
        simp only [reads, copies, List.filterMap_cons, List.filterMap_nil, List.nil_append,
          List.cons_append]
        exact ⟨rfl, h1, h2, rfl, rfl, hp, hdev, hpar, hpart⟩
    · rw [if_neg hr] at h
      injection h with h
      injection h with hl hs
      subst hl hs
      refine ⟨[], Eff.refl s, ?_⟩
      have : l.LengthBytes = 0 := by omega
      simp [reads, copies, Part, this]

theorem Eff_QspiAccessExit (mode : Nat) (hw : Nat → Resp) (l : Locals) (s : Drv) :
    Eff s (QspiAccessExit mode hw l s).2
      (exitEvs mode l s.lqspiCr (SendBankSelect hw s 0).1) ∧
    ((QspiAccessExit mode hw l s).1 = XST_SUCCESS ↔ (SendBankSelect hw s 0).1 = XST_SUCCESS) := by
  have e := Eff_SendBankSelect hw s 0
  unfold QspiAccessExit exitEvs
  simp only []
  by_cases hq : (SendBankSelect hw s 0).1 = XST_SUCCESS
  · rw [if_neg (not_not.mpr hq), if_neg (not_not.mpr hq)]
    rw [hq] at e
    by_cases hm : mode = DUAL_STACK_CONNECTION
    · rw [if_pos hm, if_pos hm]
      exact ⟨(e.trans (Eff_SetLqspiConfigReg _ _)).trans (Eff_SetSlaveSelect _), by simp [hq]⟩
    · rw [if_neg hm, if_neg hm]
      exact ⟨e, by simp [hq]⟩
  · rw [if_pos hq, if_pos hq]
    refine ⟨e, ?_⟩
    simp only [hq, iff_false]
    decide

theorem reads_exitEvs (mode : Nat) (l : Locals) (cr st : Nat) :
    reads (exitEvs mode l cr st) = [] ∧ copies (exitEvs mode l cr st) = [] := by
  unfold exitEvs reads copies
  split_ifs <;> simp

/-- The two ways a manual-mode call returns. -/
theorem QspiAccess_manual (mode : Nat) (hw : Nat → Resp) (fuel cr0 : Nat) (s s' : Drv)
    (S D L st : Nat) (hlin : s.LinearBootDeviceFlag ≠ 1)
    (h : QspiAccess mode hw fuel cr0 s S D L = some (st, s')) :
    (∃ l1, QspiAccessLoop mode hw fuel (initLocals mode cr0 S D L) s =
        some (Step.abort l1 s') ∧ st = XST_FAILURE) ∨
    (∃ l1 s1, QspiAccessLoop mode hw fuel (initLocals mode cr0 S D L) s =
        some (Step.next l1 s1) ∧ QspiAccessExit mode hw l1 s1 = (st, s')) := by
  unfold QspiAccess at h
  rw [if_neg hlin] at h
  cases hl : QspiAccessLoop mode hw fuel (initLocals mode cr0 S D L) s with
  | none =>
    rw [hl] at h
    simp at h
  | some r =>
    rw [hl] at h
    cases r with
    | abort l1 s1 =>
      simp only [Option.some.injEq, Prod.mk.injEq] at h
      left
      exact ⟨l1, by rw [h.2], h.1.symm⟩
    | next l1 s1 =>
      simp only [Option.some.injEq] at h
      right
      exact ⟨l1, s1, rfl, h⟩

theorem Inv_init (mode cr0 : Nat) (s : Drv) (S D L : Nat) (h : InFlash mode s S L) :
    Inv mode s S (initLocals mode cr0 S D L) := by
  obtain ⟨h1, h2, h3⟩ := h
  norm_num at h2 h3
  unfold Inv initLocals
  by_cases hm : mode = DUAL_PARALLEL_CONNECTION
  · rw [if_pos hm, if_pos hm]
    exact ⟨Or.inr rfl, by simp only []; omega⟩
  · by_cases hs : mode = DUAL_STACK_CONNECTION
    · obtain ⟨h4, h5, h6⟩ := h3 hs
      rw [if_neg hm, if_pos hs, if_neg hm, h6]
      exact ⟨h4, h5, h2, h1, by simp⟩
    · rw [if_neg hm, if_neg hs, if_neg hm]
      exact ⟨rfl, by simp only []; omega⟩

theorem Part_length (mode half dummy : Nat) :
    ∀ (rs cs : List (Nat × Nat × Nat)) (a d r : Nat),
      Part mode half dummy a d r rs cs → rs.length = cs.length
  | [], [], _, _, _, _ => rfl
  | (_, _, _) :: rs, (_, _, _) :: cs, _, _, _, h => by
    simp only [Part] at h
    simp only [List.length_cons, Part_length mode half dummy rs cs _ _ _ h.2.2.2.2.2.2.2.2]
  | _ :: _, [], _, _, _, h => by simp [Part] at h
  | [], _ :: _, _, _, _, h => by simp [Part] at h

theorem Part_sum (mode half dummy : Nat) :
    ∀ (rs cs : List (Nat × Nat × Nat)) (a d r : Nat),
      Part mode half dummy a d r rs cs → (cs.map (fun c => c.2.2)).sum = r
  | [], [], _, _, _, h => by
    simp only [Part] at h
    simp [h]
  | (_, _, n) :: rs, (_, _, m) :: cs, _, _, r, h => by
    simp only [Part] at h
    have ih := Part_sum mode half dummy rs cs _ _ _ h.2.2.2.2.2.2.2.2
    simp only [List.map_cons, List.sum_cons, ih]
    omega
  | _ :: _, [], _, _, _, h => by simp [Part] at h
  | [], _ :: _, _, _, _, h => by simp [Part] at h

theorem u32_add_u32 (d n o : Nat) : u32 (u32 (d + n) + o) = u32 (d + (n + o)) := by
  unfold u32
  omega

theorem Part_get (mode half dummy : Nat) :
    ∀ (rs cs : List (Nat × Nat × Nat)) (a d r i cr p n dst off m : Nat),
      Part mode half dummy a d r rs cs → d < 4294967296 →
      rs[i]? = some (cr, p, n) → cs[i]? = some (dst, off, m) →
      m = n ∧ 1 ≤ n ∧ dst = u32 (d + offsetOf cs i) ∧ off = DATA_OFFSET + dummy ∧
      p = (translate mode half (a + offsetOf cs i)).2 ∧
      (mode = DUAL_STACK_CONNECTION →
        (isUpper cr = true ↔ (translate mode half (a + offsetOf cs i)).1 = 1)) ∧
      (mode = DUAL_PARALLEL_CONNECTION → n % 2 = 0 ∨ i + 1 = cs.length)
  | [], _, _, _, _, i, _, _, _, _, _, _, _, _, hr, _ => by simp at hr
  | _ :: _, [], _, _, _, _, _, _, _, _, _, _, h, _, _, _ => by simp [Part] at h
  | (cr0, p0, n0) :: rs, (d0, o0, m0) :: cs, a, d, r, 0, cr, p, n, dst, off, m, h, hd, hr,
      hc => by
    simp only [Part] at h
    simp only [List.getElem?_cons_zero, Option.some.injEq, Prod.mk.injEq] at hr hc
    obtain ⟨rfl, rfl, rfl⟩ := hr
    obtain ⟨rfl, rfl, rfl⟩ := hc
    obtain ⟨h1, h2, h3, h4, h5, h6, h7, h8, h9⟩ := h
    refine ⟨h1, h2, ?_, h5, ?_, ?_, ?_⟩
    · simp [offsetOf, h4, u32_eq d hd]
    · simpa [offsetOf] using h6
    · simpa [offsetOf] using h7
    · intro hm
      rcases h8 hm with h | h
      · exact Or.inl h
      · right
        have hs := Part_sum mode half dummy rs cs _ _ _ h9
        have hl := Part_length mode half dummy rs cs _ _ _ h9
        rw [h, Nat.sub_self] at h9
        cases cs with
        | nil => rfl
        | cons c cs =>
          cases rs with
          | nil => simp [Part] at h9
          | cons x rs =>
            obtain ⟨_, _, _⟩ := x
            obtain ⟨_, _, _⟩ := c
            simp only [Part] at h9
            omega
  | (cr0, p0, n0) :: rs, (d0, o0, m0) :: cs, a, d, r, i + 1, cr, p, n, dst, off, m, h, _, hr,
      hc => by
    simp only [Part] at h
    simp only [List.getElem?_cons_succ] at hr hc
    obtain ⟨h1, _, _, _, _, _, _, _, h9⟩ := h
    have ih := Part_get mode half dummy rs cs (a + n0) (u32 (d + n0)) (r - n0) i cr p n dst
      off m h9 (by unfold u32; omega) hr hc
    have ho : offsetOf ((d0, o0, m0) :: cs) (i + 1) = n0 + offsetOf cs i := by
      simp [offsetOf, h1]
    rw [ho]
    rw [u32_add_u32, Nat.add_assoc] at ih
    simpa using ih

/-- Under the invariant every pass shortens the remaining length, so the loop ends
within `LengthBytes + 1` passes. -/
theorem loop_total (mode : Nat) (hw : Nat → Resp) :
    ∀ (fuel : Nat) (l : Locals) (s : Drv) (a : Nat), Inv mode s a l → l.LengthBytes < fuel →
      ∃ res, QspiAccessLoop mode hw fuel l s = some res := by
  intro fuel
  induction fuel with
  | zero =>
    intro l s a _ h
    omega
  | succ fuel ih =>
    intro l s a hI hf
    rw [QspiAccessLoop_succ]
    by_cases hr : l.LengthBytes > 0
    · rw [if_pos hr]
      cases hb : loopBody mode hw l s with
      | abort l1 s1 => exact ⟨_, rfl⟩
      | next l1 s1 =>
        simp only []
        obtain ⟨sel, fl, cr, len, -, -, -, -, h1, h2, -, hlb, -, -, -, -, -, -, -, hI'⟩ :=
          iter_inv mode hw l l1 s s1 a hI hr hb
        exact ih l1 s1 (a + len) hI' (by omega)
    · rw [if_neg hr]
      exact ⟨_, rfl⟩

/-- A manual-mode request inside the flash returns, given `L + 1` passes of fuel. -/
theorem QspiAccess_returns (mode : Nat) (hw : Nat → Resp) (fuel cr0 : Nat) (s : Drv)
    (S D L : Nat) (hin : InFlash mode s S L) (hf : L < fuel) :
    ∃ r, QspiAccess mode hw fuel cr0 s S D L = some r := by
  unfold QspiAccess
  split_ifs
  · exact ⟨_, rfl⟩
  · obtain ⟨res, h⟩ := loop_total mode hw fuel (initLocals mode cr0 S D L) s S
      (Inv_init mode cr0 s S D L hin) hf
    rw [h]
    cases res <;> exact ⟨_, rfl⟩

/-- The partition of a request entered with the lower chip-select asserted. A successful
manual-mode `QspiAccess(S, D, L)` inside the flash (total size at most `2^28`; for the stacked pair an even size with halves that are multiples of 16 MiB
and the lower chip-select asserted on entry) reads chunks that partition the request:
there is one copy per read, the lengths of the copies add up to `L`, and chunk `i`, with
`off` the sum of the lengths before it, is copied to `D + off` from offset `4 + dummy`
of `ReadBuffer`, has at least one byte, and was read with the byte count of the copy from
the address inside the device that the translation gives for `S + off`, on the upper
device of the stacked pair exactly when the translation names device 1. In dual
parallel mode every chunk but the last has even length. -/
theorem chunks_partition_request (mode : Nat) (hw : Nat → Resp) (fuel cr0 : Nat)
    (s s' : Drv) (S D L : Nat)
    (hlin : s.LinearBootDeviceFlag ≠ 1) (hin : InFlash mode s S L) (hD : D < 2 ^ 32)
    (h : QspiAccess mode hw fuel cr0 s S D L = some (XST_SUCCESS, s')) :
    ∃ evs, ctl s'.log = ctl s.log ++ evs ∧
      (reads evs).length = (copies evs).length ∧
      ((copies evs).map (fun c => c.2.2)).sum = L ∧
      ∀ i cr p n dst off m,
        (reads evs)[i]? = some (cr, p, n) → (copies evs)[i]? = some (dst, off, m) →
        m = n ∧ 1 ≤ n ∧ dst = u32 (D + offsetOf (copies evs) i) ∧
        off = DATA_OFFSET + s.gu8_qspi_dummy_byte ∧
        p = (translate mode (s.QspiFlashSize / 2) (S + offsetOf (copies evs) i)).2 ∧
        (mode = DUAL_STACK_CONNECTION →
          (isUpper cr = true ↔
            (translate mode (s.QspiFlashSize / 2) (S + offsetOf (copies evs) i)).1 = 1)) ∧
        (mode = DUAL_PARALLEL_CONNECTION → n % 2 = 0 ∨ i + 1 = (copies evs).length) := by
  rcases QspiAccess_manual mode hw fuel cr0 s s' S D L _ hlin h with
    ⟨l1, -, hst⟩ | ⟨l1, s1, hloop, hexit⟩
  · exact absurd hst (by decide)
  · obtain ⟨evs, heff, hpart⟩ := loop_partition mode hw fuel _ l1 s s1 S
      (Inv_init mode cr0 s S D L hin) hloop
    have hx := (Eff_QspiAccessExit mode hw l1 s1).1
    rw [hexit] at hx
    simp only [] at hx
    have hre := reads_exitEvs mode l1 s1.lqspiCr (SendBankSelect hw s1 0).1
    have hall := heff.trans hx
    have hPart : Part mode (s.QspiFlashSize / 2) s.gu8_qspi_dummy_byte S D L
        (reads (evs ++ exitEvs mode l1 s1.lqspiCr (SendBankSelect hw s1 0).1))
        (copies (evs ++ exitEvs mode l1 s1.lqspiCr (SendBankSelect hw s1 0).1)) := by
      rw [reads_append, copies_append, hre.1, hre.2, List.append_nil, List.append_nil]
      exact hpart
    refine ⟨_, hall.1, Part_length _ _ _ _ _ _ _ _ hPart, Part_sum _ _ _ _ _ _ _ _ hPart, ?_⟩
    intro i cr p n dst off m hr hc
    exact Part_get _ _ _ _ _ _ _ _ _ _ _ _ _ _ _ hPart (by norm_num at hD; exact hD) hr hc

theorem chunks_partition_request_witness :
    (drv0 MICRON_ID 0x2000000).LinearBootDeviceFlag ≠ 1 ∧
    InFlash SINGLE_FLASH_CONNECTION (drv0 MICRON_ID 0x2000000) (2 ^ 24 - 10) 20 ∧
    ∃ evs, ctl (stateOf (QspiAccess SINGLE_FLASH_CONNECTION (echoBus 3 1) 3 0
        (drv0 MICRON_ID 0x2000000) (2 ^ 24 - 10) 0 20) (drv0 MICRON_ID 0x2000000)).log =
        ctl (drv0 MICRON_ID 0x2000000).log ++ evs ∧
      ((copies evs).map (fun c => c.2.2)).sum = 20 :=
  ⟨by decide, ⟨by decide, by decide, by decide⟩,
    (chunks_partition_request SINGLE_FLASH_CONNECTION (echoBus 3 1) 3 0
      (drv0 MICRON_ID 0x2000000)
      (stateOf (QspiAccess SINGLE_FLASH_CONNECTION (echoBus 3 1) 3 0
        (drv0 MICRON_ID 0x2000000) (2 ^ 24 - 10) 0 20) (drv0 MICRON_ID 0x2000000))
      (2 ^ 24 - 10) 0 20 (by decide)
      ⟨by decide, by decide, by decide⟩ (by decide) (by rfl)).imp
      (fun _ h => ⟨h.1, h.2.2.1⟩)⟩

theorem chunk_stays_in_bank_witness :
    0 < (initLocals SINGLE_FLASH_CONNECTION 0 (2 ^ 24 - 10) 0 20).LengthBytes ∧
    perDev SINGLE_FLASH_CONNECTION (initLocals SINGLE_FLASH_CONNECTION 0 (2 ^ 24 - 10) 0 20)
      (drv0 MICRON_ID 0x2000000) + 4096 ≤ 2 ^ 28 ∧
    ∃ evs cr len,
      ctl (loopBody SINGLE_FLASH_CONNECTION (echoBus 3 1)
          (initLocals SINGLE_FLASH_CONNECTION 0 (2 ^ 24 - 10) 0 20)
          (drv0 MICRON_ID 0x2000000)).drv.log =
        ctl (drv0 MICRON_ID 0x2000000).log ++ evs ∧
      reads evs = [(cr, perDev SINGLE_FLASH_CONNECTION
        (initLocals SINGLE_FLASH_CONNECTION 0 (2 ^ 24 - 10) 0 20)
        (drv0 MICRON_ID 0x2000000), len)] :=
  ⟨by decide, by decide,
    (chunk_stays_in_bank SINGLE_FLASH_CONNECTION (echoBus 3 1)
      (initLocals SINGLE_FLASH_CONNECTION 0 (2 ^ 24 - 10) 0 20)
      (loopBody SINGLE_FLASH_CONNECTION (echoBus 3 1)
          (initLocals SINGLE_FLASH_CONNECTION 0 (2 ^ 24 - 10) 0 20)
          (drv0 MICRON_ID 0x2000000)).locals
      (drv0 MICRON_ID 0x2000000)
      (loopBody SINGLE_FLASH_CONNECTION (echoBus 3 1)
          (initLocals SINGLE_FLASH_CONNECTION 0 (2 ^ 24 - 10) 0 20)
          (drv0 MICRON_ID 0x2000000)).drv
      (by decide) (by rfl) (by decide)).imp
      (fun _ h => h.imp (fun _ h => h.imp (fun _ h => ⟨h.1, h.2.1⟩)))⟩

theorem chunk_length_bounds_witness :
    0 < (initLocals DUAL_PARALLEL_CONNECTION 0 (2 ^ 25 - 10) 0 21).LengthBytes ∧
    (initLocals DUAL_PARALLEL_CONNECTION 0 (2 ^ 25 - 10) 0 21).LengthBytes < 2 ^ 32 ∧
    perDev DUAL_PARALLEL_CONNECTION (initLocals DUAL_PARALLEL_CONNECTION 0 (2 ^ 25 - 10) 0 21)
      (drv0 MICRON_ID 0x4000000) + 4096 ≤ 2 ^ 28 ∧
    ∃ evs cr len,
      reads evs = [(cr, perDev DUAL_PARALLEL_CONNECTION
        (initLocals DUAL_PARALLEL_CONNECTION 0 (2 ^ 25 - 10) 0 21)
        (drv0 MICRON_ID 0x4000000), len)] ∧
      1 ≤ len ∧ len ≤ min 21 4096 :=
  ⟨by decide, by decide, by decide,
    (chunk_length_bounds DUAL_PARALLEL_CONNECTION (echoBus 3 1)
      (initLocals DUAL_PARALLEL_CONNECTION 0 (2 ^ 25 - 10) 0 21)
      (loopBody DUAL_PARALLEL_CONNECTION (echoBus 3 1)
          (initLocals DUAL_PARALLEL_CONNECTION 0 (2 ^ 25 - 10) 0 21)
          (drv0 MICRON_ID 0x4000000)).locals
      (drv0 MICRON_ID 0x4000000)
      (loopBody DUAL_PARALLEL_CONNECTION (echoBus 3 1)
          (initLocals DUAL_PARALLEL_CONNECTION 0 (2 ^ 25 - 10) 0 21)
          (drv0 MICRON_ID 0x4000000)).drv
      (by decide) (by decide) (by rfl) (by decide)).imp
      (fun _ h => h.imp (fun _ h => h.imp (fun _ h => ⟨h.2.1, h.2.2.2.1, h.2.2.2.2.1⟩)))⟩

theorem mem_PolledTransfer (hw : Nat → Resp) (s : Drv) (recv : Bool) (n : Nat) :
    (PolledTransfer hw s recv n).2.mem = s.mem := rfl

theorem mem_micronWrite (hw : Nat → Resp) (s : Drv) (b : Nat) :
    (micronWrite hw s b).2.mem = s.mem := by
  unfold micronWrite
  simp only []
  split_ifs <;> rfl

theorem mem_spansionWrite (hw : Nat → Resp) (s : Drv) (b : Nat) :
    (spansionWrite hw s b).2.mem = s.mem := by
  unfold spansionWrite
  simp only []
  split_ifs <;> rfl

theorem mem_spansionRead (hw : Nat → Resp) (s : Drv) :
    (spansionRead hw s).2.mem = s.mem := by
  unfold spansionRead
  simp only []
  split_ifs <;> rfl

theorem mem_micronRead (hw : Nat → Resp) (s : Drv) :
    (micronRead hw s).2.mem = s.mem := by
  unfold micronRead
  simp only []
  split_ifs <;> rfl

theorem mem_SendBankSelect (hw : Nat → Resp) (s : Drv) (b : Nat) :
    (SendBankSelect hw s b).2.mem = s.mem := by
  have e1 := mem_micronWrite hw s b
  have e2 := mem_spansionWrite hw (micronWrite hw s b).2 b
  have e3 := mem_spansionRead hw (spansionWrite hw (micronWrite hw s b).2 b).2
  have e4 := mem_micronRead hw (spansionRead hw (spansionWrite hw (micronWrite hw s b).2 b).2).2
  unfold SendBankSelect bankSelRet
  simp only []
  split_ifs
  · exact e1
  · exact e2.trans e1
  · exact e3.trans (e2.trans e1)
  · exact e4.trans (e3.trans (e2.trans e1))
  · exact e4.trans (e3.trans (e2.trans e1))
  · exact e4.trans (e3.trans (e2.trans e1))

theorem mem_stackSelect (mode : Nat) (l : Locals) (s : Drv) :
    (stackSelect mode l s).2.mem = s.mem := by
  unfold stackSelect
  simp only []
  split_ifs <;> rfl

/-- A pass that aborts: the bank select failed; the pass issued no read and no copy,
and left the remaining length, the destination pointer and the memory as they were. -/
theorem loopBody_abort (mode : Nat) (hw : Nat → Resp) (l l' : Locals) (s s' : Drv)
    (hb : loopBody mode hw l s = Step.abort l' s') :
    ∃ cr b st, st ≠ XST_SUCCESS ∧
      Eff s s' (stackEvs mode l.SourceAddress s ++ [Event.bankSel cr b st]) ∧
      l'.LengthBytes = l.LengthBytes ∧ l'.BufferPtr = l.BufferPtr ∧ s'.mem = s.mem := by
  have hspec := loopBody_spec mode hw l s
  have hf := stackSelect_fields mode { l with Length := chunkCap l.LengthBytes } s
  have he := Eff_stackSelect mode { l with Length := chunkCap l.LengthBytes } s
  have hmem := mem_stackSelect mode { l with Length := chunkCap l.LengthBytes } s
  simp only [] at hspec hf he
  generalize stackSelect mode { l with Length := chunkCap l.LengthBytes } s = ps
    at hspec hf he hmem
  obtain ⟨p, s1⟩ := ps
  simp only [] at hspec hf he hmem
  obtain ⟨h1, h2, h3⟩ := hspec
  obtain ⟨-, hfr, hfb, -, -⟩ := hf
  by_cases hc : p.SourceAddress ≥ FLASH_SIZE_16MB ∧ p.BankSwitchFlag = 1
  · by_cases hq : (SendBankSelect hw s1 (u8 (p.SourceAddress / FLASH_SIZE_16MB))).1 = XST_SUCCESS
    · rw [h3 hc hq] at hb
      exact absurd hb (by simp)
    · rw [h2 hc hq] at hb
      injection hb with hl hs
      have e2 := Eff_SendBankSelect hw s1 (u8 (p.SourceAddress / FLASH_SIZE_16MB))
      rw [hs] at e2
      refine ⟨_, _, _, hq, he.trans e2, ?_, ?_, ?_⟩
      · rw [← hl]
        exact hfr
      · rw [← hl]
        exact hfb
      · rw [← hs, mem_SendBankSelect, hmem]
  · rw [h1 hc] at hb
    exact absurd hb (by simp)

/-- The loop aborts exactly in a pass whose bank select fails, after completed passes. -/
theorem loop_abort (mode : Nat) (hw : Nat → Resp) :
    ∀ (fuel : Nat) (l l' : Locals) (s s' : Drv),
      QspiAccessLoop mode hw fuel l s = some (Step.abort l' s') →
      ∃ l0 s0, Passes mode hw l s l0 s0 ∧ 0 < l0.LengthBytes ∧
        loopBody mode hw l0 s0 = Step.abort l' s' := by
  intro fuel
  induction fuel with
  | zero =>
    intro l l' s s' h
    simp [QspiAccessLoop] at h
  | succ fuel ih =>
    intro l l' s s' h
    rw [QspiAccessLoop_succ] at h
    by_cases hr : l.LengthBytes > 0
    · rw [if_pos hr] at h
      cases hb : loopBody mode hw l s with
      | abort l1 s1 =>
        rw [hb] at h
        simp only [Option.some.injEq] at h
        exact ⟨l, s, Passes.refl l s, hr, by rw [hb, h]⟩
      | next l1 s1 =>
        rw [hb] at h
        simp only [] at h
        obtain ⟨l0, s0, hp, h0, hb0⟩ := ih l1 l' s1 s' h
        exact ⟨l0, s0, Passes.step l l1 l0 s s1 s0 hr hb hp, h0, hb0⟩
    · rw [if_neg hr] at h
      simp at h

/-- When the loop of a manual-mode call ends in the abort `(l', s')`, `QspiAccess`
returns `XST_FAILURE` with the state `s'` of that moment: the abort happened in a pass
after completed passes, that pass appended only its chip-select writes and the failed bank
select to the trace (no `FlashRead`, no copy), and it left the remaining length, the
destination pointer and the memory written by the completed chunks as they were. -/
theorem abort_returns_failure (mode : Nat) (hw : Nat → Resp) (fuel cr0 : Nat)
    (s s' : Drv) (l' : Locals) (S D L : Nat) (hlin : s.LinearBootDeviceFlag ≠ 1)
    (hloop : QspiAccessLoop mode hw fuel (initLocals mode cr0 S D L) s =
      some (Step.abort l' s')) :
    QspiAccess mode hw fuel cr0 s S D L = some (XST_FAILURE, s') ∧
    ∃ l0 s0 cr b st,
      Passes mode hw (initLocals mode cr0 S D L) s l0 s0 ∧ st ≠ XST_SUCCESS ∧
      ctl s'.log = ctl s0.log ++ (stackEvs mode l0.SourceAddress s0 ++ [Event.bankSel cr b st]) ∧
      reads (stackEvs mode l0.SourceAddress s0 ++ [Event.bankSel cr b st]) = [] ∧
      copies (stackEvs mode l0.SourceAddress s0 ++ [Event.bankSel cr b st]) = [] ∧
      l'.LengthBytes = l0.LengthBytes ∧ l'.BufferPtr = l0.BufferPtr ∧ s'.mem = s0.mem := by
  refine ⟨?_, ?_⟩
  · unfold QspiAccess
    rw [if_neg hlin, hloop]
  · obtain ⟨l0, s0, hp, -, hb⟩ := loop_abort mode hw fuel _ l' s s' hloop
    obtain ⟨cr, b, st, hst, heff, h1, h2, h3⟩ := loopBody_abort mode hw l0 l' s0 s' hb
    refine ⟨l0, s0, cr, b, st, hp, hst, heff.1, ?_, ?_, h1, h2, h3⟩
    · rw [reads_append, reads_stackEvs]
      simp [reads]
    · rw [copies_append, copies_stackEvs]
      simp [copies]

theorem BankOk_noreads : ∀ (es : List Event) (b : Option Nat), reads es = [] → BankOk b es
  | [], _, _ => trivial
  | e :: es, b, h => by
    cases e <;> simp [reads] at h <;> simp only [BankOk] <;>
      exact BankOk_noreads es _ (by simpa [reads] using h)

theorem BankOk_append : ∀ (es ex : List Event) (b : Option Nat),
    BankOk b es → reads ex = [] → BankOk b (es ++ ex)
  | [], ex, b, _, h => BankOk_noreads ex b h
  | e :: es, ex, b, h1, h => by
    cases e <;> simp only [BankOk, List.cons_append] at h1 ⊢
    case flashRead => exact ⟨h1.1, BankOk_append es ex _ h1.2 h⟩
    all_goals exact BankOk_append es ex _ h1 h

theorem stackEvs_single (mode sa : Nat) (s : Drv) (hs : mode ≠ DUAL_STACK_CONNECTION) :
    stackEvs mode sa s = [] := by
  unfold stackEvs
  rw [if_neg (fun h => hs h.1)]

/-- A pass that aborts was entered with the flag set. -/
theorem loopBody_abort_flag (mode : Nat) (hw : Nat → Resp) (l l' : Locals) (s s' : Drv)
    (hb : loopBody mode hw l s = Step.abort l' s') : l.BankSwitchFlag = 1 := by
  have hspec := loopBody_spec mode hw l s
  have hf := stackSelect_fields mode { l with Length := chunkCap l.LengthBytes } s
  simp only [] at hspec hf
  generalize stackSelect mode { l with Length := chunkCap l.LengthBytes } s = ps at hspec hf
  obtain ⟨p, s1⟩ := ps
  simp only [] at hspec hf
  by_cases hc : p.SourceAddress ≥ FLASH_SIZE_16MB ∧ p.BankSwitchFlag = 1
  · rw [← hf.2.2.2.1]
    exact hc.2
  · rw [hspec.1 hc] at hb
    exact absurd hb (by simp)

theorem u8_bank (p : Nat) (h : p < 4294967296) : u8 (p / FLASH_SIZE_16MB) = p / 16777216 := by
  unfold u8 FLASH_SIZE_16MB
  omega

/-- Outside dual parallel mode, for any 32-bit address: either `chunkBank` sets the flag
and the next address is at or above 16 MiB, or it leaves flag and length alone and the
next address lies in the same bank. -/
theorem plan_any (mode p cap fl : Nat) (hm : mode ≠ DUAL_PARALLEL_CONNECTION)
    (hp : p < 4294967296) (hc : cap ≤ 4096) :
    (planFlag mode p cap fl = 1 ∧ 16777216 ≤ u32 (p + planLen mode p cap)) ∨
    (planFlag mode p cap fl = fl ∧
      u32 (p + planLen mode p cap) / 16777216 = p / 16777216) := by
  unfold planLen planFlag chunkBank
  rw [if_neg hm, if_neg hm]
  simp only []
  rw [and_bankmask, and_bankmask]
  unfold u32 sub32 FLASH_SIZE_16MB
  by_cases h : p / 16777216 % 16 * 16777216 = (p + cap) % 4294967296 / 16777216 % 16 * 16777216
  · rw [if_neg (not_not.mpr h), if_neg (not_not.mpr h)]
    right
    refine ⟨rfl, ?_⟩
    simp only []
    omega
  · rw [if_pos h, if_pos h]
    left
    refine ⟨rfl, ?_⟩
    simp only []
    clear h
    omega

/-- On a single device the bank selected last is the bank of the address at every read
of the loop, for every 32-bit start address and every length. -/
theorem loop_bank (mode : Nat) (hw : Nat → Resp) (hm : mode ≠ DUAL_PARALLEL_CONNECTION)
    (hs : mode ≠ DUAL_STACK_CONNECTION) :
    ∀ (fuel : Nat) (l : Locals) (s : Drv) (b : Option Nat) (res : Step),
      l.SourceAddress < 4294967296 → FlagOk b l →
      QspiAccessLoop mode hw fuel l s = some res →
      ∃ evs, Eff s res.drv evs ∧ BankOk b evs := by
  intro fuel
  induction fuel with
  | zero =>
    intro l s b res _ _ h
    simp [QspiAccessLoop] at h
  | succ fuel ih =>
    intro l s b res h32 hF h
    rw [QspiAccessLoop_succ] at h
    by_cases hr : l.LengthBytes > 0
    · rw [if_pos hr] at h
      cases hb : loopBody mode hw l s with
      | abort l1 s1 =>
        rw [hb] at h
        simp only [Option.some.injEq] at h
        subst h
        obtain ⟨cr, x, st, hst, heff, -⟩ := loopBody_abort mode hw l l1 s s1 hb
        refine ⟨_, heff, ?_⟩
        rw [stackEvs_single mode _ s hs]
        simp [BankOk]
      | next l1 s1 =>
        rw [hb] at h
        simp only [] at h
        obtain ⟨sel, fl, p, cr, len, hp, -, hlen, hsel, hsa, -, -, hfl, -, heff⟩ :=
          loopBody_next mode hw l l1 s s1 hb
        have hpa : p = l.SourceAddress := by
          rw [hp, perDev_eq, if_neg (fun h => hs h.1)]
        rw [hpa] at hsel hfl hsa heff hlen
        rw [if_neg hm] at hsa
        rw [stackEvs_single mode _ s hs] at heff
        have hpl := plan_any mode l.SourceAddress (chunkCap l.LengthBytes) fl hm h32
          (chunkCap_le l.LengthBytes).2
        rw [← hlen, ← hsa, ← hfl] at hpl
        have h32' : l1.SourceAddress < 4294967296 := by
          rw [hsa]
          unfold u32
          clear * -
          omega
        have e24 : (2 : Nat) ^ 24 = 16777216 := by norm_num
        have hF16 : FLASH_SIZE_16MB = 16777216 := rfl
        rcases hsel with ⟨hsel, hfl0, hno⟩ | ⟨hsel, hfl0, hge, hflag⟩
        · -- no bank select in this pass
          have hb0 : b = some (l.SourceAddress / 16777216) := by
            by_cases hf1 : l.BankSwitchFlag = 1
            · have hlt : l.SourceAddress < 16777216 := by
                rw [hF16] at hno
                clear * - hno hf1
                omega
              rw [hF.1 hf1 hlt]
              congr 1
              clear * - hlt
              omega
            · exact hF.2 hf1
          have hF' : FlagOk b l1 := by
            unfold FlagOk
            rcases hpl with ⟨hf1, hge⟩ | ⟨hf1, hsame⟩
            · refine ⟨fun _ hlt => absurd hlt (by clear * - hge; omega),
                fun hne => absurd hf1 hne⟩
            · refine ⟨fun _ hlt => ?_, fun hne => ?_⟩
              · rw [hb0]
                congr 1
                clear * - hlt hsame
                omega
              · rw [hb0, hsame]
          obtain ⟨evs, heff2, hok⟩ := ih l1 s1 b res h32' hF' h
          refine ⟨_, heff.trans heff2, ?_⟩
          rw [hsel]
          simp only [List.nil_append, List.cons_append, BankOk, e24]
          exact ⟨hb0, hok⟩
        · -- bank select, then the read
          have hbk : u8 (l.SourceAddress / FLASH_SIZE_16MB) = l.SourceAddress / 16777216 :=
            u8_bank _ h32
          rw [hbk] at hsel
          have hF' : FlagOk (some (l.SourceAddress / 16777216)) l1 := by
            unfold FlagOk
            rcases hpl with ⟨hf1, hge⟩ | ⟨hf1, hsame⟩
            · refine ⟨fun _ hlt => absurd hlt (by clear * - hge; omega),
                fun hne => absurd hf1 hne⟩
            · rw [hfl0] at hf1
              refine ⟨fun h1 _ => ?_, fun _ => by rw [hsame]⟩
              rw [hf1] at h1
              exact absurd h1 (by decide)
          obtain ⟨evs, heff2, hok⟩ := ih l1 s1 _ res h32' hF' h
          refine ⟨_, heff.trans heff2, ?_⟩
          rw [hsel]
          simp only [List.nil_append, List.cons_append, BankOk, e24, if_true, true_and]
          exact hok
    · rw [if_neg hr] at h
      simp only [Option.some.injEq] at h
      subst h
      exact ⟨[], Eff.refl s, trivial⟩

theorem FlashRead_WriteBuffer (hw : Nat → Resp) (t : Drv) (a n : Nat) :
    frameAddr (FlashRead hw t a n).WriteBuffer = a % 16777216 := by
  unfold frameAddr FlashRead
  simp only [PolledTransfer, wbSet, ADDRESS_1_OFFSET, ADDRESS_2_OFFSET, ADDRESS_3_OFFSET,
    COMMAND_OFFSET]
  simp only [and_ff, and_ff00, and_ff0000, u8]
  norm_num
  omega

theorem FlashRead_log (hw : Nat → Resp) (t : Drv) (a n : Nat) :
    (FlashRead hw t a n).log = t.log ++
      [Event.flashRead t.lqspiCr a n,
       Event.xfer ((List.range 12).map (FlashRead hw t a n).WriteBuffer) true
         (u32 (u32 (n + t.gu8_qspi_dummy_byte) + OVERHEAD_SIZE)) (hw t.nxfer).status] := by
  simp [FlashRead, PolledTransfer, wbSet]

theorem FlagOk_init (mode cr0 S D L : Nat) : FlagOk (some 0) (initLocals mode cr0 S D L) := by
  unfold FlagOk initLocals
  exact ⟨fun _ _ => rfl, fun h => absurd rfl h⟩

/-- C4. In a manual-mode `QspiAccess` on a single device, for every 32-bit start address
and a device that starts with bank 0 selected, where a `SendBankSelect` that succeeds has
set the bank to its argument: at every `FlashRead` of the call the bank selected last is the
bank `a / 2^24` of the address `a` read (`BankOk`); the frame built by `FlashRead`
carries `a mod 2^24` in its three address bytes and goes out in the transfer of that
call, so bank and frame address together give `a`. And a request of 20 bytes at
`2^24 - 10` makes exactly the calls: read of 10 bytes at `2^24 - 10`, bank select 1,
read of 10 bytes at `2^24`, and the reset to bank 0 on exit. -/
theorem bank_selected_matches_address (hw : Nat → Resp) (fuel cr0 : Nat) (s s' : Drv)
    (S D L st : Nat) (hlin : s.LinearBootDeviceFlag ≠ 1) (hS : S < 2 ^ 32)
    (h : QspiAccess SINGLE_FLASH_CONNECTION hw fuel cr0 s S D L = some (st, s')) :
    (∃ evs, ctl s'.log = ctl s.log ++ evs ∧ BankOk (some 0) evs) ∧
    (∀ (t : Drv) (a n : Nat),
      a / 2 ^ 24 * 2 ^ 24 + frameAddr (FlashRead hw t a n).WriteBuffer = a ∧
      (FlashRead hw t a n).log = t.log ++
        [Event.flashRead t.lqspiCr a n,
         Event.xfer ((List.range 12).map (FlashRead hw t a n).WriteBuffer) true
           (u32 (u32 (n + t.gu8_qspi_dummy_byte) + OVERHEAD_SIZE)) (hw t.nxfer).status]) ∧
    (QspiAccess SINGLE_FLASH_CONNECTION (echoBus 3 1) 3 0 (drv0 MICRON_ID 0x2000000)
        (2 ^ 24 - 10) 0 20).map (fun r => (r.1, calls r.2.log)) =
      some (XST_SUCCESS,
        [Event.flashRead 0 (2 ^ 24 - 10) 10, Event.bankSel 0 1 XST_SUCCESS,
         Event.flashRead 0 (2 ^ 24) 10, Event.bankSel 0 0 XST_SUCCESS]) := by
  have hm : SINGLE_FLASH_CONNECTION ≠ DUAL_PARALLEL_CONNECTION := by decide
  have hs : SINGLE_FLASH_CONNECTION ≠ DUAL_STACK_CONNECTION := by decide
  have hI : (initLocals SINGLE_FLASH_CONNECTION cr0 S D L).SourceAddress < 4294967296 := by
    unfold initLocals
    rw [if_neg hm]
    norm_num at hS
    exact hS
  refine ⟨?_, ?_, by decide⟩
  · rcases QspiAccess_manual SINGLE_FLASH_CONNECTION hw fuel cr0 s s' S D L st hlin h with
      ⟨l1, hloop, -⟩ | ⟨l1, s1, hloop, hexit⟩
    · obtain ⟨evs, heff, hok⟩ := loop_bank SINGLE_FLASH_CONNECTION hw hm hs fuel _ s
        (some 0) _ hI (FlagOk_init _ _ _ _ _) hloop
      exact ⟨evs, heff.1, hok⟩
    · obtain ⟨evs, heff, hok⟩ := loop_bank SINGLE_FLASH_CONNECTION hw hm hs fuel _ s
        (some 0) _ hI (FlagOk_init _ _ _ _ _) hloop
      have hx := (Eff_QspiAccessExit SINGLE_FLASH_CONNECTION hw l1 s1).1
      rw [hexit] at hx
      exact ⟨_, (heff.trans hx).1, BankOk_append _ _ _ hok (reads_exitEvs _ _ _ _).1⟩
  · intro t a n
    refine ⟨?_, FlashRead_log hw t a n⟩
    rw [FlashRead_WriteBuffer]
    norm_num
    omega

theorem bank_selected_matches_address_witness :
    (drv0 MICRON_ID 0x2000000).LinearBootDeviceFlag ≠ 1 ∧ 2 ^ 24 - 10 < 2 ^ 32 ∧
    ∃ evs, ctl (stateOf (QspiAccess SINGLE_FLASH_CONNECTION (echoBus 3 1) 3 0
        (drv0 MICRON_ID 0x2000000) (2 ^ 24 - 10) 0 20) (drv0 MICRON_ID 0x2000000)).log =
        ctl (drv0 MICRON_ID 0x2000000).log ++ evs ∧ BankOk (some 0) evs :=
  ⟨by decide, by decide,
    (bank_selected_matches_address (echoBus 3 1) 3 0 (drv0 MICRON_ID 0x2000000)
      (stateOf (QspiAccess SINGLE_FLASH_CONNECTION (echoBus 3 1) 3 0
        (drv0 MICRON_ID 0x2000000) (2 ^ 24 - 10) 0 20) (drv0 MICRON_ID 0x2000000))
      (2 ^ 24 - 10) 0 20 XST_SUCCESS (by decide) (by decide) (by rfl)).1⟩

theorem filter_cons_length {α : Type} (p : α → Bool) (x : α) (xs : List α) :
    ((x :: xs).filter p).length = (if p x = true then 1 else 0) + (xs.filter p).length := by
  rw [List.filter_cons]
  split_ifs <;> simp [Nat.add_comm]

/-- The loop calls `SendBankSelect` at most once for the flag it starts with and once
more for each chunk that ends at a multiple of 16 MiB. -/
theorem loop_selects (mode : Nat) (hw : Nat → Resp) :
    ∀ (fuel : Nat) (l : Locals) (s : Drv) (a : Nat) (res : Step),
      Inv mode s a l → QspiAccessLoop mode hw fuel l s = some res →
      ∃ evs, Eff s res.drv evs ∧
        (bankSels evs).length ≤
          armed l.BankSwitchFlag + ((reads evs).filter (endsBank mode)).length := by
  intro fuel
  induction fuel with
  | zero =>
    intro l s a res _ h
    simp [QspiAccessLoop] at h
  | succ fuel ih =>
    intro l s a res hI h
    rw [QspiAccessLoop_succ] at h
    by_cases hr : l.LengthBytes > 0
    · rw [if_pos hr] at h
      cases hb : loopBody mode hw l s with
      | abort l1 s1 =>
        rw [hb] at h
        simp only [Option.some.injEq] at h
        subst h
        obtain ⟨cr, x, st, hst, heff, -⟩ := loopBody_abort mode hw l l1 s s1 hb
        have hf := loopBody_abort_flag mode hw l l1 s s1 hb
        refine ⟨_, heff, ?_⟩
        rw [bankSels_append, bankSels_stackEvs, hf]
        simp [bankSels, armed]
      | next l1 s1 =>
        rw [hb] at h
        simp only [] at h
        obtain ⟨sel, fl, cr, len, -, hsel, heff, -, -, -, -, -, -, -, -, -, -, -,
          hfl, hI'⟩ := iter_inv mode hw l l1 s s1 a hI hr hb
        obtain ⟨evs, heff2, hle⟩ := ih l1 s1 (a + len) res hI' h
        refine ⟨_, heff.trans heff2, ?_⟩
        have hrd : reads (stackEvs mode l.SourceAddress s ++ sel ++
            [Event.flashRead cr (perDev mode l s) len,
              Event.memcpy l.BufferPtr (DATA_OFFSET + s.gu8_qspi_dummy_byte) len] ++ evs) =
            (cr, perDev mode l s, len) :: reads evs := by
          have hrs : reads sel = [] := by
            rcases hsel with ⟨h, -⟩ | ⟨h, -⟩ <;> simp [h, reads]
          rw [reads_append, reads_append, reads_append, reads_stackEvs, hrs]
          simp [reads]
        have hbs : bankSels (stackEvs mode l.SourceAddress s ++ sel ++
            [Event.flashRead cr (perDev mode l s) len,
              Event.memcpy l.BufferPtr (DATA_OFFSET + s.gu8_qspi_dummy_byte) len] ++ evs) =
            bankSels sel ++ bankSels evs := by
          rw [bankSels_append, bankSels_append, bankSels_append, bankSels_stackEvs]
          simp [bankSels]
        rw [hrd, hbs, filter_cons_length, List.length_append]
        generalize ((reads evs).filter (endsBank mode)).length = f2 at hle ⊢
        generalize (bankSels evs).length = b2 at hle ⊢
        rcases hsel with ⟨hsel, hfl0, -⟩ | ⟨hsel, hfl0, -, hflag⟩
        · rw [hsel]
          simp only [bankSels, List.filterMap_nil, List.length_nil]
          rcases hfl with ⟨hf1, he⟩ | ⟨hf1, -⟩
          · rw [hf1] at hle
            rw [if_pos he]
            unfold armed at hle ⊢
            rw [if_pos rfl] at hle
            clear * - hle
            split_ifs <;> omega
          · rw [hf1, hfl0] at hle
            clear * - hle
            split_ifs <;> omega
        · rw [hsel, hflag]
          simp only [bankSels, List.filterMap_cons, List.filterMap_nil, List.length_cons,
            List.length_nil]
          rcases hfl with ⟨hf1, he⟩ | ⟨hf1, -⟩
          · rw [hf1] at hle
            rw [if_pos he]
            unfold armed at hle ⊢
            rw [if_pos rfl] at hle ⊢
            clear * - hle
            omega
          · rw [hf1, hfl0] at hle
            unfold armed at hle ⊢
            rw [if_neg (by decide)] at hle
            rw [if_pos rfl]
            clear * - hle
            split_ifs <;> omega
    · rw [if_neg hr] at h
      simp only [Option.some.injEq] at h
      subst h
      exact ⟨[], Eff.refl s, by simp [bankSels]⟩

theorem bankSels_exitEvs (mode : Nat) (l : Locals) (cr : Nat) :
    bankSels (exitEvs mode l cr XST_SUCCESS) = [(cr, 0, XST_SUCCESS)] := by
  unfold exitEvs bankSels
  split_ifs <;> simp_all

/-- C5 (the code at the failing input). Single Micron device, request of 4 bytes at 0,
on a bus whose first transfer, the one issued by `FlashRead`, fails and whose later
transfers succeed: the call still copies 4 bytes out of `ReadBuffer` and returns
`XST_SUCCESS`. The transfers are listed as `(count, status)`. -/
theorem read_failure_returns_success :
    (QspiAccess SINGLE_FLASH_CONNECTION
        (fun j => ⟨if j = 0 then XST_FAILURE else XST_SUCCESS, fun _ => 0⟩) 2 0
        (drv0 MICRON_ID 0x2000000) 0 0 4).map
      (fun r => (r.1, (xfers r.2.log).map (fun x => x.2), reads r.2.log, copies r.2.log)) =
      some (XST_SUCCESS,
        [(9, XST_FAILURE), (1, XST_SUCCESS), (2, XST_SUCCESS), (2, XST_SUCCESS)],
        [(0, 0, 4)], [(0, 5, 4)]) := by
  rfl

/-- C7 (the code at the failing input). Stacked pair of two 32 MiB Micron devices, both
at bank 0 with the lower chip-select asserted; request of 20 bytes at `2^25 - 10`, which
starts in bank 1 of the lower device and ends in the upper device. Every transfer
succeeds and the call returns `XST_SUCCESS` with `U_PAGE` cleared, but the reset to bank
0 went to the upper device: the lower device is left at bank 1. -/
theorem stacked_exit_leaves_lower_bank :
    (QspiAccess DUAL_STACK_CONNECTION (listBus [0, 0, 1]) 3 0
        (drv0 MICRON_ID 0x4000000) (2 ^ 25 - 10) 0 20).map
      (fun r => (r.1, banksAfter (0, 0) r.2.log, isUpper r.2.lqspiCr, bankSels r.2.log)) =
      some (XST_SUCCESS, (1, 0), false,
        [(0, 1, XST_SUCCESS), (XQSPIPS_LQSPI_CR_U_PAGE_MASK, 0, XST_SUCCESS)]) := by
  decide

/-- C9. In linear mode (`LinearBootDeviceFlag = 1`) `QspiAccess(S, D, L)` returns
`XST_SUCCESS` whatever the fuel, and all it appends to the trace is one copy from
`S + FlashReadBaseAddress` to `D` of `n` bytes: no transfer is issued (the count of
transfers stands), no bank select, and `LQSPI_CR` is not written. `n` is `L` rounded up
to a multiple of 4 and truncated to 32 bits, so `n` is a multiple of 4 and `n - L` is
0, 1, 2 or 3 modulo `2^32`; when `L + 3 < 2^32`, `n` is the least multiple of 4 that is
at least `L`. -/
theorem linear_access_single_copy (mode : Nat) (hw : Nat → Resp) (fuel cr0 : Nat) (s : Drv)
    (S D L : Nat) (hlin : s.LinearBootDeviceFlag = 1) (hL : L < 2 ^ 32) :
    ∃ n s', QspiAccess mode hw fuel cr0 s S D L = some (XST_SUCCESS, s') ∧
      s'.log = s.log ++ [Event.memcpyLinear D (u32 (S + s.FlashReadBaseAddress)) n] ∧
      s'.nxfer = s.nxfer ∧ s'.lqspiCr = s.lqspiCr ∧
      n = u32 (4 * ((L + 3) / 4)) ∧ n % 4 = 0 ∧ sub32 n L < 4 ∧
      (L + 3 < 2 ^ 32 → L ≤ n ∧ n < L + 4 ∧ ∀ m, m % 4 = 0 → L ≤ m → n ≤ m) ∧
      (∀ a, s'.mem a =
        if D ≤ a ∧ a < D + n then s.mem (u32 (S + s.FlashReadBaseAddress) + (a - D))
        else s.mem a) := by
  norm_num at hL
  have hn : (if L % 4 ≠ 0 then u32 (L + (4 - (L &&& 0x00000003))) else L) =
      u32 (4 * ((L + 3) / 4)) := by
    rw [and_three]
    unfold u32
    split_ifs <;> omega
  refine ⟨u32 (4 * ((L + 3) / 4)), linearCopy s S D L, ?_, ?_, rfl, rfl, rfl, ?_, ?_, ?_, ?_⟩
  · unfold QspiAccess
    rw [if_pos hlin]
  · unfold linearCopy
    simp only []
    rw [hn]
  · unfold u32
    omega
  · unfold u32 sub32
    omega
  · intro h3
    norm_num at h3
    unfold u32
    refine ⟨by omega, by omega, fun m hm hle => by omega⟩
  · intro a
    unfold linearCopy
    simp only []
    rw [hn]

theorem linear_access_single_copy_witness :
    ({ drv0 MICRON_ID 0x1000000 with LinearBootDeviceFlag := 1 } : Drv).LinearBootDeviceFlag
      = 1 ∧ 5 < 2 ^ 32 ∧
    ∃ n s', QspiAccess SINGLE_FLASH_CONNECTION (echoBus 0 0) 0 0
        { drv0 MICRON_ID 0x1000000 with LinearBootDeviceFlag := 1 } 0 0 5 =
        some (XST_SUCCESS, s') ∧ n = u32 (4 * ((5 + 3) / 4)) :=
  ⟨rfl, by decide,
    (linear_access_single_copy SINGLE_FLASH_CONNECTION (echoBus 0 0) 0 0
      { drv0 MICRON_ID 0x1000000 with LinearBootDeviceFlag := 1 } 0 0 5 rfl
      (by decide)).imp (fun _ h => h.imp (fun _ h => ⟨h.1, h.2.2.2.2.1⟩))⟩

/-- C10 (as stated, refuted). Two parallel devices identified as 128 Mbit (16 MiB) each:
`InitQspi` selects linear mode although the total size it records, 32 MiB, is above
16 MiB. -/
theorem linear_total_size_refuted :
    (FlashReadID idBus (drv0 0 0)).2.QspiFlashSize = FLASH_SIZE_16MB ∧
    (FlashReadID idBus (drv0 0 0)).2.LinearBootDeviceFlag = 0 ∧
    (InitQspiMode DUAL_PARALLEL_CONNECTION (FlashReadID idBus (drv0 0 0)).2).LinearBootDeviceFlag
      = 1 ∧
    (InitQspiMode DUAL_PARALLEL_CONNECTION (FlashReadID idBus (drv0 0 0)).2).QspiFlashSize
      = 2 * FLASH_SIZE_16MB ∧
    ¬ (InitQspiMode DUAL_PARALLEL_CONNECTION (FlashReadID idBus (drv0 0 0)).2).QspiFlashSize
      ≤ FLASH_SIZE_16MB := by
  decide

/-- C10 (amended). With `LinearBootDeviceFlag` initially 0, the mode decision of
`InitQspi` selects linear mode exactly when the connection mode is single or dual
parallel and the size of one device, as identified, is at most 16 MiB; dual stacked is
never linear; and the total size recorded is the device size for single and twice the
device size for dual parallel and dual stacked (so linear mode goes with a total of up
to 16 MiB for single and up to 32 MiB for dual parallel). -/
theorem linear_mode_decision (mode : Nat) (s : Drv) (h0 : s.LinearBootDeviceFlag = 0) :
    ((InitQspiMode mode s).LinearBootDeviceFlag = 1 ↔
      (mode = SINGLE_FLASH_CONNECTION ∨ mode = DUAL_PARALLEL_CONNECTION) ∧
        s.QspiFlashSize ≤ FLASH_SIZE_16MB) ∧
    (mode = DUAL_STACK_CONNECTION → (InitQspiMode mode s).LinearBootDeviceFlag = 0) ∧
    (InitQspiMode mode s).QspiFlashSize =
      (if mode = DUAL_PARALLEL_CONNECTION ∨ mode = DUAL_STACK_CONNECTION
        then u32 (2 * s.QspiFlashSize) else s.QspiFlashSize) := by
  have h01 : SINGLE_FLASH_CONNECTION ≠ DUAL_STACK_CONNECTION := by decide
  have h02 : SINGLE_FLASH_CONNECTION ≠ DUAL_PARALLEL_CONNECTION := by decide
  have h21 : DUAL_PARALLEL_CONNECTION ≠ DUAL_STACK_CONNECTION := by decide
  unfold InitQspiMode
  by_cases hs : mode = SINGLE_FLASH_CONNECTION
  · subst hs
    by_cases hz : s.QspiFlashSize ≤ FLASH_SIZE_16MB <;>
      simp [h01, h02, hz, h0, SetLqspiConfigReg]
  · by_cases hp : mode = DUAL_PARALLEL_CONNECTION
    · subst hp
      by_cases hz : s.QspiFlashSize ≤ FLASH_SIZE_16MB <;>
        simp [h21, h02.symm, hz, h0, SetLqspiConfigReg]
    · by_cases hk : mode = DUAL_STACK_CONNECTION
      · subst hk
        simp [h21.symm, h01.symm, h0, SetLqspiConfigReg]
      · simp [hs, hp, hk, h0]

theorem linear_mode_decision_witness :
    (FlashReadID idBus (drv0 0 0)).2.LinearBootDeviceFlag = 0 ∧
    ((InitQspiMode DUAL_STACK_CONNECTION (FlashReadID idBus (drv0 0 0)).2).LinearBootDeviceFlag
      = 1 ↔
      (DUAL_STACK_CONNECTION = SINGLE_FLASH_CONNECTION ∨
        DUAL_STACK_CONNECTION = DUAL_PARALLEL_CONNECTION) ∧
        (FlashReadID idBus (drv0 0 0)).2.QspiFlashSize ≤ FLASH_SIZE_16MB) :=
  ⟨by decide,
    (linear_mode_decision DUAL_STACK_CONNECTION (FlashReadID idBus (drv0 0 0)).2
      (by decide)).1⟩

theorem snapshot_take_one (f : Nat → Nat) : ((List.range 12).map f).take 1 = [f 0] := rfl

theorem snapshot_take_two (f : Nat → Nat) : ((List.range 12).map f).take 2 = [f 0, f 1] := rfl

theorem sent_append (a b : List Event) : sent (a ++ b) = sent a ++ sent b := by
  simp [sent]

theorem SendBankSelect_micron (hw : Nat → Resp) (s : Drv) (b : Nat) (hb : b < 256)
    (hm : s.QspiFlashMake = MICRON_ID) :
    sent (SendBankSelect hw s b).2.log = sent s.log ++
      untilFail [([WRITE_ENABLE_CMD], false, 1, (hw s.nxfer).status),
        ([EXTADD_REG_WR, b], false, 2, (hw (s.nxfer + 1)).status),
        ([EXTADD_REG_RD, 0], true, 2, (hw (s.nxfer + 2)).status)] ∧
    ((SendBankSelect hw s b).1 = XST_SUCCESS ↔
      (hw s.nxfer).status = XST_SUCCESS ∧ (hw (s.nxfer + 1)).status = XST_SUCCESS ∧
      (hw (s.nxfer + 2)).status = XST_SUCCESS ∧ (hw (s.nxfer + 2)).rx 1 = b) ∧
    ((SendBankSelect hw s b).1 = XST_SUCCESS ∨ (SendBankSelect hw s b).1 = XST_FAILURE) := by
  have hne : MICRON_ID ≠ SPANSION_ID := by decide
  have hf : XST_FAILURE ≠ XST_SUCCESS := by decide
  have h6 : u8 WRITE_ENABLE_CMD = WRITE_ENABLE_CMD := by decide
  have hc5 : u8 EXTADD_REG_WR = EXTADD_REG_WR := by decide
  have hc8 : u8 EXTADD_REG_RD = EXTADD_REG_RD := by decide
  have h0 : u8 0 = 0 := by decide
  have hbb : u8 b = b := Nat.mod_eq_of_lt hb
  unfold SendBankSelect micronWrite spansionWrite spansionRead micronRead bankSelRet
  by_cases h1 : (hw s.nxfer).status = XST_SUCCESS
  · by_cases h2 : (hw (s.nxfer + 1)).status = XST_SUCCESS
    · by_cases h3 : (hw (s.nxfer + 2)).status = XST_SUCCESS
      · by_cases h4 : (hw (s.nxfer + 2)).rx 1 = b
        · simp [hm, hne, h1, h2, h3, h4, hf, PolledTransfer, wbSet, sent, untilFail,
            snapshot_take_one, snapshot_take_two, h6, hc5, hc8, h0, hbb,
            COMMAND_OFFSET, ADDRESS_1_OFFSET, BANK_SEL_SIZE, WRITE_ENABLE_CMD_SIZE]
        · simp [hm, hne, h1, h2, h3, h4, hf, PolledTransfer, wbSet, sent, untilFail,
            snapshot_take_one, snapshot_take_two, h6, hc5, hc8, h0, hbb,
            COMMAND_OFFSET, ADDRESS_1_OFFSET, BANK_SEL_SIZE, WRITE_ENABLE_CMD_SIZE]
      · simp [hm, hne, h1, h2, h3, hf, PolledTransfer, wbSet, sent, untilFail,
          snapshot_take_one, snapshot_take_two, h6, hc5, hc8, h0, hbb,
          COMMAND_OFFSET, ADDRESS_1_OFFSET, BANK_SEL_SIZE, WRITE_ENABLE_CMD_SIZE]
    · simp [hm, hne, h1, h2, hf, PolledTransfer, wbSet, sent, untilFail,
        snapshot_take_one, snapshot_take_two, h6, hc5, hc8, h0, hbb,
        COMMAND_OFFSET, ADDRESS_1_OFFSET, BANK_SEL_SIZE, WRITE_ENABLE_CMD_SIZE]
  · simp [hm, hne, h1, hf, PolledTransfer, wbSet, sent, untilFail,
      snapshot_take_one, snapshot_take_two, h6, hc5, hc8, h0, hbb,
      COMMAND_OFFSET, ADDRESS_1_OFFSET, BANK_SEL_SIZE, WRITE_ENABLE_CMD_SIZE]

theorem SendBankSelect_spansion (hw : Nat → Resp) (s : Drv) (b : Nat) (hb : b < 256)
    (hm : s.QspiFlashMake = SPANSION_ID) :
    sent (SendBankSelect hw s b).2.log = sent s.log ++
      untilFail [([BANK_REG_WR, b], false, 2, (hw s.nxfer).status),
        ([BANK_REG_RD, 0], true, 2, (hw (s.nxfer + 1)).status)] ∧
    ((SendBankSelect hw s b).1 = XST_SUCCESS ↔
      (hw s.nxfer).status = XST_SUCCESS ∧ (hw (s.nxfer + 1)).status = XST_SUCCESS ∧
      (hw (s.nxfer + 1)).rx 1 = b) ∧
    ((SendBankSelect hw s b).1 = XST_SUCCESS ∨ (SendBankSelect hw s b).1 = XST_FAILURE) := by
  have hne : SPANSION_ID ≠ MICRON_ID := by decide
  have hf : XST_FAILURE ≠ XST_SUCCESS := by decide
  have h17 : u8 BANK_REG_WR = BANK_REG_WR := by decide
  have h16 : u8 BANK_REG_RD = BANK_REG_RD := by decide
  have h0 : u8 0 = 0 := by decide
  have hbb : u8 b = b := Nat.mod_eq_of_lt hb
  unfold SendBankSelect micronWrite spansionWrite spansionRead micronRead bankSelRet
  by_cases h1 : (hw s.nxfer).status = XST_SUCCESS
  · by_cases h2 : (hw (s.nxfer + 1)).status = XST_SUCCESS
    · by_cases h4 : (hw (s.nxfer + 1)).rx 1 = b
      · simp [hm, hne, h1, h2, h4, hf, PolledTransfer, wbSet, sent, untilFail,
          snapshot_take_two, h17, h16, h0, hbb,
          COMMAND_OFFSET, ADDRESS_1_OFFSET, BANK_SEL_SIZE]
      · simp [hm, hne, h1, h2, h4, hf, PolledTransfer, wbSet, sent, untilFail,
          snapshot_take_two, h17, h16, h0, hbb,
          COMMAND_OFFSET, ADDRESS_1_OFFSET, BANK_SEL_SIZE]
    · simp [hm, hne, h1, h2, hf, PolledTransfer, wbSet, sent, untilFail,
        snapshot_take_two, h17, h16, h0, hbb,
        COMMAND_OFFSET, ADDRESS_1_OFFSET, BANK_SEL_SIZE]
  · simp [hm, hne, h1, hf, PolledTransfer, wbSet, sent, untilFail,
      snapshot_take_two, h17, h16, h0, hbb,
      COMMAND_OFFSET, ADDRESS_1_OFFSET, BANK_SEL_SIZE]

/-- C11. For a bank index `b` that fits the `u8` argument, `SendBankSelect(b)` issues
exactly the command sequence of the vendor family, cut after the first transfer that
fails. Micron: write enable `[0x06]` (1 byte, no receive buffer), extended address write
`[0xC5, b]` (2 bytes, no receive buffer), extended address read `[0xC8, 0]` (2 bytes,
into `ReadBuffer`). Spansion: bank write `[0x17, b]`, bank read `[0x16, 0]`, no write
enable. It returns `XST_SUCCESS` exactly when every transfer of the sequence succeeded
and the byte 1 received by the read equals `b`, and `XST_FAILURE` otherwise; no transfer
follows the read, so a mismatch is not retried. -/
theorem bank_select_command_sequence (hw : Nat → Resp) (s : Drv) (b : Nat) (hb : b < 256) :
    (s.QspiFlashMake = MICRON_ID →
      sent (SendBankSelect hw s b).2.log = sent s.log ++
        untilFail [([0x06], false, 1, (hw s.nxfer).status),
          ([0xC5, b], false, 2, (hw (s.nxfer + 1)).status),
          ([0xC8, 0], true, 2, (hw (s.nxfer + 2)).status)] ∧
      ((SendBankSelect hw s b).1 = XST_SUCCESS ↔
        (hw s.nxfer).status = XST_SUCCESS ∧ (hw (s.nxfer + 1)).status = XST_SUCCESS ∧
        (hw (s.nxfer + 2)).status = XST_SUCCESS ∧ (hw (s.nxfer + 2)).rx 1 = b) ∧
      ((SendBankSelect hw s b).1 = XST_SUCCESS ∨ (SendBankSelect hw s b).1 = XST_FAILURE)) ∧
    (s.QspiFlashMake = SPANSION_ID →
      sent (SendBankSelect hw s b).2.log = sent s.log ++
        untilFail [([0x17, b], false, 2, (hw s.nxfer).status),
          ([0x16, 0], true, 2, (hw (s.nxfer + 1)).status)] ∧
      ((SendBankSelect hw s b).1 = XST_SUCCESS ↔
        (hw s.nxfer).status = XST_SUCCESS ∧ (hw (s.nxfer + 1)).status = XST_SUCCESS ∧
        (hw (s.nxfer + 1)).rx 1 = b) ∧
      ((SendBankSelect hw s b).1 = XST_SUCCESS ∨ (SendBankSelect hw s b).1 = XST_FAILURE)) :=
  ⟨fun hm => SendBankSelect_micron hw s b hb hm,
   fun hm => SendBankSelect_spansion hw s b hb hm⟩

theorem bank_select_command_sequence_witness :
    (1 : Nat) < 256 ∧
    sent (SendBankSelect (echoBus 2 1) (drv0 MICRON_ID 0x2000000) 1).2.log =
      sent (drv0 MICRON_ID 0x2000000).log ++
        untilFail [([0x06], false, 1, XST_SUCCESS), ([0xC5, 1], false, 2, XST_SUCCESS),
          ([0xC8, 0], true, 2, XST_SUCCESS)] :=
  ⟨by decide,
    ((bank_select_command_sequence (echoBus 2 1) (drv0 MICRON_ID 0x2000000) 1
      (by decide)).1 rfl).1⟩

theorem target_stack_low (l : Locals) (s : Drv) (a : Nat)
    (hlo : isUpper s.lqspiCr = false) (ha : a < s.QspiFlashSize / 2) :
    target DUAL_STACK_CONNECTION l s a = (0, a) := by
  have hn : ¬ a ≥ s.QspiFlashSize / 2 := by omega
  unfold target stackSelect
  simp only [if_true, hn, if_false, hlo]
  simp

theorem target_stack_high (l : Locals) (s : Drv) (a : Nat)
    (ha : s.QspiFlashSize / 2 ≤ a) (h32 : a < 4294967296) :
    target DUAL_STACK_CONNECTION l s a = (1, a - s.QspiFlashSize / 2) := by
  have hn : a ≥ s.QspiFlashSize / 2 := ha
  unfold target stackSelect
  simp only [if_true, hn, SetLqspiConfigReg, SetSlaveSelect, isUpper_or]
  rw [sub32_eq a _ ha h32]

theorem target_single (l : Locals) (s : Drv) (a : Nat) (hlo : isUpper s.lqspiCr = false) :
    target SINGLE_FLASH_CONNECTION l s a = (0, a) := by
  have hne : SINGLE_FLASH_CONNECTION ≠ DUAL_STACK_CONNECTION := by decide
  unfold target stackSelect
  simp only [hne, if_false, hlo]
  simp

/-- The translation from a state with the lower chip-select asserted. With the lower
chip-select asserted on entry and an even total size
`T = QspiFlashSize` (a `u32`), the translation that `stackSelect` performs for the stacked
pair sends `a < T / 2` to device 0 at `a` and `T / 2 ≤ a < T` to device 1 at `a - T / 2`,
which is the translation of the specification; on `0 ≤ a < T` it is injective, its values
have device 0 or 1 and an address below `T / 2`, and every such pair is the value at some
`a < T`. For `0 < T` it sends `T / 2` to `(1, 0)` and `T - 1` to `(1, T / 2 - 1)`. For a
single device it is the identity on device 0. -/
theorem stacked_translation_bijective (l : Locals) (s : Drv)
    (heven : s.QspiFlashSize % 2 = 0) (h32 : s.QspiFlashSize ≤ 2 ^ 32)
    (hlo : isUpper s.lqspiCr = false) :
    (∀ a, a < s.QspiFlashSize →
      target DUAL_STACK_CONNECTION l s a =
        translate DUAL_STACK_CONNECTION (s.QspiFlashSize / 2) a) ∧
    (∀ a, a < s.QspiFlashSize / 2 → target DUAL_STACK_CONNECTION l s a = (0, a)) ∧
    (∀ a, s.QspiFlashSize / 2 ≤ a → a < s.QspiFlashSize →
      target DUAL_STACK_CONNECTION l s a = (1, a - s.QspiFlashSize / 2)) ∧
    (∀ a a', a < s.QspiFlashSize → a' < s.QspiFlashSize →
      target DUAL_STACK_CONNECTION l s a = target DUAL_STACK_CONNECTION l s a' → a = a') ∧
    (∀ a, a < s.QspiFlashSize →
      (target DUAL_STACK_CONNECTION l s a).1 ≤ 1 ∧
      (target DUAL_STACK_CONNECTION l s a).2 < s.QspiFlashSize / 2) ∧
    (∀ d p, d ≤ 1 → p < s.QspiFlashSize / 2 →
      ∃ a, a < s.QspiFlashSize ∧ target DUAL_STACK_CONNECTION l s a = (d, p)) ∧
    (0 < s.QspiFlashSize →
      target DUAL_STACK_CONNECTION l s (s.QspiFlashSize / 2) = (1, 0) ∧
      target DUAL_STACK_CONNECTION l s (s.QspiFlashSize - 1) =
        (1, s.QspiFlashSize / 2 - 1)) ∧
    (∀ a, target SINGLE_FLASH_CONNECTION l s a = (0, a)) := by
  have e32 : (2 : Nat) ^ 32 = 4294967296 := by norm_num
  rw [e32] at h32
  generalize hT : s.QspiFlashSize = T at heven h32
  have key : ∀ a, a < T → target DUAL_STACK_CONNECTION l s a =
      if a < T / 2 then (0, a) else (1, a - T / 2) := by
    intro a ha
    by_cases h : a < T / 2
    · rw [if_pos h, target_stack_low l s a hlo (by rw [hT]; exact h)]
    · rw [if_neg h, target_stack_high l s a (by rw [hT]; omega) (by omega), hT]
  have hDS : DUAL_STACK_CONNECTION ≠ DUAL_PARALLEL_CONNECTION := by decide
  refine ⟨?_, ?_, ?_, ?_, ?_, ?_, ?_, ?_⟩
  · intro a ha
    rw [key a ha]
    unfold translate
    rw [if_neg hDS, if_pos rfl]
  · intro a ha
    rw [key a (by omega), if_pos ha]
  · intro a h1 h2
    rw [key a h2, if_neg (by omega)]
  · intro a a' ha ha' h
    rw [key a ha, key a' ha'] at h
    by_cases h1 : a < T / 2 <;> by_cases h2 : a' < T / 2
    · rw [if_pos h1, if_pos h2] at h
      exact (Prod.mk.inj h).2
    · rw [if_pos h1, if_neg h2] at h
      exact absurd (Prod.mk.inj h).1 (by decide)
    · rw [if_neg h1, if_pos h2] at h
      exact absurd (Prod.mk.inj h).1 (by decide)
    · rw [if_neg h1, if_neg h2] at h
      have h3 := (Prod.mk.inj h).2
      omega
  · intro a ha
    rw [key a ha]
    by_cases h1 : a < T / 2
    · rw [if_pos h1]
      exact ⟨Nat.zero_le 1, h1⟩
    · rw [if_neg h1]
      refine ⟨le_refl 1, ?_⟩
      show a - T / 2 < T / 2
      omega
  · intro d p hd hp
    have hd' : d = 0 ∨ d = 1 := by omega
    rcases hd' with hd' | hd'
    · refine ⟨p, by omega, ?_⟩
      rw [key p (by omega), if_pos hp, hd']
    · refine ⟨T / 2 + p, by omega, ?_⟩
      rw [key _ (by omega), if_neg (by omega), hd']
      congr 1
      omega
  · intro hpos
    refine ⟨?_, ?_⟩
    · rw [key _ (by omega), if_neg (by omega), Nat.sub_self]
    · rw [key _ (by omega), if_neg (by omega)]
      congr 1
      omega
  · intro a
    exact target_single l s a hlo

theorem stacked_translation_bijective_witness :
    (drv0 MICRON_ID 0x4000000).QspiFlashSize % 2 = 0 ∧
    (drv0 MICRON_ID 0x4000000).QspiFlashSize ≤ 2 ^ 32 ∧
    isUpper (drv0 MICRON_ID 0x4000000).lqspiCr = false ∧
    target DUAL_STACK_CONNECTION (initLocals DUAL_STACK_CONNECTION 0 0 0 0)
      (drv0 MICRON_ID 0x4000000) ((drv0 MICRON_ID 0x4000000).QspiFlashSize / 2) = (1, 0) :=
  ⟨by decide, by decide, by decide,
    ((stacked_translation_bijective (initLocals DUAL_STACK_CONNECTION 0 0 0 0)
      (drv0 MICRON_ID 0x4000000) (by decide) (by decide) (by decide)).2.2.2.2.2.2.1
      (by decide)).1⟩

theorem shr_and_ff (a k : Nat) : (a >>> k) &&& 0xFF = a / 2 ^ k % 256 := by
  rw [and_ff, Nat.shiftRight_eq_div_pow]

theorem FlashRead_count (n d : Nat) :
    u32 (u32 (n + d) + OVERHEAD_SIZE) = (n + d + 4) % 4294967296 := by
  unfold u32 OVERHEAD_SIZE
  omega

theorem FlashRead_frame (hw : Nat → Resp) (s : Drv) (A n : Nat) :
    (FlashRead hw s A n).WriteBuffer 0 = u8 s.gu8_qspi_read_cmd ∧
    (FlashRead hw s A n).WriteBuffer 1 = A / 65536 % 256 ∧
    (FlashRead hw s A n).WriteBuffer 2 = A / 256 % 256 ∧
    (FlashRead hw s A n).WriteBuffer 3 = A % 256 := by
  unfold FlashRead
  simp only [PolledTransfer, wbSet, ADDRESS_1_OFFSET, ADDRESS_2_OFFSET, ADDRESS_3_OFFSET,
    COMMAND_OFFSET]
  simp only [and_ff, and_ff00, and_ff0000, u8]
  norm_num

theorem FlashRead_ReadBuffer (hw : Nat → Resp) (s : Drv) (A n j : Nat)
    (hj : j < (n + s.gu8_qspi_dummy_byte + 4) % 4294967296) :
    (FlashRead hw s A n).ReadBuffer j = (hw s.nxfer).rx j := by
  rw [← FlashRead_count] at hj
  unfold FlashRead
  simp only [PolledTransfer, wbSet, if_true]
  rw [if_pos hj]

theorem FlashRead_mem (hw : Nat → Resp) (s : Drv) (A n : Nat) :
    (FlashRead hw s A n).mem = s.mem ∧ (FlashRead hw s A n).nxfer = s.nxfer + 1 ∧
    (FlashRead hw s A n).gu8_qspi_dummy_byte = s.gu8_qspi_dummy_byte := by
  simp [FlashRead, PolledTransfer, wbSet]

/-- C13 (as stated, refuted). With one dummy byte, `FlashRead(0, 2^32 - 1)`
requests a transfer of 4 bytes: `ByteCount += gu8_qspi_dummy_byte` wraps to 0 in `u32`.
The claim asks for `n + dummy + 4` bytes. -/
theorem flash_read_count_refuted :
    (sent (FlashRead (fun _ => ⟨XST_SUCCESS, fun _ => 0⟩) (drv0 MICRON_ID 0x2000000) 0
      (2 ^ 32 - 1)).log).map (fun x => x.2.2.1) = [4] ∧
    (2 ^ 32 - 1) + (drv0 MICRON_ID 0x2000000).gu8_qspi_dummy_byte + 4 ≠ 4 := by
  decide

/-- C13 (amended). For every address `A` and byte count `n`, `FlashRead(A, n)` leaves
the frame `WriteBuffer[0..3] = [read command, (A >> 16) & 0xFF, (A >> 8) & 0xFF,
A & 0xFF]`, whose three address bytes are `A mod 2^24` most significant byte first, and
issues exactly one transfer, with that frame, into `ReadBuffer`, of
`(n + dummy + 4) mod 2^32` bytes, which is `n + dummy + 4` whenever that sum is below
`2^32`; the bytes of `ReadBuffer` below the count are the response. The read step of
`QspiAccess` then copies `Length` bytes, the count it handed to `FlashRead`, from offset
`4 + dummy` of `ReadBuffer` to `BufferPtr`, and writes no other memory. -/
theorem flash_read_frame_and_copy (mode : Nat) (hw : Nat → Resp) (l : Locals) (s : Drv)
    (A n : Nat) (hc : s.gu8_qspi_read_cmd < 256) :
    ((FlashRead hw s A n).WriteBuffer 0 = s.gu8_qspi_read_cmd ∧
      (FlashRead hw s A n).WriteBuffer 1 = (A >>> 16) &&& 0xFF ∧
      (FlashRead hw s A n).WriteBuffer 2 = (A >>> 8) &&& 0xFF ∧
      (FlashRead hw s A n).WriteBuffer 3 = A &&& 0xFF) ∧
    frameAddr (FlashRead hw s A n).WriteBuffer = A % 2 ^ 24 ∧
    (FlashRead hw s A n).log = s.log ++
      [Event.flashRead s.lqspiCr A n,
       Event.xfer ((List.range 12).map (FlashRead hw s A n).WriteBuffer) true
         ((n + s.gu8_qspi_dummy_byte + 4) % 2 ^ 32) (hw s.nxfer).status] ∧
    (FlashRead hw s A n).nxfer = s.nxfer + 1 ∧
    (n + s.gu8_qspi_dummy_byte + 4 < 2 ^ 32 →
      (n + s.gu8_qspi_dummy_byte + 4) % 2 ^ 32 = n + s.gu8_qspi_dummy_byte + 4) ∧
    (∀ j, j < (n + s.gu8_qspi_dummy_byte + 4) % 2 ^ 32 →
      (FlashRead hw s A n).ReadBuffer j = (hw s.nxfer).rx j) ∧
    (readAdvance mode hw l s).2.log = (FlashRead hw s l.SourceAddress l.Length).log ++
      [Event.memcpy l.BufferPtr (4 + s.gu8_qspi_dummy_byte) l.Length] ∧
    (∀ i, i < l.Length →
      (readAdvance mode hw l s).2.mem (l.BufferPtr + i) =
        (FlashRead hw s l.SourceAddress l.Length).ReadBuffer
          (4 + s.gu8_qspi_dummy_byte + i)) ∧
    (∀ a, a < l.BufferPtr ∨ l.BufferPtr + l.Length ≤ a →
      (readAdvance mode hw l s).2.mem a = s.mem a) := by
  have e32 : (2 : Nat) ^ 32 = 4294967296 := by norm_num
  have e24 : (2 : Nat) ^ 24 = 16777216 := by norm_num
  have hf := FlashRead_frame hw s A n
  have hm := FlashRead_mem hw s l.SourceAddress l.Length
  rw [e32, e24]
  refine ⟨⟨?_, ?_, ?_, ?_⟩, FlashRead_WriteBuffer hw s A n, ?_, (FlashRead_mem hw s A n).2.1,
    fun h => Nat.mod_eq_of_lt h, fun j hj => FlashRead_ReadBuffer hw s A n j hj, ?_, ?_, ?_⟩
  · rw [hf.1]
    exact Nat.mod_eq_of_lt hc
  · rw [hf.2.1, shr_and_ff]
    norm_num
  · rw [hf.2.2.1, shr_and_ff]
    norm_num
  · rw [hf.2.2.2, and_ff]
  · rw [FlashRead_log, FlashRead_count]
  · show (copyOut (FlashRead hw s l.SourceAddress l.Length) l.BufferPtr l.Length).log = _
    unfold copyOut
    simp only [DATA_OFFSET, hm.2.2]
  · intro i hi
    show (copyOut (FlashRead hw s l.SourceAddress l.Length) l.BufferPtr l.Length).mem _ = _
    unfold copyOut
    simp only [DATA_OFFSET, hm.2.2]
    rw [if_pos ⟨by omega, by omega⟩, Nat.add_sub_cancel_left]
  · intro a ha
    show (copyOut (FlashRead hw s l.SourceAddress l.Length) l.BufferPtr l.Length).mem _ = _
    unfold copyOut
    simp only []
    rw [if_neg (by omega), hm.1]

theorem flash_read_frame_and_copy_witness :
    (drv0 MICRON_ID 0x2000000).gu8_qspi_read_cmd < 256 ∧
    frameAddr (FlashRead (echoBus 0 0) (drv0 MICRON_ID 0x2000000) 0x1234567 16).WriteBuffer =
      0x1234567 % 2 ^ 24 :=
  ⟨by decide,
    (flash_read_frame_and_copy SINGLE_FLASH_CONNECTION (echoBus 0 0)
      (initLocals SINGLE_FLASH_CONNECTION 0 0 0 16) (drv0 MICRON_ID 0x2000000)
      0x1234567 16 (by decide)).2.1⟩

theorem SendBankSelect_other (hw : Nat → Resp) (s : Drv) (b : Nat)
    (hmk : s.QspiFlashMake ≠ MICRON_ID) (hsp : s.QspiFlashMake ≠ SPANSION_ID) :
    SendBankSelect hw s b =
      bankSelRet s.lqspiCr b (if s.ReadBuffer 1 ≠ b then XST_FAILURE else XST_SUCCESS) s := by
  unfold SendBankSelect micronWrite spansionWrite spansionRead micronRead
  simp only [if_neg hmk, if_neg hsp, Bool.not_true, Bool.false_eq_true, if_false]
  split_ifs <;> rfl

theorem readAdvance_last (mode : Nat) (hw : Nat → Resp) (l : Locals) (t : Drv)
    (hd : t.gu8_qspi_dummy_byte < 256) (hl : l.Length ≤ 4096) :
    LastRead hw (readAdvance mode hw l t).2 := by
  have hm := FlashRead_mem hw t l.SourceAddress l.Length
  have hrb := FlashRead_ReadBuffer hw t l.SourceAddress l.Length 1 (by omega)
  have hlog := FlashRead_log hw t l.SourceAddress l.Length
  show LastRead hw (copyOut (FlashRead hw t l.SourceAddress l.Length) l.BufferPtr l.Length)
  unfold LastRead copyOut
  simp only []
  rw [hm.2.1, Nat.add_sub_cancel, hrb, hlog]
  refine ⟨Nat.succ_pos _, rfl, t.log, t.lqspiCr, l.SourceAddress, l.Length,
    (List.range 12).map (FlashRead hw t l.SourceAddress l.Length).WriteBuffer,
    u32 (u32 (l.Length + t.gu8_qspi_dummy_byte) + OVERHEAD_SIZE), l.BufferPtr,
    DATA_OFFSET + (FlashRead hw t l.SourceAddress l.Length).gu8_qspi_dummy_byte, l.Length, ?_⟩
  rw [List.append_assoc]
  rfl

theorem stackSelect_dummy (mode : Nat) (l : Locals) (s : Drv) :
    (stackSelect mode l s).2.gu8_qspi_dummy_byte = s.gu8_qspi_dummy_byte :=
  (Eff_stackSelect mode l s).2.2.2.2.2.2.2

/-- Under the invariant, a pass that reads a chunk ends right after a read step. -/
theorem loopBody_last (mode : Nat) (hw : Nat → Resp) (l l' : Locals) (s s' : Drv) (a : Nat)
    (hd : s.gu8_qspi_dummy_byte < 256) (hI : Inv mode s a l) (hr : 0 < l.LengthBytes)
    (hb : loopBody mode hw l s = Step.next l' s') : LastRead hw s' := by
  obtain ⟨sel, fl, cr, len, -, -, -, hlen, -, -, h4096, -⟩ :=
    iter_inv mode hw l l' s s' a hI hr hb
  have hspec := loopBody_spec mode hw l s
  have hf := stackSelect_fields mode { l with Length := chunkCap l.LengthBytes } s
  have hsd := stackSelect_dummy mode { l with Length := chunkCap l.LengthBytes } s
  have hpd : perDev mode l s =
    (stackSelect mode { l with Length := chunkCap l.LengthBytes } s).1.SourceAddress := rfl
  simp only [] at hspec hf hsd
  generalize stackSelect mode { l with Length := chunkCap l.LengthBytes } s = ps
    at hspec hf hsd hpd
  obtain ⟨p, s1⟩ := ps
  simp only [] at hspec hf hsd hpd
  obtain ⟨h1, h2, h3⟩ := hspec
  have hfl := hf.1
  clear hf hI
  rw [hpd] at hlen
  by_cases hc : p.SourceAddress ≥ FLASH_SIZE_16MB ∧ p.BankSwitchFlag = 1
  · by_cases hq : (SendBankSelect hw s1 (u8 (p.SourceAddress / FLASH_SIZE_16MB))).1 = XST_SUCCESS
    · rw [h3 hc hq] at hb
      injection hb with _ hs
      rw [← hs]
      apply readAdvance_last
      · rw [(Eff_SendBankSelect hw s1 _).2.2.2.2.2.2.2, hsd]
        exact hd
      · rw [chunkBank_Length]
        simp only []
        rw [hfl, ← hlen]
        exact h4096
    · rw [h2 hc hq] at hb
      cases hb
  · rw [h1 hc] at hb
    injection hb with _ hs
    rw [← hs]
    apply readAdvance_last
    · rw [hsd]
      exact hd
    · rw [chunkBank_Length, hfl, ← hlen]
      exact h4096

/-- The loop, run to its end under the invariant from a state right after a read step or
with bytes left to read, ends right after a read step. -/
theorem loop_last (mode : Nat) (hw : Nat → Resp) :
    ∀ (fuel : Nat) (l l1 : Locals) (s s1 : Drv) (a : Nat), Inv mode s a l →
      s.gu8_qspi_dummy_byte < 256 → (l.LengthBytes = 0 → LastRead hw s) →
      QspiAccessLoop mode hw fuel l s = some (Step.next l1 s1) → LastRead hw s1 := by
  intro fuel
  induction fuel with
  | zero =>
    intro l l1 s s1 a _ _ _ h
    simp [QspiAccessLoop] at h
  | succ fuel ih =>
    intro l l1 s s1 a hI hd h0 h
    rw [QspiAccessLoop_succ] at h
    by_cases hr : l.LengthBytes > 0
    · rw [if_pos hr] at h
      cases hb : loopBody mode hw l s with
      | abort l2 s2 =>
        rw [hb] at h
        simp at h
      | next l2 s2 =>
        rw [hb] at h
        simp only [] at h
        have hlast := loopBody_last mode hw l l2 s s2 a hd hI hr hb
        obtain ⟨sel, fl, cr, len, -, -, heff, -, -, -, -, -, -, -, -, -, -, -, -, hI'⟩ :=
          iter_inv mode hw l l2 s s2 a hI hr hb
        exact ih l2 l1 s2 s1 (a + len) hI' (by rw [heff.2.2.2.2.2.2.2]; exact hd)
          (fun _ => hlast) h
    · rw [if_neg hr] at h
      simp only [Option.some.injEq, Step.next.injEq] at h
      rw [← h.2]
      exact h0 (by omega)

/-- The loop leaves the configuration globals alone. -/
theorem loop_make (mode : Nat) (hw : Nat → Resp) :
    ∀ (fuel : Nat) (l l1 : Locals) (s s1 : Drv),
      QspiAccessLoop mode hw fuel l s = some (Step.next l1 s1) →
      s1.QspiFlashMake = s.QspiFlashMake := by
  intro fuel
  induction fuel with
  | zero =>
    intro l l1 s s1 h
    simp [QspiAccessLoop] at h
  | succ fuel ih =>
    intro l l1 s s1 h
    rw [QspiAccessLoop_succ] at h
    by_cases hr : l.LengthBytes > 0
    · rw [if_pos hr] at h
      cases hb : loopBody mode hw l s with
      | abort l2 s2 =>
        rw [hb] at h
        simp at h
      | next l2 s2 =>
        rw [hb] at h
        simp only [] at h
        obtain ⟨sel, fl, p, cr, len, -, -, -, -, -, -, -, -, -, heff⟩ :=
          loopBody_next mode hw l l2 s s2 hb
        rw [ih l2 l1 s2 s1 h, heff.2.2.2.1]
    · rw [if_neg hr] at h
      simp only [Option.some.injEq, Step.next.injEq] at h
      rw [← h.2]

/-- C14. On a device whose make is neither Micron nor Spansion, `SendBankSelect(b)`
issues no transfer (the transfer counter, the transfers of the trace and `ReadBuffer` are
as before) and returns `XST_SUCCESS` exactly when byte 1 of `ReadBuffer`, as it stands on
entry, equals `b`, and `XST_FAILURE` otherwise. So a manual-mode `QspiAccess` on such a
device whose loop ran to its end in the state `s1` returns `XST_FAILURE` from the exit
reset, with no further transfer, whenever `s1.ReadBuffer[1]` is not 0, and `XST_SUCCESS`
when it is 0; and for a request of at least one byte inside the flash, `s1.ReadBuffer[1]`
is byte 1 of the response to the transfer of the last `FlashRead`, the last transfer
issued. -/
theorem other_make_exit_compares_stale_byte (hw : Nat → Resp) (s : Drv)
    (hmk : s.QspiFlashMake ≠ MICRON_ID) (hsp : s.QspiFlashMake ≠ SPANSION_ID) :
    (∀ b, (SendBankSelect hw s b).2.nxfer = s.nxfer ∧
      sent (SendBankSelect hw s b).2.log = sent s.log ∧
      (SendBankSelect hw s b).2.ReadBuffer = s.ReadBuffer ∧
      ((SendBankSelect hw s b).1 = XST_SUCCESS ↔ s.ReadBuffer 1 = b) ∧
      ((SendBankSelect hw s b).1 = XST_FAILURE ↔ s.ReadBuffer 1 ≠ b)) ∧
    (∀ mode fuel cr0 S D L l1 s1, s.LinearBootDeviceFlag ≠ 1 →
      QspiAccessLoop mode hw fuel (initLocals mode cr0 S D L) s = some (Step.next l1 s1) →
      (s1.ReadBuffer 1 ≠ 0 →
        QspiAccess mode hw fuel cr0 s S D L =
          some (XST_FAILURE,
            { s1 with log := s1.log ++ [Event.bankSel s1.lqspiCr 0 XST_FAILURE] })) ∧
      (s1.ReadBuffer 1 = 0 →
        ∃ s', QspiAccess mode hw fuel cr0 s S D L = some (XST_SUCCESS, s') ∧
          s'.nxfer = s1.nxfer) ∧
      (InFlash mode s S L → 0 < L → s.gu8_qspi_dummy_byte < 256 → LastRead hw s1)) := by
  have hf : XST_FAILURE ≠ XST_SUCCESS := by decide
  refine ⟨?_, ?_⟩
  · intro b
    rw [SendBankSelect_other hw s b hmk hsp]
    unfold bankSelRet
    refine ⟨rfl, ?_, rfl, ?_, ?_⟩
    · simp only []
      rw [sent_append]
      simp [sent]
    · by_cases h : s.ReadBuffer 1 = b
      · simp [h]
      · simp [h, hf]
    · by_cases h : s.ReadBuffer 1 = b
      · simp [h, hf.symm]
      · simp [h]
  · intro mode fuel cr0 S D L l1 s1 hlin hloop
    have hmake := loop_make mode hw fuel _ l1 s s1 hloop
    have hx := SendBankSelect_other hw s1 0 (by rw [hmake]; exact hmk)
      (by rw [hmake]; exact hsp)
    have hq : QspiAccess mode hw fuel cr0 s S D L = some (QspiAccessExit mode hw l1 s1) := by
      unfold QspiAccess
      rw [if_neg hlin, hloop]
    refine ⟨?_, ?_, ?_⟩
    · intro hnz
      rw [hq]
      unfold QspiAccessExit
      rw [hx, if_pos hnz]
      unfold bankSelRet
      simp only [if_pos hf]
    · intro hz
      rw [hq]
      unfold QspiAccessExit
      rw [hx, if_neg (not_not.mpr hz)]
      unfold bankSelRet
      simp only [ne_eq, not_true_eq_false, if_false]
      split_ifs
      · exact ⟨_, rfl, rfl⟩
      · exact ⟨_, rfl, rfl⟩
    · intro hin hL hd
      refine loop_last mode hw fuel _ l1 s s1 S (Inv_init mode cr0 s S D L hin) hd ?_ hloop
      intro h0
      have : (initLocals mode cr0 S D L).LengthBytes = L := rfl
      omega

theorem other_make_exit_compares_stale_byte_witness :
    (drv0 WINBOND_ID 0x1000000).QspiFlashMake ≠ MICRON_ID ∧
    (drv0 WINBOND_ID 0x1000000).QspiFlashMake ≠ SPANSION_ID ∧
    (QspiAccess SINGLE_FLASH_CONNECTION (echoBus 0 7) 2 0 (drv0 WINBOND_ID 0x1000000)
      0 0 4).map (fun r => (r.1, r.2.nxfer)) = some (XST_FAILURE, 1) :=
  ⟨by decide, by decide,
    congrArg (Option.map (fun r => (r.1, r.2.nxfer)))
      (((other_make_exit_compares_stale_byte (echoBus 0 7) (drv0 WINBOND_ID 0x1000000)
        (by decide) (by decide)).2 SINGLE_FLASH_CONNECTION 2 0 0 0 4
        (loopBody SINGLE_FLASH_CONNECTION (echoBus 0 7)
          (initLocals SINGLE_FLASH_CONNECTION 0 0 0 4) (drv0 WINBOND_ID 0x1000000)).locals
        (loopBody SINGLE_FLASH_CONNECTION (echoBus 0 7)
          (initLocals SINGLE_FLASH_CONNECTION 0 0 0 4) (drv0 WINBOND_ID 0x1000000)).drv
        (by decide) (by rfl)).1 (by decide))⟩

/-- C3 (the code at the failing input). Stacked pair of two 32 MiB Micron devices, lower
chip-select asserted, all banks 0. A first call `QspiAccess(0x2000000, 0, 4)` reads the
upper device and returns `XST_FAILURE` because the write enable of the exit bank reset
(transfer 1) fails; it returns at lines 804-808, before the reset to `L_PAGE`, so
`U_PAGE` stays set. The next call `QspiAccess(0, 0, 4)`, on which every transfer
succeeds, returns `XST_SUCCESS` and has read its one chunk of 4 bytes at address 0 with
`U_PAGE` set, that is from the upper device, while the translation assigns device 0 to
the logical address 0. The reads of both calls are listed as `(upper, address, count)`. -/
theorem stale_upper_select_misreads :
    (QspiAccess DUAL_STACK_CONNECTION (failBus 1) 2 0 (drv0 MICRON_ID 0x4000000)
        0x2000000 0 4).map (fun r => (r.1, isUpper r.2.lqspiCr)) =
      some (XST_FAILURE, true) ∧
    (QspiAccess DUAL_STACK_CONNECTION (failBus 1) 2 0
        (stateOf (QspiAccess DUAL_STACK_CONNECTION (failBus 1) 2 0
          (drv0 MICRON_ID 0x4000000) 0x2000000 0 4) (drv0 MICRON_ID 0x4000000))
        0 0 4).map
      (fun r => (r.1, (reads r.2.log).map (fun x => (isUpper x.1, x.2.1, x.2.2)),
        copies r.2.log)) =
      some (XST_SUCCESS, [(true, 0, 4), (true, 0, 4)], [(0, 5, 4), (0, 5, 4)]) ∧
    translate DUAL_STACK_CONNECTION (0x4000000 / 2) 0 = (0, 0) := by
  decide

/-- C12 (the code at the failing input). Stacked pair of two 32 MiB Micron devices
(`T = 0x4000000`), in the state left by a call `QspiAccess(0x2000000, 0, 4)` that returned
`XST_FAILURE` from its exit bank reset (lines 804-808), with `U_PAGE` still set: the
translation of `stackSelect` sends the logical address 5 to device 1 at 5, the target of
the logical address `T / 2 + 5`, while the claimed translation sends 5 to device 0. -/
theorem stale_upper_select_collides :
    (QspiAccess DUAL_STACK_CONNECTION (failBus 1) 2 0 (drv0 MICRON_ID 0x4000000)
        0x2000000 0 4).map (fun r => r.1) = some XST_FAILURE ∧
    target DUAL_STACK_CONNECTION (initLocals DUAL_STACK_CONNECTION 0 5 0 4)
      (stateOf (QspiAccess DUAL_STACK_CONNECTION (failBus 1) 2 0
        (drv0 MICRON_ID 0x4000000) 0x2000000 0 4) (drv0 MICRON_ID 0x4000000)) 5 = (1, 5) ∧
    target DUAL_STACK_CONNECTION (initLocals DUAL_STACK_CONNECTION 0 5 0 4)
      (stateOf (QspiAccess DUAL_STACK_CONNECTION (failBus 1) 2 0
        (drv0 MICRON_ID 0x4000000) 0x2000000 0 4) (drv0 MICRON_ID 0x4000000))
      (0x4000000 / 2 + 5) = (1, 5) ∧
    translate DUAL_STACK_CONNECTION (0x4000000 / 2) 5 = (0, 5) := by
  decide

theorem reads_ctl (es : List Event) : reads (ctl es) = reads es := by
  induction es with
  | nil => rfl
  | cons e es ih =>
    cases e <;> simp_all [reads, ctl, List.filter_cons]

theorem copies_ctl (es : List Event) : copies (ctl es) = copies es := by
  induction es with
  | nil => rfl
  | cons e es ih =>
    cases e <;> simp_all [copies, ctl, List.filter_cons]

theorem bankSels_ctl (es : List Event) : bankSels (ctl es) = bankSels es := by
  induction es with
  | nil => rfl
  | cons e es ih =>
    cases e <;> simp_all [bankSels, ctl, List.filter_cons]

/-- Completed passes cost fuel and nothing else: the loop started before them does, with
as many more passes of fuel, what the loop started after them does. -/
theorem Passes_fuel (mode : Nat) (hw : Nat → Resp) (l l0 : Locals) (s s0 : Drv)
    (hp : Passes mode hw l s l0 s0) :
    ∃ n, ∀ fuel, QspiAccessLoop mode hw (fuel + n) l s = QspiAccessLoop mode hw fuel l0 s0 := by
  induction hp with
  | refl l s => exact ⟨0, fun fuel => rfl⟩
  | step l l1 l2 s s1 s2 hr hb h ih =>
    obtain ⟨n, hn⟩ := ih
    refine ⟨n + 1, fun fuel => ?_⟩
    rw [← Nat.add_assoc, QspiAccessLoop_succ, if_pos hr, hb]
    exact hn fuel

/-- More fuel does not change a result. -/
theorem loop_mono (mode : Nat) (hw : Nat → Resp) :
    ∀ (fuel : Nat) (l : Locals) (s : Drv) (r : Step),
      QspiAccessLoop mode hw fuel l s = some r →
      ∀ k, QspiAccessLoop mode hw (fuel + k) l s = some r := by
  intro fuel
  induction fuel with
  | zero =>
    intro l s r h
    simp [QspiAccessLoop] at h
  | succ fuel ih =>
    intro l s r h k
    rw [QspiAccessLoop_succ] at h
    rw [Nat.add_right_comm, QspiAccessLoop_succ]
    by_cases hr : l.LengthBytes > 0
    · rw [if_pos hr] at h ⊢
      cases hb : loopBody mode hw l s with
      | abort l1 s1 =>
        rw [hb] at h
        exact h
      | next l1 s1 =>
        rw [hb] at h
        exact ih l1 s1 r h k
    · rw [if_neg hr] at h ⊢
      exact h

/-- A pass whose bank select fails aborts in the state that `SendBankSelect` left. -/
theorem loopBody_select_fails (mode : Nat) (hw : Nat → Resp) (l : Locals) (s : Drv)
    (hc : perDev mode l s ≥ FLASH_SIZE_16MB ∧ l.BankSwitchFlag = 1)
    (hq : (passSelect mode hw l s).1 ≠ XST_SUCCESS) :
    ∃ lb, loopBody mode hw l s = Step.abort lb (passSelect mode hw l s).2 := by
  have hspec := (loopBody_spec mode hw l s).2.1
  have hf := (stackSelect_fields mode { l with Length := chunkCap l.LengthBytes } s).2.2.2.1
  simp only [] at hspec
  exact ⟨_, hspec ⟨hc.1, by rw [hf]; exact hc.2⟩ hq⟩

/-- C6. In a manual-mode call, after any number of completed passes of the loop, let the
next pass (with bytes remaining) issue its `SendBankSelect`, and let that call not return
`XST_SUCCESS` (a transfer failed or the read-back differs). Then `QspiAccess` returns
`XST_FAILURE` in the state that `SendBankSelect` left: with fuel for the completed passes
and one more it returns exactly that, and with any fuel it returns nothing else. The
trace then holds the reads and copies of the completed passes and no other, the pass in
progress having appended only its chip-select writes and the failed bank select; the
loop stops with the remaining length and the destination pointer of the completed
passes; and the memory is as the completed passes left it. -/
theorem bank_select_failure_aborts (mode : Nat) (hw : Nat → Resp) (cr0 : Nat) (s s0 : Drv)
    (l0 : Locals) (S D L : Nat) (hlin : s.LinearBootDeviceFlag ≠ 1)
    (hp : Passes mode hw (initLocals mode cr0 S D L) s l0 s0)
    (hr : 0 < l0.LengthBytes)
    (hc : perDev mode l0 s0 ≥ FLASH_SIZE_16MB ∧ l0.BankSwitchFlag = 1)
    (hq : (passSelect mode hw l0 s0).1 ≠ XST_SUCCESS) :
    (∃ n, ∀ fuel, n < fuel →
      QspiAccess mode hw fuel cr0 s S D L =
        some (XST_FAILURE, (passSelect mode hw l0 s0).2) ∧
      ∃ lb, QspiAccessLoop mode hw fuel (initLocals mode cr0 S D L) s =
          some (Step.abort lb (passSelect mode hw l0 s0).2) ∧
        lb.LengthBytes = l0.LengthBytes ∧ lb.BufferPtr = l0.BufferPtr) ∧
    (∀ fuel r, QspiAccess mode hw fuel cr0 s S D L = some r →
      r = (XST_FAILURE, (passSelect mode hw l0 s0).2)) ∧
    (∃ cr b, ctl (passSelect mode hw l0 s0).2.log = ctl s0.log ++
      (stackEvs mode l0.SourceAddress s0 ++
        [Event.bankSel cr b (passSelect mode hw l0 s0).1])) ∧
    reads (passSelect mode hw l0 s0).2.log = reads s0.log ∧
    copies (passSelect mode hw l0 s0).2.log = copies s0.log ∧
    (passSelect mode hw l0 s0).2.mem = s0.mem := by
  obtain ⟨lb, hb⟩ := loopBody_select_fails mode hw l0 s0 hc hq
  obtain ⟨cr, b, st, hst, heff, hlen, hbp, hmem⟩ :=
    loopBody_abort mode hw l0 lb s0 _ hb
  obtain ⟨n, hn⟩ := Passes_fuel mode hw _ l0 s s0 hp
  have hloop : ∀ fuel, n < fuel →
      QspiAccessLoop mode hw fuel (initLocals mode cr0 S D L) s =
        some (Step.abort lb (passSelect mode hw l0 s0).2) := by
    intro fuel hf
    obtain ⟨k, rfl⟩ : ∃ k, fuel = (k + 1) + n := ⟨fuel - n - 1, by omega⟩
    rw [hn (k + 1), QspiAccessLoop_succ, if_pos hr, hb]
  have hacc : ∀ fuel, n < fuel → QspiAccess mode hw fuel cr0 s S D L =
      some (XST_FAILURE, (passSelect mode hw l0 s0).2) := by
    intro fuel hf
    unfold QspiAccess
    rw [if_neg hlin, hloop fuel hf]
  have hbs : ∃ cr b, ctl (passSelect mode hw l0 s0).2.log = ctl s0.log ++
      (stackEvs mode l0.SourceAddress s0 ++
        [Event.bankSel cr b (passSelect mode hw l0 s0).1]) := by
    have e1 := Eff_stackSelect mode { l0 with Length := chunkCap l0.LengthBytes } s0
    have e2 := Eff_SendBankSelect hw
      (stackSelect mode { l0 with Length := chunkCap l0.LengthBytes } s0).2
      (u8 ((stackSelect mode { l0 with Length := chunkCap l0.LengthBytes } s0).1.SourceAddress
        / FLASH_SIZE_16MB))
    exact ⟨_, _, (e1.trans e2).1⟩
  refine ⟨⟨n, fun fuel hf => ⟨hacc fuel hf, lb, hloop fuel hf, hlen, hbp⟩⟩, ?_, hbs, ?_, ?_, hmem⟩
  · intro fuel r h
    unfold QspiAccess at h
    rw [if_neg hlin] at h
    cases hl : QspiAccessLoop mode hw fuel (initLocals mode cr0 S D L) s with
    | none =>
      rw [hl] at h
      simp at h
    | some res =>
      have h1 := loop_mono mode hw fuel _ s res hl (n + 1)
      rw [hloop (fuel + (n + 1)) (by omega)] at h1
      simp only [Option.some.injEq] at h1
      rw [hl, ← h1] at h
      simp only [Option.some.injEq] at h
      exact h.symm
  · rw [← reads_ctl, heff.1, reads_append, reads_append, reads_stackEvs, reads_ctl]
    simp [reads]
  · rw [← copies_ctl, heff.1, copies_append, copies_append, copies_stackEvs, copies_ctl]
    simp [copies]

theorem bank_select_failure_aborts_witness :
    (drv0 MICRON_ID 0x2000000).LinearBootDeviceFlag ≠ 1 ∧
    0 < (loopBody SINGLE_FLASH_CONNECTION (failBus 1)
      (initLocals SINGLE_FLASH_CONNECTION 0 (2 ^ 24 - 10) 0 20)
      (drv0 MICRON_ID 0x2000000)).locals.LengthBytes ∧
    (passSelect SINGLE_FLASH_CONNECTION (failBus 1)
      (loopBody SINGLE_FLASH_CONNECTION (failBus 1)
        (initLocals SINGLE_FLASH_CONNECTION 0 (2 ^ 24 - 10) 0 20)
        (drv0 MICRON_ID 0x2000000)).locals
      (loopBody SINGLE_FLASH_CONNECTION (failBus 1)
        (initLocals SINGLE_FLASH_CONNECTION 0 (2 ^ 24 - 10) 0 20)
        (drv0 MICRON_ID 0x2000000)).drv).1 ≠ XST_SUCCESS ∧
    ∀ fuel r, QspiAccess SINGLE_FLASH_CONNECTION (failBus 1) fuel 0
        (drv0 MICRON_ID 0x2000000) (2 ^ 24 - 10) 0 20 = some r →
      r = (XST_FAILURE, (passSelect SINGLE_FLASH_CONNECTION (failBus 1)
        (loopBody SINGLE_FLASH_CONNECTION (failBus 1)
          (initLocals SINGLE_FLASH_CONNECTION 0 (2 ^ 24 - 10) 0 20)
          (drv0 MICRON_ID 0x2000000)).locals
        (loopBody SINGLE_FLASH_CONNECTION (failBus 1)
          (initLocals SINGLE_FLASH_CONNECTION 0 (2 ^ 24 - 10) 0 20)
          (drv0 MICRON_ID 0x2000000)).drv).2) :=
  ⟨by decide, by decide, by decide,
    (bank_select_failure_aborts SINGLE_FLASH_CONNECTION (failBus 1) 0
      (drv0 MICRON_ID 0x2000000)
      (loopBody SINGLE_FLASH_CONNECTION (failBus 1)
        (initLocals SINGLE_FLASH_CONNECTION 0 (2 ^ 24 - 10) 0 20)
        (drv0 MICRON_ID 0x2000000)).drv
      (loopBody SINGLE_FLASH_CONNECTION (failBus 1)
        (initLocals SINGLE_FLASH_CONNECTION 0 (2 ^ 24 - 10) 0 20)
        (drv0 MICRON_ID 0x2000000)).locals
      (2 ^ 24 - 10) 0 20 (by decide)
      (Passes.step _ _ _ _ _ _ (by decide) (by rfl) (Passes.refl _ _))
      (by decide) ⟨by decide, by decide⟩ (by decide)).2.1⟩

end Qspi
